import Mathlib

/-!
# dc4bc: the client loop, shallowly embedded

The online client of dc4bc (`client/client.go`) reads messages from an
append-only log, feeds them to a per-round FSM and persists an offset, FSM
snapshots, an operation pool and reconstructed signatures through its local
state adapter.

The embedding is a state-passing translation of `BaseClient.ProcessMessage`,
`BaseClient.handleProcessedOperation` and their helpers.  Every call made on
the `State`, `Storage` and `KeyStore` interfaces is recorded, in order, in the
list of calls of a run, so that statements about what was written, how often
and in which order are statements about that list.

Code that the client calls but that lives in other packages (the FSM
provider, the JSON codecs, Ed25519, the message codec) is taken as a
parameter, collected in `Env`; the wall-clock readings and the UUID drawn by
one run are collected in `Ambient`.

The store of the airgapped machine (`airgapped/storage.go`) is embedded over
an association list for the LevelDB content, with the failures of the store,
the curve codecs and the JSON codec of the operations log collected in
`AirEnv`.  The event table of the DKG-proposal FSM
(`dkg_proposal_fsm/init.go`) is embedded as a list of `EventDesc`, and the
processing of deals (`dkg/dkg.go`) over the kyber library collected in
`DKGEnv`.  The payload types of the FSMs (`internal/types.go`) are embedded
in the namespace `internal`, and the handlers of the HTTP server
(`client/http_server.go`) as functions from a request to the steps of the
handler and the way it ends, over the client methods collected in `HttpEnv`.
-/

namespace DC4BC

/-! ## Data model -/

deriving instance DecidableEq for Except

/-- Go `[]byte`. -/
abbrev Bytes := List Nat

/-- Error values: the chain of `fmt.Errorf("...: %w", err)` wrappings,
outermost message first. -/
abbrev Err := List String

/-- Wrapping of an error, `fmt.Errorf(msg + ": %w", err)`. -/
def wrap (msg : String) (e : Err) : Err := msg :: e

/-- Width of the Go type `uint64`. -/
def uint64Size : Nat := 2 ^ 64

/-- Conversion of a natural number to `uint64` (wrap-around). -/
def u64 (n : Nat) : Nat := n % uint64Size

/-- The log entry `storage.Message`. `Offset` is a `uint64`. -/
structure Message where
  ID : String
  DkgRoundID : String
  Offset : Nat
  Event : String
  Data : Bytes
  Signature : Bytes
  SenderAddr : String
  RecipientAddr : String
  deriving DecidableEq, Repr

/-- The work ticket `types.Operation`. `OperationType` is the Go field `Type`
(of type `types.OperationType`), the name of the FSM state that awaits the
confirmation; `CreatedAt` is an instant. -/
structure Operation where
  ID : String
  OperationType : String
  Payload : Bytes
  Result : Bytes
  ResultMsgs : List Message
  CreatedAt : Nat
  DKGIdentifier : String
  deriving DecidableEq, Repr

/-- The record `types.ReconstructedSignature`. -/
structure ReconstructedSignature where
  SigID : String
  SignedData : Bytes
  Signature : Bytes
  Username : String
  DKGRoundID : String
  deriving DecidableEq, Repr

/-- The quorum entry returned by `SigningQuorumGetParticipant`; the client
reads its `Username`. -/
structure SigningProposalParticipant where
  Username : String
  Status : Nat
  PartialSign : Bytes
  UpdatedAt : Nat
  deriving DecidableEq, Repr

/-- The response type `responses.SigningProposalParticipantInvitationsResponse`;
the client reads its `InitiatorId`. -/
structure SigningProposalParticipantInvitationsResponse where
  InitiatorId : Int
  deriving DecidableEq, Repr

/-- The FSM response `fsm.Response`: the state reached and the response
data, `none` for a nil `Data`. -/
structure Response (D : Type) where
  State : String
  Data : Option D

/-- An Ed25519 key pair as returned by `KeyStore.LoadKeys`. -/
structure KeyPair where
  Pub : Bytes
  Priv : Bytes
  deriving DecidableEq, Repr

/-! ## State and event names -/

/-- The state and event names the client refers to that are declared in the
packages `signature_proposal_fsm` (spf), `signing_proposal_fsm` (sipf),
`client/types` and, for the two names added to it later, `dkg_proposal_fsm`
(dpf). -/
structure Names where
  SignatureReconstructed : String
  EventSigningStart : String
  EventInitProposal : String
  EventDKGInitProcess : String
  EventSigningInit : String
  EventSigningRestart : String
  StateSignatureProposalCollected : String
  StateDkgMasterKeyCollected : String
  StateAwaitParticipantsConfirmations : String
  StateSigningAwaitPartialSigns : String
  StateSigningPartialSignsCollected : String
  StateSigningAwaitConfirmations : String

/-- The constant `dpf.StateDkgCommitsAwaitConfirmations`. -/
def StateDkgCommitsAwaitConfirmations : String := "state_dkg_commits_await_confirmations"

/-- The constant `dpf.StateDkgDealsAwaitConfirmations`. -/
def StateDkgDealsAwaitConfirmations : String := "state_dkg_deals_await_confirmations"

/-- The constant `dpf.StateDkgResponsesAwaitConfirmations`. -/
def StateDkgResponsesAwaitConfirmations : String := "state_dkg_responses_await_confirmations"

/-- The constant `dpf.StateDkgMasterKeyAwaitConfirmations`. -/
def StateDkgMasterKeyAwaitConfirmations : String := "state_dkg_master_key_await_confirmations"

/-- The case list of the `switch resp.State` of `ProcessMessage`: the states
that wait for an RPC to the airgapped machine. -/
def awaitStates (K : Names) : List String :=
  [ K.StateAwaitParticipantsConfirmations,
    StateDkgCommitsAwaitConfirmations,
    StateDkgDealsAwaitConfirmations,
    StateDkgResponsesAwaitConfirmations,
    StateDkgMasterKeyAwaitConfirmations,
    K.StateSigningAwaitPartialSigns,
    K.StateSigningPartialSignsCollected,
    K.StateSigningAwaitConfirmations ]

/-! ## Persisted state and the calls of a run -/

/-- What the node persists: the state adapter's offset, FSM snapshots by
round, operation pool and signature records, and the messages this node
appended to the log. -/
structure World where
  offset : Nat
  fsms : List (String × Bytes)
  operations : List Operation
  signatures : List ReconstructedSignature
  sent : List Message
  deriving DecidableEq, Repr

/-- A call on one of the interfaces `State`, `Storage` and `KeyStore`, with
its arguments. -/
inductive Call where
  | SaveSignature (signature : ReconstructedSignature)
  | SaveOffset (offset : Nat)
  | LoadFSM (dkgRoundID : String)
  | SaveFSM (dkgRoundID : String) (dump : Bytes)
  | PutOperation (operation : Operation)
  | GetOperationByID (operationID : String)
  | DeleteOperation (operationID : String)
  | SendBatch (messages : List Message)
  | LoadKeys (userName : String) (password : String)
  deriving DecidableEq, Repr

/-- The outcome of running a piece of client code: the returned value or
error, the persisted state afterwards and the interface calls made, oldest
first. -/
structure Run (α : Type) where
  result : Except Err α
  world : World
  calls : List Call

/-- Client code: a function of the persisted state. -/
def M (α : Type) : Type := World → Run α

/-- A step that returns `a` and calls nothing. -/
def M.pure {α : Type} (a : α) : M α := fun w => ⟨.ok a, w, []⟩

/-- A step that fails with `e` and calls nothing (`return err`). -/
def M.fail {α : Type} (e : Err) : M α := fun w => ⟨.error e, w, []⟩

/-- Sequencing: an error of the first step ends the run; otherwise the
second step runs on the state the first one left, and the calls add up. -/
def M.bind {α β : Type} (x : M α) (f : α → M β) : M β := fun w =>
  match (x w).result with
  | .error e => ⟨.error e, (x w).world, (x w).calls⟩
  | .ok a => ⟨(f a (x w).world).result, (f a (x w).world).world,
      (x w).calls ++ (f a (x w).world).calls⟩

/-- The same pattern for a call-free computation. -/
def wrapExcept {α : Type} (msg : String) : Except Err α → Except Err α
  | .error e => .error (wrap msg e)
  | .ok a => .ok a

/-- The pattern `if err != nil { return fmt.Errorf(msg + ": %w", err) }`. -/
def M.wrapErr {α : Type} (msg : String) (x : M α) : M α := fun w =>
  ⟨wrapExcept msg (x w).result, (x w).world, (x w).calls⟩

/-- A call-free computation that may fail, run as a step. -/
def M.lift {α : Type} (x : Except Err α) : M α := fun w => ⟨x, w, []⟩

/-! ## What the client is given -/

/-- Failures of the interface calls. Each entry says, from the persisted
state and the arguments, whether the call returns an error; a failing write
leaves the persisted state as it was. -/
structure Faults where
  SaveSignature : World → ReconstructedSignature → Option Err
  SaveOffset : World → Nat → Option Err
  LoadFSM : World → String → Option Err
  SaveFSM : World → String → Bytes → Option Err
  PutOperation : World → Operation → Option Err
  GetOperationByID : World → String → Option Err
  DeleteOperation : World → String → Option Err
  SendBatch : World → List Message → Option Err
  LoadKeys : World → String → String → Option Err

/-- The wall-clock readings (`time.Now()`) and the UUID (`uuid.New()`) of one
run of `ProcessMessage`, one field per call site. -/
structure Ambient where
  nowDKGInitProcess : Nat
  nowSigningInit : Nat
  uuid : String
  nowOperation : Nat
  nowSigningRestart : Nat
  deriving DecidableEq, Repr

/-- The client's configuration and the code of other packages it calls.

* `F` is `*state_machines.FSMInstance`, `Req` the FSM request values, `D` the
  FSM response data.
* `Do f event req` is `f.Do(event, req)`: on success the response, the dump
  and the instance as `Do` left it (Go mutates the receiver in place).
-/
structure Env where
  F : Type
  Req : Type
  D : Type
  K : Names
  userName : String
  keyPair : KeyPair
  faults : Faults
  Create : String → Except Err F
  Dump : F → Except Err Bytes
  FromDump : Bytes → Except Err F
  Do : F → String → Req → Except Err (Response D × Bytes × F)
  GetPubKeyByUsername : F → String → Except Err Bytes
  SigningQuorumGetParticipant : F → Int → Except Err SigningProposalParticipant
  DefaultRequest : Nat → Req
  FSMRequestFromMessage : Message → Except Err Req
  asInvitationsResponse : D → Option SigningProposalParticipantInvitationsResponse
  MarshalResponse : D → Except Err Bytes
  UnmarshalSignature : Bytes → Except Err ReconstructedSignature
  MessageBytes : Message → Bytes
  Verify : Bytes → Bytes → Bytes → Bool
  Sign : Bytes → Bytes → Bytes
  Check : Operation → Operation → Option Err

/-! ## The local state adapter, the log and the key store -/

/-- Modelled from the spec: `save_signature` of the local state adapter (the
package implementing `State` is not part of the sources at hand). The record
is added to the stored signatures. -/
def SaveSignature (env : Env) (signature : ReconstructedSignature) : M Unit := fun w =>
  match env.faults.SaveSignature w signature with
  | some e => ⟨.error e, w, [.SaveSignature signature]⟩
  | none => ⟨.ok (), { w with signatures := w.signatures ++ [signature] }, [.SaveSignature signature]⟩

/-- Modelled from the spec: `save_offset(u64)` of the local state adapter. -/
def SaveOffset (env : Env) (offset : Nat) : M Unit := fun w =>
  match env.faults.SaveOffset w offset with
  | some e => ⟨.error e, w, [.SaveOffset offset]⟩
  | none => ⟨.ok (), { w with offset := offset }, [.SaveOffset offset]⟩

/-- Modelled from the spec: `load_fsm(round_id) → (snapshot, exists)` of the
local state adapter; the stored snapshot is turned into an FSM instance with
`FromDump`. `none` is the Go result `ok == false`. -/
def LoadFSM (env : Env) (dkgRoundID : String) : M (Option env.F) := fun w =>
  match env.faults.LoadFSM w dkgRoundID with
  | some e => ⟨.error e, w, [.LoadFSM dkgRoundID]⟩
  | none =>
    match w.fsms.lookup dkgRoundID with
    | none => ⟨.ok none, w, [.LoadFSM dkgRoundID]⟩
    | some bz =>
      match env.FromDump bz with
      | .error e => ⟨.error e, w, [.LoadFSM dkgRoundID]⟩
      | .ok fsmInstance => ⟨.ok (some fsmInstance), w, [.LoadFSM dkgRoundID]⟩

/-- Modelled from the spec: `save_fsm(round_id, snapshot)` of the local state
adapter; the snapshot replaces the one stored for the round. -/
def SaveFSM (env : Env) (dkgRoundID : String) (dump : Bytes) : M Unit := fun w =>
  match env.faults.SaveFSM w dkgRoundID dump with
  | some e => ⟨.error e, w, [.SaveFSM dkgRoundID dump]⟩
  | none =>
    ⟨.ok (), { w with fsms := (dkgRoundID, dump) :: w.fsms.filter (fun p => p.1 ≠ dkgRoundID) },
      [.SaveFSM dkgRoundID dump]⟩

/-- Modelled from the spec: `put_operation(op)` of the local state adapter;
the pool is a map from operation id to operation. -/
def PutOperation (env : Env) (operation : Operation) : M Unit := fun w =>
  match env.faults.PutOperation w operation with
  | some e => ⟨.error e, w, [.PutOperation operation]⟩
  | none =>
    ⟨.ok (), { w with operations := w.operations.filter (fun o => o.ID ≠ operation.ID) ++ [operation] },
      [.PutOperation operation]⟩

/-- Modelled from the spec: `get_operation_by_id(id)` of the local state
adapter; it fails when the pool holds no operation with that id. -/
def GetOperationByID (env : Env) (operationID : String) : M Operation := fun w =>
  match env.faults.GetOperationByID w operationID with
  | some e => ⟨.error e, w, [.GetOperationByID operationID]⟩
  | none =>
    match w.operations.find? (fun o => o.ID = operationID) with
    | none => ⟨.error ["operation not found"], w, [.GetOperationByID operationID]⟩
    | some operation => ⟨.ok operation, w, [.GetOperationByID operationID]⟩

/-- Modelled from the spec: `delete_operation(id)` of the local state
adapter. -/
def DeleteOperation (env : Env) (operationID : String) : M Unit := fun w =>
  match env.faults.DeleteOperation w operationID with
  | some e => ⟨.error e, w, [.DeleteOperation operationID]⟩
  | none =>
    ⟨.ok (), { w with operations := w.operations.filter (fun o => o.ID ≠ operationID) },
      [.DeleteOperation operationID]⟩

/-- Modelled from the spec: `send_batch(messages[])` of the log adapter,
atomic: all messages are appended or none is. -/
def SendBatch (env : Env) (messages : List Message) : M Unit := fun w =>
  match env.faults.SendBatch w messages with
  | some e => ⟨.error e, w, [.SendBatch messages]⟩
  | none => ⟨.ok (), { w with sent := w.sent ++ messages }, [.SendBatch messages]⟩

/-- The call `keyStore.LoadKeys(userName, password)`. -/
def LoadKeys (env : Env) (userName password : String) : M KeyPair := fun w =>
  match env.faults.LoadKeys w userName password with
  | some e => ⟨.error e, w, [.LoadKeys userName password]⟩
  | none => ⟨.ok env.keyPair, w, [.LoadKeys userName password]⟩

/-! ## `client/client.go` -/

/-- The method `BaseClient.GetUsername`. -/
def GetUsername (env : Env) : String := env.userName

/-- The method `BaseClient.processSignature`: saves a broadcast reconstructed
signature. -/
def processSignature (env : Env) (message : Message) : M Unit :=
  match env.UnmarshalSignature message.Data with
  | .error e => M.fail (wrap "failed to unmarshal reconstructed signature" e)
  | .ok signature =>
    SaveSignature env
      { signature with Username := message.SenderAddr, DKGRoundID := message.DkgRoundID }

/-- The method `BaseClient.getFSMInstance`: the FSM of a DKG round, created
and saved when the state holds none. -/
def getFSMInstance (env : Env) (dkgRoundID : String) : M env.F :=
  M.bind (M.wrapErr "failed to LoadFSM" (LoadFSM env dkgRoundID)) fun loaded =>
  match loaded with
  | some fsmInstance => M.pure fsmInstance
  | none =>
    M.bind (M.lift (wrapExcept "failed to create FSM instance" (env.Create dkgRoundID)))
      fun fsmInstance =>
    M.bind (M.lift (wrapExcept "failed to Dump FSM instance" (env.Dump fsmInstance))) fun bz =>
    M.bind (M.wrapErr "failed to SaveFSM" (SaveFSM env dkgRoundID bz)) fun _ =>
    M.pure fsmInstance

/-- The method `BaseClient.verifyMessage`. -/
def verifyMessage (env : Env) (fsmInstance : env.F) (message : Message) : Except Err Unit :=
  match env.GetPubKeyByUsername fsmInstance message.SenderAddr with
  | .error e => .error (wrap "failed to GetPubKeyByUsername" e)
  | .ok senderPubKey =>
    if env.Verify senderPubKey (env.MessageBytes message) message.Signature = false then
      .error ["signature is corrupt"]
    else .ok ()

/-- The block "switch FSM state by hand" of `ProcessMessage`, which occurs
three times: when the response state is `state`, the FSM is restored from the
dump and `event` is dispatched with `requests.DefaultRequest{CreatedAt: now}`;
otherwise response, dump and instance are left as they are. -/
def chainCall (env : Env) (state event : String) (now : Nat)
    (cur : Response env.D × Bytes × env.F) : Except Err (Response env.D × Bytes × env.F) :=
  if cur.1.State = state then
    match env.FromDump cur.2.1 with
    | .error e => .error (wrap "failed get state_machines from dump" e)
    | .ok fsmInstance =>
      wrapExcept "failed to Do operation in FSM"
        (env.Do fsmInstance event (env.DefaultRequest now))
  else .ok cur

/-- Lines 183-214 of `ProcessMessage`: `Do` on the message's event, then the
chain calls `DKGInitProcess` and `SigningInit`. -/
def doWithChains (env : Env) (amb : Ambient) (fsmInstance : env.F) (message : Message)
    (fsmReq : env.Req) : Except Err (Response env.D × Bytes × env.F) := do
  let r0 ← wrapExcept "failed to Do operation in FSM" (env.Do fsmInstance message.Event fsmReq)
  let r1 ← chainCall env env.K.StateSignatureProposalCollected env.K.EventDKGInitProcess
    amb.nowDKGInitProcess r0
  chainCall env env.K.StateDkgMasterKeyCollected env.K.EventSigningInit amb.nowSigningInit r1

/-- The operation built at lines 241-252 of `ProcessMessage`. -/
def newOperation (env : Env) (amb : Ambient) (message : Message) (state : String) (data : env.D) :
    Except Err (Option Operation) :=
  match env.MarshalResponse data with
  | .error e => .error (wrap "failed to marshal FSM response" e)
  | .ok bz =>
    .ok (some
      { ID := amb.uuid
        OperationType := state
        Payload := bz
        Result := []
        ResultMsgs := []
        CreatedAt := amb.nowOperation
        DKGIdentifier := message.DkgRoundID })

/-- Lines 216-256 of `ProcessMessage`: the `switch resp.State` that decides
whether the new state needs an operation for the airgapped machine. `none`
is the Go result `operation == nil`. -/
def materialize (env : Env) (amb : Ambient) (fsmInstance : env.F) (message : Message)
    (resp : Response env.D) : Except Err (Option Operation) :=
  if resp.State ∈ awaitStates env.K then
    match resp.Data with
    | none => .ok none
    | some data =>
      match env.asInvitationsResponse data with
      | some invitations =>
        match env.SigningQuorumGetParticipant fsmInstance invitations.InitiatorId with
        | .error e => .error (wrap "failed to get SigningQuorumParticipant" e)
        | .ok initiator =>
          if initiator.Username = GetUsername env then .ok none
          else newOperation env amb message resp.State data
      | none => newOperation env amb message resp.State data
  else .ok none

/-- Lines 178-270 of `ProcessMessage`, which call no interface: the request
is decoded, the FSM is run with its chain calls, the operation is decided and
`SigningRestart` is chained. The result is the operation (if any) and the
dump to save. -/
def runFSM (env : Env) (amb : Ambient) (fsmInstance : env.F) (message : Message) :
    Except Err (Option Operation × Bytes) := do
  let fsmReq ← wrapExcept "failed to get FSMRequestFromMessage" (env.FSMRequestFromMessage message)
  let r ← doWithChains env amb fsmInstance message fsmReq
  let operation ← materialize env amb r.2.2 message r.1
  let r2 ← chainCall env env.K.StateSigningPartialSignsCollected env.K.EventSigningRestart
    amb.nowSigningRestart r
  pure (operation, r2.2.1)

/-- Lines 159-165 of `ProcessMessage`: the signing data of a `SigningStart`
message is saved in the same storage as the signatures. -/
def saveSigningData (env : Env) (message : Message) : M Unit :=
  if message.Event = env.K.EventSigningStart then
    M.wrapErr "failed to process signature" (processSignature env message)
  else M.pure ()

/-- Lines 171-176 of `ProcessMessage`: every message but `InitProposal` is
verified. -/
def verifyUnlessInit (env : Env) (fsmInstance : env.F) (message : Message) : Except Err Unit :=
  if message.Event ≠ env.K.EventInitProposal then
    wrapExcept "failed to verifyMessage" (verifyMessage env fsmInstance message)
  else .ok ()

/-- Lines 159-169 of `ProcessMessage`: the signing data of a `SigningStart`
message is saved and the FSM of the round is resolved. -/
def resolveFSM (env : Env) (message : Message) : M env.F :=
  M.bind (saveSigningData env message) fun _ =>
  M.wrapErr "failed to getFSMInstance" (getFSMInstance env message.DkgRoundID)

/-- Lines 159-176 of `ProcessMessage`: the FSM of the round is resolved and,
unless the event is `InitProposal`, the message is verified. -/
def resolveAndVerify (env : Env) (message : Message) : M env.F :=
  M.bind (resolveFSM env message) fun fsmInstance =>
  M.bind (M.lift (verifyUnlessInit env fsmInstance message)) fun _ =>
  M.pure fsmInstance

/-- Lines 272-276 of `ProcessMessage`: the operation, if there is one, is put
into the pool. -/
def putIfAny (env : Env) : Option Operation → M Unit
  | some operation => M.wrapErr "failed to PutOperation" (PutOperation env operation)
  | none => M.pure ()

/-- Lines 272-286 of `ProcessMessage`: the three writes. -/
def persist (env : Env) (message : Message) (operation : Option Operation) (fsmDump : Bytes) :
    M Unit :=
  M.bind (putIfAny env operation) fun _ =>
  M.bind (M.wrapErr "failed to SaveOffset" (SaveOffset env (u64 (message.Offset + 1)))) fun _ =>
  M.wrapErr "failed to SaveFSM" (SaveFSM env message.DkgRoundID fsmDump)

/-- Lines 148-157 of `ProcessMessage`: a broadcast reconstructed signature is
saved and the offset is advanced. -/
def saveReconstructed (env : Env) (message : Message) : M Unit :=
  M.bind (M.wrapErr "failed to process signature" (processSignature env message)) fun _ =>
  M.wrapErr "failed to SaveOffset" (SaveOffset env (u64 (message.Offset + 1)))

/-- Lines 159-286 of `ProcessMessage`: the path through the FSM. -/
def processByFSM (env : Env) (amb : Ambient) (message : Message) : M Unit :=
  M.bind (resolveAndVerify env message) fun fsmInstance =>
  M.bind (M.lift (runFSM env amb fsmInstance message)) fun r =>
  persist env message r.1 r.2

/-- The method `BaseClient.ProcessMessage`. -/
def ProcessMessage (env : Env) (amb : Ambient) (message : Message) : M Unit :=
  if message.Event = env.K.SignatureReconstructed then saveReconstructed env message
  else processByFSM env amb message

/-- The method `BaseClient.signMessage`. -/
def signMessage (env : Env) (message : Bytes) : M Bytes :=
  M.bind (M.wrapErr "failed to LoadKeys" (LoadKeys env env.userName "")) fun keyPair =>
  M.pure (env.Sign keyPair.Priv message)

/-- One round of the loop of `handleProcessedOperation` (lines 332-340): the
message gets this node as sender and is signed. -/
def signResultMsg (env : Env) (message : Message) : M Message :=
  M.bind (M.wrapErr "failed to sign a message"
    (signMessage env (env.MessageBytes { message with SenderAddr := GetUsername env })))
    fun sig =>
  M.pure { message with SenderAddr := GetUsername env, Signature := sig }

/-- The loop of `handleProcessedOperation` (lines 331-341) over the result
messages; the first signing failure ends the run. -/
def signResultMsgs (env : Env) : List Message → M (List Message)
  | [] => M.pure []
  | message :: rest =>
    M.bind (signResultMsg env message) fun signed =>
    M.bind (signResultMsgs env rest) fun signedRest =>
    M.pure (signed :: signedRest)

/-- Lines 327-329 of `handleProcessedOperation`: the stored operation checks
the processed one. -/
def checkOperation (env : Env) (storedOperation operation : Operation) : Except Err Unit :=
  match env.Check storedOperation operation with
  | some e => .error (wrap "processed operation does not match stored operation" e)
  | none => .ok ()

/-- The method `BaseClient.handleProcessedOperation`. -/
def handleProcessedOperation (env : Env) (operation : Operation) : M Unit :=
  M.bind (M.wrapErr "failed to find matching operation" (GetOperationByID env operation.ID))
    fun storedOperation =>
  M.bind (M.lift (checkOperation env storedOperation operation)) fun _ =>
  M.bind (signResultMsgs env operation.ResultMsgs) fun resultMsgs =>
  M.bind (M.wrapErr "failed to post messages" (SendBatch env resultMsgs)) fun _ =>
  M.wrapErr "failed to DeleteOperation" (DeleteOperation env operation.ID)

/-- Lines 107-117 of `Poll`: the messages of one tick that are addressed to
this node (or to nobody in particular) are processed in log order; an error
of `ProcessMessage` is logged and the loop goes on with the next message. -/
def handleMessages (env : Env) : List (Ambient × Message) → M Unit
  | [] => M.pure ()
  | (amb, message) :: rest => fun w =>
    if message.RecipientAddr = "" ∨ message.RecipientAddr = GetUsername env then
      ⟨(handleMessages env rest (ProcessMessage env amb message w).world).result,
       (handleMessages env rest (ProcessMessage env amb message w).world).world,
       (ProcessMessage env amb message w).calls ++
         (handleMessages env rest (ProcessMessage env amb message w).world).calls⟩
    else handleMessages env rest w

/-! ## Reading the calls of a run -/

/-- The offset of a `SaveOffset` call. -/
def Call.savedOffset? : Call → Option Nat
  | .SaveOffset offset => some offset
  | _ => none

/-- The round and snapshot of a `SaveFSM` call. -/
def Call.savedSnapshot? : Call → Option (String × Bytes)
  | .SaveFSM dkgRoundID dump => some (dkgRoundID, dump)
  | _ => none

/-- The operation of a `PutOperation` call. -/
def Call.putOperation? : Call → Option Operation
  | .PutOperation operation => some operation
  | _ => none

/-- The record of a `SaveSignature` call. -/
def Call.savedSignature? : Call → Option ReconstructedSignature
  | .SaveSignature signature => some signature
  | _ => none

/-- The id of a `DeleteOperation` call. -/
def Call.deletedOperation? : Call → Option String
  | .DeleteOperation operationID => some operationID
  | _ => none

/-- The messages of a `SendBatch` call. -/
def Call.sentBatch? : Call → Option (List Message)
  | .SendBatch messages => some messages
  | _ => none

/-- The offsets handed to `SaveOffset`, oldest first. -/
def savedOffsets (calls : List Call) : List Nat := calls.filterMap Call.savedOffset?

/-- The snapshots handed to `SaveFSM`, oldest first. -/
def savedSnapshots (calls : List Call) : List (String × Bytes) :=
  calls.filterMap Call.savedSnapshot?

/-- The operations handed to `PutOperation`, oldest first. -/
def putOperations (calls : List Call) : List Operation := calls.filterMap Call.putOperation?

/-- The records handed to `SaveSignature`, oldest first. -/
def savedSignatures (calls : List Call) : List ReconstructedSignature :=
  calls.filterMap Call.savedSignature?

/-- The ids handed to `DeleteOperation`, oldest first. -/
def deletedOperations (calls : List Call) : List String := calls.filterMap Call.deletedOperation?

/-- The batches handed to `SendBatch`, oldest first. -/
def sentBatches (calls : List Call) : List (List Message) := calls.filterMap Call.sentBatch?

/-- The state writes of `ProcessMessage` that the write order is about. -/
def Call.isWrite : Call → Bool
  | .PutOperation _ => true
  | .SaveOffset _ => true
  | .SaveFSM _ _ => true
  | _ => false

/-! ## A small FSM provider to run the client on -/

/-- The names used by `testEnv`. -/
def testNames : Names where
  SignatureReconstructed := "signature_reconstructed"
  EventSigningStart := "event_signing_start"
  EventInitProposal := "event_sig_proposal_init"
  EventDKGInitProcess := "event_dkg_init_process"
  EventSigningInit := "event_signing_init"
  EventSigningRestart := "event_signing_restart"
  StateSignatureProposalCollected := "state_sig_proposal_collected"
  StateDkgMasterKeyCollected := "state_dkg_master_key_collected"
  StateAwaitParticipantsConfirmations := "state_sig_proposal_await_participants_confirmations"
  StateSigningAwaitPartialSigns := "state_signing_await_partial_signs"
  StateSigningPartialSignsCollected := "state_signing_partial_signs_collected"
  StateSigningAwaitConfirmations := "state_signing_await_confirmations"

/-- An FSM instance of the test provider: the state name and the timestamps
recorded in the payload. -/
structure TestFSM where
  state : String
  stamps : List Nat
  deriving DecidableEq, Repr

/-- The states of the test provider, in the order of their codes. -/
def testStates : List String :=
  [ "stage_idle",
    "state_sig_proposal_await_participants_confirmations",
    "state_sig_proposal_collected",
    "state_dkg_commits_await_confirmations",
    "state_signing_await_confirmations" ]

/-- Snapshot of a test FSM: the code of the state, then the timestamps. -/
def TestFSM.dump (f : TestFSM) : Bytes :=
  testStates.indexOf f.state :: f.stamps

/-- Restores a test FSM from its snapshot. -/
def TestFSM.fromDump (bz : Bytes) : TestFSM :=
  ⟨testStates.getD (bz.headD 0) "stage_idle", bz.tail⟩

/-- Modelled from the spec: `FSM.Do` of the round FSM (the FSM provider is
not part of the sources at hand), cut down to a few transitions. The
payload of a snapshot holds timestamps (section 3, "FSM snapshot"), so the
transition of `DKGInitProcess` records the `CreatedAt` of its request.
Response data is `some none` for a response that is not an invitation and
`some (some i)` for `SigningProposalParticipantInvitationsResponse` with
initiator `i`; the request of the test provider is a number. -/
def testDo (f : TestFSM) (event : String) (req : Nat) :
    Except Err (Response (Option Int) × Bytes × TestFSM) :=
  let go (state : String) (data : Option (Option Int)) (stamps : List Nat) :
      Except Err (Response (Option Int) × Bytes × TestFSM) :=
    .ok (⟨state, data⟩, TestFSM.dump ⟨state, stamps⟩, ⟨state, stamps⟩)
  if event = "event_sig_proposal_init" ∧ f.state = "stage_idle" then
    go "state_sig_proposal_await_participants_confirmations" (some none) f.stamps
  else if event = "event_sig_proposal_confirm_by_participant"
      ∧ f.state = "state_sig_proposal_await_participants_confirmations" then
    if req = 0 then go f.state none f.stamps
    else go "state_sig_proposal_collected" none f.stamps
  else if event = "event_dkg_init_process" ∧ f.state = "state_sig_proposal_collected" then
    go "state_dkg_commits_await_confirmations" (some none) (f.stamps ++ [req])
  else if event = "event_dkg_commit_confirm_received"
      ∧ f.state = "state_dkg_commits_await_confirmations" then
    go f.state (some none) f.stamps
  else if event = "event_signing_start" ∧ f.state = "state_dkg_commits_await_confirmations" then
    go "state_signing_await_confirmations" (some (some (Int.ofNat req))) f.stamps
  else .error ["invalid transition"]

/-- The test environment: user `alice`, the participants `alice` (index 0)
and `bob` (index 1) once the proposal is made, a signature scheme in which a
signature is the key followed by the signed bytes, `Check` comparing id,
type, payload and DKG identifier, and adapters that never fail. -/
def testEnv : Env where
  F := TestFSM
  Req := Nat
  D := Option Int
  K := testNames
  userName := "alice"
  keyPair := ⟨[1], [1]⟩
  faults :=
    { SaveSignature := fun _ _ => none
      SaveOffset := fun _ _ => none
      LoadFSM := fun _ _ => none
      SaveFSM := fun _ _ _ => none
      PutOperation := fun _ _ => none
      GetOperationByID := fun _ _ => none
      DeleteOperation := fun _ _ => none
      SendBatch := fun _ _ => none
      LoadKeys := fun _ _ _ => none }
  Create := fun _ => .ok ⟨"stage_idle", []⟩
  Dump := fun f => .ok f.dump
  FromDump := fun bz => .ok (TestFSM.fromDump bz)
  Do := testDo
  GetPubKeyByUsername := fun f name =>
    if f.state = "stage_idle" then .error ["participant not found"]
    else if name = "alice" then .ok [1]
    else if name = "bob" then .ok [2]
    else .error ["participant not found"]
  SigningQuorumGetParticipant := fun _ i =>
    if i = 0 then .ok ⟨"alice", 0, [], 0⟩
    else if i = 1 then .ok ⟨"bob", 0, [], 0⟩
    else .error ["participant not found"]
  DefaultRequest := fun t => t
  FSMRequestFromMessage := fun m => .ok (m.Data.headD 0)
  asInvitationsResponse := fun d => d.map (fun i => ⟨i⟩)
  MarshalResponse := fun d => .ok (match d with | some i => [1, i.toNat] | none => [0])
  UnmarshalSignature := fun bz =>
    match bz with
    | [] => .error ["unexpected end of JSON input"]
    | b :: rest => .ok ⟨"sig", [b], rest, "", ""⟩
  MessageBytes := fun m => m.Offset :: m.Data
  Verify := fun pub bytes sig => sig = pub ++ bytes
  Sign := fun priv bytes => priv ++ bytes
  Check := fun stored incoming =>
    if stored.ID = incoming.ID ∧ stored.OperationType = incoming.OperationType
        ∧ stored.Payload = incoming.Payload ∧ stored.DKGIdentifier = incoming.DKGIdentifier
    then none else some ["operations do not match"]


/-- The empty persisted state. -/
def emptyWorld : World := ⟨0, [], [], [], []⟩

/-- Clock readings and UUID of a test run. -/
def testAmbient : Ambient := ⟨100, 101, "uuid-1", 102, 103⟩

/-- An `InitProposal` message for round `r1` at offset 1. -/
def initMessage : Message :=
  ⟨"m1", "r1", 1, "event_sig_proposal_init", [0], [], "alice", ""⟩

/-- The operation that `initMessage` materializes under `testAmbient`. -/
def initOperation : Operation :=
  ⟨"uuid-1", "state_sig_proposal_await_participants_confirmations", [0], [], [], 102, "r1"⟩

/-- The persisted state of `testEnv` after `initMessage`: round `r1` awaits
the confirmations of the participants. -/
def worldAfterInit : World := ⟨2, [("r1", [1])], [initOperation], [], []⟩

/-- A confirmation for round `r1` at offset 2, sent under the name of
`alice` with a signature that does not verify. -/
def forgedConfirm : Message :=
  ⟨"m2", "r1", 2, "event_sig_proposal_confirm_by_participant", [0], [9], "alice", ""⟩

/-- A confirmation for a round `r9` that is not stored, with a signature
that does not verify. -/
def forgedUnknownRound : Message :=
  ⟨"m3", "r9", 5, "event_sig_proposal_confirm_by_participant", [0], [9], "alice", ""⟩

/-- A `SignatureReconstructed` message for round `r1` at offset 3, sent under
the name of `bob` with a signature that does not verify. -/
def forgedReconstructed : Message :=
  ⟨"m4", "r1", 3, "signature_reconstructed", [7, 8], [9], "bob", ""⟩

/-- A `SigningStart` message for round `r1` at offset 3, sent under the name
of `bob` with a signature that does not verify. -/
def forgedSigningStart : Message :=
  ⟨"m5", "r1", 3, "event_signing_start", [7, 8], [9], "bob", ""⟩

/-- The last confirmation of round `r1`, at offset 2, signed by `alice`: it
completes the proposal. -/
def lastConfirm : Message :=
  ⟨"m2", "r1", 2, "event_sig_proposal_confirm_by_participant", [1], [1, 2, 1], "alice", ""⟩

/-- A run whose clocks read later instants than those of `testAmbient`. -/
def laterAmbient : Ambient := ⟨200, 201, "uuid-1", 202, 203⟩

/-- The clock readings handed to the chain calls agree. -/
def Ambient.sameChainClocks (a b : Ambient) : Prop :=
  a.nowDKGInitProcess = b.nowDKGInitProcess ∧ a.nowSigningInit = b.nowSigningInit ∧
    a.nowSigningRestart = b.nowSigningRestart

/-- Run on the message from the FSM instance, `Do` reaches no state that
triggers a chain call. -/
def noChainCallFrom (env : Env) (fsmInstance : env.F) (m : Message) : Prop :=
  ∀ (req : env.Req) (r : Response env.D × Bytes × env.F),
    env.FSMRequestFromMessage m = .ok req → env.Do fsmInstance m.Event req = .ok r →
      r.1.State ≠ env.K.StateSignatureProposalCollected ∧
      r.1.State ≠ env.K.StateDkgMasterKeyCollected ∧
      r.1.State ≠ env.K.StateSigningPartialSignsCollected

/-- The run of `ProcessMessage` on the message from the persisted state makes
no chain call: `Do` on the FSM resolved for the round reaches none of the
states `SignatureProposalCollected`, `DkgMasterKeyCollected` and
`SigningPartialSignsCollected`. -/
def noChainCall (env : Env) (m : Message) (w : World) : Prop :=
  ∀ f, (resolveAndVerify env m w).result = .ok f → noChainCallFrom env f m

/-- A run with the chain-call clock readings of `testAmbient` and another
UUID and operation time. -/
def otherAmbient : Ambient := ⟨100, 101, "uuid-2", 999, 103⟩

/-- A run with the chain-call clock readings of `testAmbient` and a third
UUID. -/
def thirdAmbient : Ambient := ⟨100, 101, "uuid-3", 102, 103⟩

/-- A commit confirmation of round `r1` at offset 3, signed by `alice`. -/
def commitConfirm : Message :=
  ⟨"m6", "r1", 3, "event_dkg_commit_confirm_received", [0], [1, 3, 0], "alice", ""⟩

/-- A confirmation of round `r1` at offset 2, signed by `alice`, that is not
the last one: the proposal goes on awaiting confirmations and the response
carries no data. -/
def earlyConfirm : Message :=
  ⟨"m7", "r1", 2, "event_sig_proposal_confirm_by_participant", [0], [1, 2, 0], "alice", ""⟩

/-- The operation that `lastConfirm` materializes under `otherAmbient`. -/
def commitsOperation : Operation :=
  ⟨"uuid-2", "state_dkg_commits_await_confirmations", [0], [], [], 999, "r1"⟩

/-- The persisted state of `testEnv` after `initMessage` and `lastConfirm`:
round `r1` awaits the commits. -/
def worldAwaitingCommits : World :=
  ⟨3, [("r1", [3, 100])], [initOperation, commitsOperation], [], []⟩

/-- The operations of a pool that have the given type and round. -/
def operationsFor (pool : List Operation) (operationType dkgRoundID : String) : List Operation :=
  pool.filter (fun o => o.OperationType = operationType ∧ o.DKGIdentifier = dkgRoundID)

/-- Running the FSM on the message materializes no operation, whatever the
FSM instance. -/
def materializesNothing (env : Env) (amb : Ambient) (m : Message) : Prop :=
  ∀ (f : env.F) (r : Option Operation × Bytes), runFSM env amb f m = .ok r → r.1 = none

/-- A persisted state of `testEnv` in which round `r1` is stored with its
initial snapshot. -/
def worldFresh : World := ⟨0, [("r1", [0])], [], [], []⟩

/-- The operation of lines 246-252 of `ProcessMessage` for response state
`state` and encoded response data `bz`. -/
def operationFor (amb : Ambient) (message : Message) (state : String) (bz : Bytes) : Operation :=
  { ID := amb.uuid
    OperationType := state
    Payload := bz
    Result := []
    ResultMsgs := []
    CreatedAt := amb.nowOperation
    DKGIdentifier := message.DkgRoundID }

/-- The signing-initiator exception does not apply to the response data: it
is not a `SigningProposalParticipantInvitationsResponse`, or the participant
of the signing quorum with index `InitiatorId` is another user. -/
def notInitiator (env : Env) (fsmInstance : env.F) (data : env.D) : Prop :=
  env.asInvitationsResponse data = none ∨
  ∃ invitations initiator, env.asInvitationsResponse data = some invitations ∧
    env.SigningQuorumGetParticipant fsmInstance invitations.InitiatorId = .ok initiator ∧
    initiator.Username ≠ GetUsername env

/-- A `SigningStart` message for round `r1` at offset 3, signed by `alice`,
that names participant 0 (`alice`, this node) as initiator. -/
def signingStartSelf : Message :=
  ⟨"m8", "r1", 3, "event_signing_start", [0], [1, 3, 0], "alice", ""⟩

/-- A `SigningStart` message that names participant 1 (`bob`) as initiator. -/
def signingStartOther : Message :=
  ⟨"m9", "r1", 3, "event_signing_start", [1], [1, 3, 1], "alice", ""⟩

/-- A `SigningStart` message that names an index outside the signing quorum
as initiator. -/
def signingStartMissing : Message :=
  ⟨"m10", "r1", 3, "event_signing_start", [5], [1, 3, 5], "alice", ""⟩

/-- The test FSM with the given state and timestamps, as an instance of the
test environment. -/
def testFSM (state : String) (stamps : List Nat) : testEnv.F :=
  (⟨state, stamps⟩ : TestFSM)

/-- What `Do` of the test provider returns on reaching `state` with response
data `data`: response, dump and instance. -/
def testRun (state : String) (data : Option (Option Int)) (stamps : List Nat) :
    Response testEnv.D × Bytes × testEnv.F :=
  ((⟨state, data⟩ : Response (Option Int)), TestFSM.dump ⟨state, stamps⟩,
    (⟨state, stamps⟩ : TestFSM))

/-- Response data of the test provider, as data of the test environment. -/
def testData (d : Option Int) : testEnv.D := d

/-- A request of the test provider, as a request of the test environment. -/
def testReq (n : Nat) : testEnv.Req := n

/-- The calls that neither send to the log nor delete from the pool. -/
def Call.isIntake : Call → Bool
  | .GetOperationByID _ => true
  | .LoadKeys _ _ => true
  | _ => false

/-- A result message of `initOperation`, as the airgapped machine returns
it: sender and signature are still to be set. -/
def resultMessage : Message :=
  ⟨"m11", "r1", 0, "event_sig_proposal_confirm_by_participant", [0], [], "", ""⟩

/-- The operation `initOperation` as processed by the airgapped machine. -/
def processedOperation : Operation :=
  { initOperation with Result := [5], ResultMsgs := [resultMessage] }

/-- A processed operation whose id is not in the pool. -/
def unknownOperation : Operation := { processedOperation with ID := "uuid-9" }

/-- A processed operation whose payload differs from the stored one. -/
def alteredOperation : Operation := { processedOperation with Payload := [6] }

/-- The test environment with a log that is unavailable: `SendBatch` fails. -/
def logDownEnv : Env :=
  { testEnv with
    faults := { testEnv.faults with SendBatch := fun _ _ => some ["log unavailable"] } }

/-- The test environment with a key store that cannot load the keys. -/
def keysDownEnv : Env :=
  { testEnv with
    faults := { testEnv.faults with LoadKeys := fun _ _ _ => some ["no keys"] } }

/-- The calls that neither write the offset, nor put, delete or send. -/
def Call.isQuiet : Call → Bool
  | .SaveSignature _ => true
  | .LoadFSM _ => true
  | .SaveFSM _ _ => true
  | _ => false


/-- The pool after `PutOperation` of the operation, if there is one. -/
def poolWith (pool : List Operation) : Option Operation → List Operation
  | some o => pool.filter (fun p => p.ID ≠ o.ID) ++ [o]
  | none => pool


/-- A result message as `handleProcessedOperation` sends it: this node is
the sender and the signature is this node's signature over the bytes of the
message with the sender set. -/
def signedMessage (env : Env) (message : Message) : Message :=
  { message with
    SenderAddr := GetUsername env
    Signature := env.Sign env.keyPair.Priv
      (env.MessageBytes { message with SenderAddr := GetUsername env }) }

/-- The adapters that `handleProcessedOperation` calls never fail. -/
def Faults.intakeNeverFails (faults : Faults) : Prop :=
  (∀ w id, faults.GetOperationByID w id = none) ∧
  (∀ w userName password, faults.LoadKeys w userName password = none) ∧
  (∀ w messages, faults.SendBatch w messages = none) ∧
  (∀ w id, faults.DeleteOperation w id = none)

/-- Modelled from the spec: `stored.Check(incoming)` of `types.Operation`
(the package `client/types` is not part of the sources at hand), which
verifies id, type, payload and DKG identifier equality; the result fields may
differ. -/
def Operation.Check (stored incoming : Operation) : Option Err :=
  if stored.ID = incoming.ID ∧ stored.OperationType = incoming.OperationType
      ∧ stored.Payload = incoming.Payload ∧ stored.DKGIdentifier = incoming.DKGIdentifier
  then none else some ["operations do not match"]


/-- A `SignatureReconstructed` message whose data cannot be decoded. -/
def undecodableReconstructed : Message :=
  ⟨"m12", "r1", 3, "signature_reconstructed", [], [], "bob", ""⟩

/-- The signature record that `processSignature` saves for a message whose
data decodes to `signature`. -/
def recordOf (message : Message) (signature : ReconstructedSignature) : ReconstructedSignature :=
  { signature with Username := message.SenderAddr, DKGRoundID := message.DkgRoundID }


/-! ## `airgapped/storage.go` -/

/-- The constant `pubKeyDBKey`. -/
def pubKeyDBKey : String := "public_key"

/-- The constant `privateKeyDBKey`. -/
def privateKeyDBKey : String := "private_key"

/-- The constant `saltDBKey`. -/
def saltDBKey : String := "salt_key"

/-- The constant `baseSeedKey`. -/
def baseSeedKey : String := "base_seed_key"

/-- The constant `operationsLogDBKey`. -/
def operationsLogDBKey : String := "operations_log"

/-- The keys under which the airgapped machine stores values. -/
def storeKeys : List String :=
  [pubKeyDBKey, privateKeyDBKey, saltDBKey, baseSeedKey, operationsLogDBKey]

/-- The sentinel error `leveldb.ErrNotFound`. -/
def ErrNotFound : Err := ["leveldb: not found"]

/-- The test `errors.Is(err, target)` for an error that is not nil: `err` or
one of the errors it wraps is `target`. -/
def errorsIs : Err → Err → Bool
  | [], _ => false
  | msg :: inner, target => decide (msg :: inner = target) || errorsIs inner target

/-- The type `RoundOperationLog`, a Go map from DKG round id to the
operations of the round: the value of a key is the first entry with that
key. A nil map, which `json.Unmarshal` yields for a stored `null` and to
which an assignment panics, is not told apart from the empty map; the
methods below never store `null`. -/
abbrev RoundOperationLog := List (String × List Operation)

/-- The Go map assignment `log[key] = value`. -/
def RoundOperationLog.set (log : RoundOperationLog) (key : String) (value : List Operation) :
    RoundOperationLog :=
  (key, value) :: log.filter (fun p => p.1 ≠ key)

/-- The content of the LevelDB store: the value of a key is the first entry
with that key. -/
abbrev DB := List (String × Bytes)

/-- The store after a `Put` that succeeded. -/
def DB.put (db : DB) (key : String) (value : Bytes) : DB :=
  (key, value) :: db.filter (fun p => p.1 ≠ key)

/-- The writes of a transaction that is not committed yet, oldest first. -/
abbrev Tx := List (String × Bytes)

/-- The store after the commit of a transaction. -/
def DB.commit (db : DB) (tx : Tx) : DB :=
  tx.foldl (fun d p => DB.put d p.1 p.2) db

/-- Failures of the calls on the LevelDB store other than a missing key.
Each entry says, from the content of the store and the arguments, whether
the call returns an error; a failing call leaves the store as it was. -/
structure DBFaults where
  Get : DB → String → Option Err
  Put : DB → String → Bytes → Option Err
  OpenTransaction : DB → Option Err
  TxPut : DB → Tx → String → Bytes → Option Err
  Commit : DB → Tx → Option Err

/-- What the airgapped machine is given: the store's failures, the curve
suite's types and codecs, the symmetric encryption, and the JSON codec of the
operations log.

* `Point`, `Scalar` and `Suite` are `kyber.Point`, `kyber.Scalar` and the
  BLS12-381 suite.
* `seedSize` is the constant of that name.
-/
structure AirEnv where
  Point : Type
  Scalar : Type
  Suite : Type
  faults : DBFaults
  seedSize : Nat
  NewBLS12381Suite : Bytes → Suite
  MarshalPoint : Point → Except Err Bytes
  MarshalScalar : Scalar → Except Err Bytes
  encrypt : Bytes → Bytes → Bytes → Except Err Bytes
  MarshalLog : RoundOperationLog → Except Err Bytes
  UnmarshalLog : Bytes → Except Err RoundOperationLog

/-- The random source `crypto/rand` as one call of `rand.Read` sees it: the
bytes it yields, or its failure. -/
structure Entropy where
  bytes : Nat → Nat
  failure : Option Err

/-- The call `rand.Read(b)` on a slice of `n` bytes: all `n` bytes are
filled, or the call fails. -/
def Entropy.read (entropy : Entropy) (n : Nat) : Except Err Bytes :=
  match entropy.failure with
  | some e => .error e
  | none => .ok ((List.range n).map entropy.bytes)

/-- The state of the airgapped `Machine` that `storage.go` reads and
writes. -/
structure Machine (env : AirEnv) where
  db : DB
  encryptionKey : Bytes
  baseSeed : Bytes
  baseSuite : env.Suite
  pubKey : env.Point
  secKey : env.Scalar

/-- The call `am.db.Get(key, nil)`. -/
def dbGet (env : AirEnv) (db : DB) (key : String) : Except Err Bytes :=
  match env.faults.Get db key with
  | some e => .error e
  | none =>
    match db.lookup key with
    | some value => .ok value
    | none => .error ErrNotFound

/-- The call `am.db.Put(key, value, nil)`: the store afterwards, or the
error. -/
def dbPut (env : AirEnv) (db : DB) (key : String) (value : Bytes) : Except Err DB :=
  match env.faults.Put db key value with
  | some e => .error e
  | none => .ok (db.put key value)

/-- The method `Machine.storeBaseSeed`. -/
def storeBaseSeed {env : AirEnv} (am : Machine env) (seed : Bytes) :
    Except Err Unit × Machine env :=
  match dbPut env am.db baseSeedKey seed with
  | .error e => (.error (wrap "failed to put baseSeed" e), am)
  | .ok db => (.ok (), { am with db := db })

/-- The method `Machine.getBaseSeed`. -/
def getBaseSeed {env : AirEnv} (am : Machine env) : Except Err Bytes :=
  wrapExcept "failed to get baseSeed" (dbGet env am.db baseSeedKey)

/-- Lines 29-40 of `loadBaseSeed`: a new seed of `seedSize` random bytes is
generated and stored. -/
def generateBaseSeed {env : AirEnv} (entropy : Entropy) (am : Machine env) :
    Except Err Bytes × Machine env :=
  match entropy.read env.seedSize with
  | .error e => (.error (wrap "failed to rand.Read" e), am)
  | .ok seed =>
    match storeBaseSeed am seed with
    | (.error e, am1) => (.error (wrap "failed to storeBaseSeed" e), am1)
    | (.ok _, am1) => (.ok seed, am1)

/-- Lines 45-46 of `loadBaseSeed`: the seed and the suite built from it are
set. -/
def setBaseSeed {env : AirEnv} (am : Machine env) (seed : Bytes) : Machine env :=
  { am with baseSeed := seed, baseSuite := env.NewBLS12381Suite seed }

/-- The method `Machine.loadBaseSeed`. The test `errors.Is(err,
leveldb.ErrNotFound)` is false for a nil error, so the seed that
`getBaseSeed` returned is set. -/
def loadBaseSeed {env : AirEnv} (entropy : Entropy) (am : Machine env) :
    Except Err Unit × Machine env :=
  match getBaseSeed am with
  | .error err =>
    if errorsIs err ErrNotFound then
      match generateBaseSeed entropy am with
      | (.error e, am1) => (.error e, am1)
      | (.ok seed, am1) => (.ok (), setBaseSeed am1 seed)
    else (.error (wrap "failed to getBaseSeed" err), am)
  | .ok seed => (.ok (), setBaseSeed am seed)

/-- The method `Machine.getRoundOperationLog`. -/
def getRoundOperationLog {env : AirEnv} (am : Machine env) : Except Err RoundOperationLog :=
  match dbGet env am.db operationsLogDBKey with
  | .error err => .error err
  | .ok operationsLogBz =>
    wrapExcept "failed to unmarshal stored operationsLog" (env.UnmarshalLog operationsLogBz)

/-- The error handling that `storeOperation`, `getOperationsLog` and
`dropRoundOperationLog` share: `leveldb.ErrNotFound` is returned as it is,
any other error is wrapped. -/
def logError (err : Err) : Err :=
  if err = ErrNotFound then err else wrap "failed to get operationsLogBz from db" err

/-- Lines 81-90 and 120-129: the log is encoded and put under
`operationsLogDBKey`. -/
def putRoundOperationLog {env : AirEnv} (am : Machine env) (log : RoundOperationLog) :
    Except Err Unit × Machine env :=
  match env.MarshalLog log with
  | .error e => (.error (wrap "failed to marshal operationsLog" e), am)
  | .ok roundOperationsLogBz =>
    match dbPut env am.db operationsLogDBKey roundOperationsLogBz with
    | .error e => (.error (wrap "failed to put updated operationsLog" e), am)
    | .ok db => (.ok (), { am with db := db })

/-- The method `Machine.storeOperation`. -/
def storeOperation {env : AirEnv} (am : Machine env) (o : Operation) :
    Except Err Unit × Machine env :=
  match getRoundOperationLog am with
  | .error err => (.error (logError err), am)
  | .ok roundOperationsLog =>
    putRoundOperationLog am
      (roundOperationsLog.set o.DKGIdentifier
        ((roundOperationsLog.lookup o.DKGIdentifier).getD [] ++ [o]))

/-- The method `Machine.getOperationsLog`. -/
def getOperationsLog {env : AirEnv} (am : Machine env) (dkgIdentifier : String) :
    Except Err (List Operation) :=
  match getRoundOperationLog am with
  | .error err => .error (logError err)
  | .ok roundOperationsLog =>
    match roundOperationsLog.lookup dkgIdentifier with
    | none => .error ["operation log not found for " ++ dkgIdentifier]
    | some operationsLog => .ok operationsLog

/-- The method `Machine.dropRoundOperationLog`. -/
def dropRoundOperationLog {env : AirEnv} (am : Machine env) (dkgIdentifier : String) :
    Except Err Unit × Machine env :=
  match getRoundOperationLog am with
  | .error err => (.error (logError err), am)
  | .ok roundOperationsLog => putRoundOperationLog am (roundOperationsLog.set dkgIdentifier [])

/-- The call `am.db.OpenTransaction()`: a transaction without writes. -/
def openTransaction (env : AirEnv) (db : DB) : Except Err Tx :=
  match env.faults.OpenTransaction db with
  | some e => .error e
  | none => .ok []

/-- The call `tx.Put(key, value, nil)`: the write is added to the
transaction; the store is not touched. -/
def txPut (env : AirEnv) (db : DB) (tx : Tx) (key : String) (value : Bytes) : Except Err Tx :=
  match env.faults.TxPut db tx key value with
  | some e => .error e
  | none => .ok (tx ++ [(key, value)])

/-- The call `tx.Commit()`: all writes of the transaction reach the store, or
none does. -/
def txCommit (env : AirEnv) (db : DB) (tx : Tx) : Except Err DB :=
  match env.faults.Commit db tx with
  | some e => .error e
  | none => .ok (db.commit tx)

/-- Lines 216-239 of `SaveKeysToDB`: the transaction. The three values are
put and the transaction is committed; `defer tx.Discard()` drops the writes of
a transaction that is left before its commit. The result is the store
afterwards, or the error. -/
def saveKeysTx (env : AirEnv) (db : DB) (encryptedPubKey encryptedPrivateKey salt : Bytes) :
    Except Err DB := do
  let tx ← wrapExcept "failed to open transcation for db" (openTransaction env db)
  let tx ← wrapExcept "failed to put pub key into db" (txPut env db tx pubKeyDBKey encryptedPubKey)
  let tx ← wrapExcept "failed to put private key into db"
    (txPut env db tx privateKeyDBKey encryptedPrivateKey)
  let tx ← wrapExcept "failed to put salt into db" (txPut env db tx saltDBKey salt)
  wrapExcept "failed to commit tx for saving keys into db" (txCommit env db tx)

/-- Lines 196-214 of `SaveKeysToDB`: the keys are encoded and encrypted under
one salt of 32 random bytes. The result is the encrypted public key, the
encrypted private key and the salt. -/
def encryptKeys {env : AirEnv} (entropy : Entropy) (am : Machine env) :
    Except Err (Bytes × Bytes × Bytes) := do
  let pubKeyBz ← wrapExcept "failed to marshal pub key" (env.MarshalPoint am.pubKey)
  let privateKeyBz ← wrapExcept "failed to marshal private key" (env.MarshalScalar am.secKey)
  let salt ← wrapExcept "failed to generate salt" (entropy.read 32)
  let encryptedPubKey ← env.encrypt am.encryptionKey salt pubKeyBz
  let encryptedPrivateKey ← env.encrypt am.encryptionKey salt privateKeyBz
  pure (encryptedPubKey, encryptedPrivateKey, salt)

/-- The method `Machine.SaveKeysToDB`. -/
def SaveKeysToDB {env : AirEnv} (entropy : Entropy) (am : Machine env) :
    Except Err Unit × Machine env :=
  match encryptKeys entropy am with
  | .error e => (.error e, am)
  | .ok (encryptedPubKey, encryptedPrivateKey, salt) =>
    match saveKeysTx env am.db encryptedPubKey encryptedPrivateKey salt with
    | .error e => (.error e, am)
    | .ok db => (.ok (), { am with db := db })

/-- The operations log that the store holds: the decoded value of
`operationsLogDBKey`, if there is one and it decodes. -/
def storedLog (env : AirEnv) (db : DB) : Option RoundOperationLog :=
  match db.lookup operationsLogDBKey with
  | none => none
  | some bz =>
    match env.UnmarshalLog bz with
    | .error _ => none
    | .ok log => some log

/-- The JSON codec of the operations log gives back, on decoding an encoded
log, a log with the same value for every round id. -/
def AirEnv.logCodecRoundTrips (env : AirEnv) : Prop :=
  ∀ log bz, env.MarshalLog log = .ok bz →
    ∃ decoded, env.UnmarshalLog bz = .ok decoded ∧ ∀ id, decoded.lookup id = log.lookup id

/-! ## A small airgapped machine to run the storage code on -/

/-- The operations logs that the test codec can encode. -/
def testLogs : List RoundOperationLog :=
  [ [],
    [("r1", [initOperation])],
    [("r1", [initOperation, commitsOperation])],
    [("r2", [initOperation]), ("r1", [initOperation])],
    [("r1", []), ("r2", [initOperation])],
    [("r2", [initOperation])] ]

/-- The position of the first occurrence of `log` in a list of logs, the
length of the list when it does not occur. -/
def logIndex (log : RoundOperationLog) : List RoundOperationLog → Nat
  | [] => 0
  | l :: ls => if l = log then 0 else logIndex log ls + 1

/-- The test environment of the airgapped machine: a store that never fails,
points, scalars and suites that are byte strings, an encryption that writes
key, salt and plain text one after the other, and a codec that writes an
operations log as its index in `testLogs`. -/
def testAirEnv : AirEnv where
  Point := Bytes
  Scalar := Bytes
  Suite := Bytes
  faults :=
    { Get := fun _ _ => none
      Put := fun _ _ _ => none
      OpenTransaction := fun _ => none
      TxPut := fun _ _ _ _ => none
      Commit := fun _ _ => none }
  seedSize := 4
  NewBLS12381Suite := fun seed => seed
  MarshalPoint := fun p => .ok p
  MarshalScalar := fun s => .ok s
  encrypt := fun key salt plain => .ok (key ++ salt ++ plain)
  MarshalLog := fun log =>
    if log ∈ testLogs then .ok [logIndex log testLogs] else .error ["unsupported value"]
  UnmarshalLog := fun bz =>
    match bz with
    | [i] =>
      match testLogs.get? i with
      | some log => .ok log
      | none => .error ["invalid character"]
    | _ => .error ["invalid character"]

/-- A random source that yields the bytes 7, 8, 9, ... -/
def testEntropy : Entropy := ⟨fun i => 7 + i, none⟩

/-- A random source that yields the bytes 20, 21, 22, ... -/
def otherEntropy : Entropy := ⟨fun i => 20 + i, none⟩

/-- A machine of the test environment with the given store. -/
def testMachine (db : DB) : Machine testAirEnv :=
  { db := db
    encryptionKey := [3]
    baseSeed := []
    baseSuite := ([] : Bytes)
    pubKey := ([11, 12] : Bytes)
    secKey := ([13] : Bytes) }

/-- The test environment of the airgapped machine with a store whose
commits fail. -/
def commitDownEnv : AirEnv :=
  { testAirEnv with
    faults := { testAirEnv.faults with Commit := fun _ _ => some ["disk full"] } }

/-- A machine of `commitDownEnv` with the given store. -/
def commitDownMachine (db : DB) : Machine commitDownEnv :=
  { db := db
    encryptionKey := [3]
    baseSeed := []
    baseSuite := ([] : Bytes)
    pubKey := ([11, 12] : Bytes)
    secKey := ([13] : Bytes) }

/-! ## `dkg_proposal_fsm/init.go`: states, events and the event table -/

/-- The constant `dpf.StateDkgPubKeysAwaitConfirmations`. -/
def StateDkgPubKeysAwaitConfirmations : String := "state_dkg_pub_keys_await_confirmations"

/-- The constant `dpf.StateDkgPubKeysAwaitCanceled`. -/
def StateDkgPubKeysAwaitCanceled : String := "state_dkg_pub_keys_await_canceled"

/-- The constant `dpf.StateDkgPubKeysAwaitCanceledByTimeout`. -/
def StateDkgPubKeysAwaitCanceledByTimeout : String :=
  "state_dkg_pub_keys_await_canceled_by_timeout"

/-- The constant `dpf.StateDkgInitial`. -/
def StateDkgInitial : String := StateDkgPubKeysAwaitConfirmations

/-- The constant `dpf.StateDkgCommitsAwaitCanceled`. -/
def StateDkgCommitsAwaitCanceled : String := "state_dkg_commits_await_canceled"

/-- The constant `dpf.StateDkgCommitsAwaitCanceledByTimeout`. -/
def StateDkgCommitsAwaitCanceledByTimeout : String :=
  "state_dkg_commits_await_canceled_by_timeout"

/-- The constant `dpf.StateDkgCommitsAwaitConfirmed`. -/
def StateDkgCommitsAwaitConfirmed : String := "state_dkg_commits_await_confirmed"

/-- The constant `dpf.StateDkgDealsAwaitCanceled`. -/
def StateDkgDealsAwaitCanceled : String := "state_dkg_deals_await_canceled"

/-- The constant `dpf.StateDkgDealsAwaitCanceledByTimeout`. -/
def StateDkgDealsAwaitCanceledByTimeout : String := "state_dkg_deals_await_canceled_by_timeout"

/-- The constant `dpf.StateDkgResponsesAwaitCanceled`. -/
def StateDkgResponsesAwaitCanceled : String := "state_dkg_responses_await_canceled"

/-- The constant `dpf.StateDkgResponsesAwaitCanceledByTimeout`. -/
def StateDkgResponsesAwaitCanceledByTimeout : String :=
  "state_dkg_responses_sending_canceled_by_timeout"

/-- The constant `dpf.StateDkgResponsesAwaitConfirmed`. -/
def StateDkgResponsesAwaitConfirmed : String := "state_dkg_responses_await_confirmed"

/-- The constant `dpf.StateDkgMasterKeyAwaitCanceled`. -/
def StateDkgMasterKeyAwaitCanceled : String := "state_dkg_master_key_await_canceled"

/-- The constant `dpf.StateDkgMasterKeyAwaitCanceledByTimeout`. -/
def StateDkgMasterKeyAwaitCanceledByTimeout : String :=
  "state_dkg_master_key_await_canceled_by_timeout"

/-- The constant `dpf.EventDKGPubKeyConfirmationReceived`. -/
def EventDKGPubKeyConfirmationReceived : String := "event_dkg_pub_key_confirm_received"

/-- The constant `dpf.EventDKGPubKeyConfirmationError`. -/
def EventDKGPubKeyConfirmationError : String := "event_dkg_pub_key_confirm_canceled_by_error"

/-- The constant `dpf.eventAutoDKGValidatePubKeysConfirmationInternal`. -/
def eventAutoDKGValidatePubKeysConfirmationInternal : String :=
  "event_dkg_pub_keys_validate_internal"

/-- The constant `dpf.eventDKGSetPubKeysConfirmationCanceledByTimeoutInternal`. -/
def eventDKGSetPubKeysConfirmationCanceledByTimeoutInternal : String :=
  "event_dkg_pub_keys_confirm_canceled_by_timeout_internal"

/-- The constant `dpf.eventDKGSetPubKeysConfirmedInternal`. -/
def eventDKGSetPubKeysConfirmedInternal : String := "event_dkg_pub_keys_confirmed_internal"

/-- The constant `dpf.EventDKGCommitConfirmationReceived`. -/
def EventDKGCommitConfirmationReceived : String := "event_dkg_commit_confirm_received"

/-- The constant `dpf.EventDKGCommitConfirmationError`. -/
def EventDKGCommitConfirmationError : String := "event_dkg_commit_confirm_canceled_by_error"

/-- The constant `dpf.eventDKGCommitsConfirmationCancelByTimeoutInternal`. -/
def eventDKGCommitsConfirmationCancelByTimeoutInternal : String :=
  "event_dkg_commits_confirm_canceled_by_timeout_internal"

/-- The constant `dpf.eventDKGCommitsConfirmedInternal`. -/
def eventDKGCommitsConfirmedInternal : String := "event_dkg_commits_confirmed_internal"

/-- The constant `dpf.eventAutoDKGValidateConfirmationCommitsInternal`. -/
def eventAutoDKGValidateConfirmationCommitsInternal : String :=
  "event_dkg_commits_validate_internal"

/-- The constant `dpf.EventDKGDealConfirmationReceived`. -/
def EventDKGDealConfirmationReceived : String := "event_dkg_deal_confirm_received"

/-- The constant `dpf.EventDKGDealConfirmationError`. -/
def EventDKGDealConfirmationError : String := "event_dkg_deal_confirm_canceled_by_error"

/-- The constant `dpf.eventDKGDealsConfirmationCancelByTimeoutInternal`. -/
def eventDKGDealsConfirmationCancelByTimeoutInternal : String :=
  "event_dkg_deals_confirm_canceled_by_timeout_internal"

/-- The constant `dpf.eventDKGDealsConfirmedInternal`. -/
def eventDKGDealsConfirmedInternal : String := "event_dkg_deals_confirmed_internal"

/-- The constant `dpf.eventAutoDKGValidateConfirmationDealsInternal`. -/
def eventAutoDKGValidateConfirmationDealsInternal : String :=
  "event_dkg_deals_validate_internal"

/-- The constant `dpf.EventDKGResponseConfirmationReceived`. -/
def EventDKGResponseConfirmationReceived : String := "event_dkg_response_confirm_received"

/-- The constant `dpf.EventDKGResponseConfirmationError`. -/
def EventDKGResponseConfirmationError : String :=
  "event_dkg_response_confirm_canceled_by_error"

/-- The constant `dpf.eventDKGResponseConfirmationCancelByTimeoutInternal`. -/
def eventDKGResponseConfirmationCancelByTimeoutInternal : String :=
  "event_dkg_response_confirm_canceled_by_timeout_internal"

/-- The constant `dpf.eventDKGResponsesConfirmedInternal`. -/
def eventDKGResponsesConfirmedInternal : String := "event_dkg_responses_confirmed_internal"

/-- The constant `dpf.eventAutoDKGValidateResponsesConfirmationInternal`. -/
def eventAutoDKGValidateResponsesConfirmationInternal : String :=
  "event_dkg_responses_validate_internal"

/-- The constant `dpf.EventDKGMasterKeyConfirmationReceived`. -/
def EventDKGMasterKeyConfirmationReceived : String := "event_dkg_master_key_confirm_received"

/-- The constant `dpf.EventDKGMasterKeyConfirmationError`. -/
def EventDKGMasterKeyConfirmationError : String :=
  "event_dkg_master_key_confirm_canceled_by_error"

/-- The constant `dpf.eventDKGMasterKeyConfirmationCancelByTimeoutInternal`. -/
def eventDKGMasterKeyConfirmationCancelByTimeoutInternal : String :=
  "event_dkg_master_key_confirm_canceled_by_timeout_internal"

/-- The constant `dpf.eventDKGMasterKeyConfirmedInternal`. -/
def eventDKGMasterKeyConfirmedInternal : String := "event_dkg_master_key_confirmed_internal"

/-- The constant `dpf.eventAutoDKGValidateMasterKeyConfirmationInternal`. -/
def eventAutoDKGValidateMasterKeyConfirmationInternal : String :=
  "event_dkg_master_key_validate_internal"

/-- The fields of `fsm.EventDesc` that the event table sets. A field that a
literal leaves out has Go's zero value, `false`. -/
structure EventDesc where
  Name : String
  SrcState : List String
  DstState : String
  IsInternal : Bool := false
  IsAuto : Bool := false
  deriving DecidableEq, Repr

/-- The event table that `dpf.New` passes to `fsm.MustNewFSM`, lines 113-163,
entry by entry in the order of the source. `StateGlobalDone` is the constant
`fsm.StateGlobalDone` of the FSM library. -/
def DKGProposalFSM.events (StateGlobalDone : String) : List EventDesc :=
  [ -- Pub keys sending
    { Name := EventDKGPubKeyConfirmationReceived,
      SrcState := [StateDkgPubKeysAwaitConfirmations],
      DstState := StateDkgPubKeysAwaitConfirmations },
    { Name := EventDKGPubKeyConfirmationError,
      SrcState := [StateDkgPubKeysAwaitConfirmations],
      DstState := StateDkgPubKeysAwaitCanceled },
    { Name := eventAutoDKGValidatePubKeysConfirmationInternal,
      SrcState := [StateDkgPubKeysAwaitConfirmations],
      DstState := StateDkgPubKeysAwaitConfirmations, IsInternal := true, IsAuto := true },
    { Name := eventDKGSetPubKeysConfirmationCanceledByTimeoutInternal,
      SrcState := [StateDkgPubKeysAwaitConfirmations],
      DstState := StateDkgPubKeysAwaitCanceledByTimeout, IsInternal := true },
    { Name := eventDKGSetPubKeysConfirmedInternal,
      SrcState := [StateDkgPubKeysAwaitConfirmations],
      DstState := StateDkgCommitsAwaitConfirmations, IsInternal := true },
    -- Commits
    { Name := EventDKGCommitConfirmationReceived,
      SrcState := [StateDkgCommitsAwaitConfirmations],
      DstState := StateDkgCommitsAwaitConfirmations },
    { Name := EventDKGCommitConfirmationError,
      SrcState := [StateDkgCommitsAwaitConfirmations],
      DstState := StateDkgCommitsAwaitCanceled },
    { Name := eventDKGCommitsConfirmationCancelByTimeoutInternal,
      SrcState := [StateDkgCommitsAwaitConfirmations],
      DstState := StateDkgCommitsAwaitCanceledByTimeout, IsInternal := true },
    { Name := eventAutoDKGValidateConfirmationCommitsInternal,
      SrcState := [StateDkgCommitsAwaitConfirmations],
      DstState := StateDkgCommitsAwaitConfirmations, IsInternal := true, IsAuto := true },
    { Name := eventDKGCommitsConfirmedInternal,
      SrcState := [StateDkgCommitsAwaitConfirmations],
      DstState := StateDkgDealsAwaitConfirmations, IsInternal := true },
    -- Deals
    { Name := EventDKGDealConfirmationReceived,
      SrcState := [StateDkgDealsAwaitConfirmations],
      DstState := StateDkgDealsAwaitConfirmations },
    { Name := EventDKGDealConfirmationError,
      SrcState := [StateDkgDealsAwaitConfirmations],
      DstState := StateDkgDealsAwaitCanceled },
    { Name := eventDKGDealsConfirmationCancelByTimeoutInternal,
      SrcState := [StateDkgDealsAwaitConfirmations],
      DstState := StateDkgDealsAwaitConfirmations, IsInternal := true },
    { Name := eventAutoDKGValidateConfirmationDealsInternal,
      SrcState := [StateDkgDealsAwaitConfirmations],
      DstState := StateDkgDealsAwaitConfirmations, IsInternal := true, IsAuto := true },
    { Name := eventDKGDealsConfirmedInternal,
      SrcState := [StateDkgDealsAwaitConfirmations],
      DstState := StateDkgResponsesAwaitConfirmations, IsInternal := true },
    -- Responses
    { Name := EventDKGResponseConfirmationReceived,
      SrcState := [StateDkgResponsesAwaitConfirmations],
      DstState := StateDkgResponsesAwaitConfirmations },
    { Name := EventDKGResponseConfirmationError,
      SrcState := [StateDkgResponsesAwaitConfirmations],
      DstState := StateDkgResponsesAwaitCanceled },
    { Name := eventDKGResponseConfirmationCancelByTimeoutInternal,
      SrcState := [StateDkgResponsesAwaitConfirmations],
      DstState := StateDkgResponsesAwaitCanceledByTimeout, IsInternal := true },
    { Name := eventAutoDKGValidateResponsesConfirmationInternal,
      SrcState := [StateDkgResponsesAwaitConfirmations],
      DstState := StateDkgResponsesAwaitConfirmations, IsInternal := true, IsAuto := true },
    { Name := eventDKGResponsesConfirmedInternal,
      SrcState := [StateDkgResponsesAwaitConfirmations],
      DstState := StateDkgMasterKeyAwaitConfirmations, IsInternal := true },
    -- Master key
    { Name := EventDKGMasterKeyConfirmationReceived,
      SrcState := [StateDkgMasterKeyAwaitConfirmations],
      DstState := StateDkgMasterKeyAwaitConfirmations },
    { Name := EventDKGMasterKeyConfirmationError,
      SrcState := [StateDkgMasterKeyAwaitConfirmations],
      DstState := StateDkgMasterKeyAwaitCanceled },
    { Name := eventDKGMasterKeyConfirmationCancelByTimeoutInternal,
      SrcState := [StateDkgMasterKeyAwaitConfirmations],
      DstState := StateDkgMasterKeyAwaitCanceledByTimeout, IsInternal := true },
    { Name := eventAutoDKGValidateMasterKeyConfirmationInternal,
      SrcState := [StateDkgMasterKeyAwaitConfirmations],
      DstState := StateDkgMasterKeyAwaitConfirmations, IsInternal := true, IsAuto := true },
    { Name := eventDKGMasterKeyConfirmedInternal,
      SrcState := [StateDkgMasterKeyAwaitConfirmations],
      DstState := StateGlobalDone, IsInternal := true } ]

/-- The entries of an event table for the event `name`. -/
def eventsNamed (table : List EventDesc) (name : String) : List EventDesc :=
  table.filter (fun e => e.Name = name)

/-- The property that the transition table is to have for one phase: the
table has one entry for the phase's cancel-by-timeout event, the entry is
internal, its only source is the phase's `AwaitConfirmations` state and its
destination is the phase's `AwaitCanceledByTimeout` state. -/
def timeoutCancels (table : List EventDesc) (awaitConfirmations event canceledByTimeout : String) :
    Bool :=
  match eventsNamed table event with
  | [e] =>
    e.IsInternal && decide (e.SrcState = [awaitConfirmations]) &&
      decide (e.DstState = canceledByTimeout)
  | _ => false

/-! ## `dkg/dkg.go`: processing of deals -/

/-- What `dkg.go` is given by the kyber library: the Pedersen DKG instance,
deals, points and VSS verifiers.

* `Index deal` is `deal.Index`, a `uint32`.
* `ProcessDeal instance deal` is `d.instance.ProcessDeal(deal)`: the
  `Response.Status` of the response or the error, and the instance afterwards.
* `Verifiers instance index` is `d.instance.Verifiers()[index]`.
* `DecryptDeal verifier deal` is `verifier.DecryptDeal(deal.Deal)`: the
  `Commitments` of the decrypted deal, or the error.
* `Equal p q` is `p.Equal(q)` of `kyber.Point`.
-/
structure DKGEnv where
  Instance : Type
  Deal : Type
  Point : Type
  Verifier : Type
  Index : Deal → Nat
  ProcessDeal : Instance → Deal → Except Err Bool × Instance
  Verifiers : Instance → Nat → Verifier
  DecryptDeal : Verifier → Deal → Except Err (List Point)
  Equal : Point → Point → Bool

/-- Modelled from the spec: the commits previously stored for the dealers,
the field `indexToData` of `d.commits` that `processDealCommits` reads. The
value for a dealer index is a list of `interface{}` values: `some p` is a
value that is a `kyber.Point`, `none` one that is not. -/
abbrev CommitStore (Point : Type) := List (Nat × List (Option Point))

/-- The fields of the struct `DKG` that `processDeals` reads and writes.
`deals` is the map `d.deals` in the order in which the `range` loop visits
it. -/
structure DKG (env : DKGEnv) where
  instance_ : env.Instance
  deals : List (String × env.Deal)
  commits : CommitStore env.Point
  participantID : Int

/-- The Go conversion `uint32(x)` of an `int`. -/
def uint32 (x : Int) : Nat := (x % 2 ^ 32).toNat

/-- Lines 118-125 of `processDealCommits`: every stored value is cast to
`kyber.Point`; `none` when a cast fails. -/
def castCommits {Point : Type} : List (Option Point) → Option (List Point)
  | [] => some []
  | none :: _ => none
  | some commit :: rest =>
    match castCommits rest with
    | none => none
    | some originalCommits => some (commit :: originalCommits)

/-- Lines 131-135 of `processDealCommits`, for two lists of one length: no
index has an original commit that is not `Equal` to the commitment of the
deal. -/
def commitsEqual {Point : Type} (Equal : Point → Point → Bool) :
    List Point → List Point → Bool
  | original :: originalCommits, commitment :: commitments =>
    if !Equal original commitment then false else commitsEqual Equal originalCommits commitments
  | _, _ => true

/-- The method `DKG.processDealCommits`: the `bool` and the `error` it
returns. The `err` returned at line 116 is the nil error of the decryption
that succeeded. -/
def processDealCommits {env : DKGEnv} (d : DKG env) (verifier : env.Verifier)
    (deal : env.Deal) : Bool × Option Err :=
  match env.DecryptDeal verifier deal with
  | .error err => (false, some err)
  | .ok commitments =>
    match d.commits.lookup (env.Index deal) with
    | none => (false, none)
    | some commitsData =>
      match castCommits commitsData with
      | none => (false, some ["failed to cast commit data to commit type"])
      | some originalCommits =>
        if originalCommits.length ≠ commitments.length then
          (false,
            some ["number of original commitments and number of commitments in the deal are not met"])
        else if commitsEqual env.Equal originalCommits commitments then (true, none)
        else (false, some ["commits are different"])

/-- The loop of `DKG.processDeals` over the deals that are still to visit:
the error returned (`none` for nil) and the `DKG` afterwards. -/
def processDealsLoop {env : DKGEnv} (d : DKG env) :
    List (String × env.Deal) → Option Err × DKG env
  | [] => (none, d)
  | (_, deal) :: rest =>
    if env.Index deal = uint32 d.participantID then processDealsLoop d rest
    else
      match env.ProcessDeal d.instance_ deal with
      | (.error err, inst) => (some err, { d with instance_ := inst })
      | (.ok status, inst) =>
        match processDealCommits { d with instance_ := inst }
            (env.Verifiers inst (env.Index deal)) deal with
        | (_, some err) => (some err, { d with instance_ := inst })
        | (commitsOK, none) =>
          if !status || !commitsOK then
            (some ["failed to process deals"], { d with instance_ := inst })
          else processDealsLoop { d with instance_ := inst } rest

/-- The method `DKG.processDeals`. -/
def processDeals {env : DKGEnv} (d : DKG env) : Option Err × DKG env :=
  processDealsLoop d d.deals

/-- The decrypted commitments equal the stored commits of the dealer: the
two lists have one length, and at every index the stored value is a point
that is `Equal` to the commitment of the deal. -/
def commitsMatch {Point : Type} (Equal : Point → Point → Bool)
    (stored : List (Option Point)) (commitments : List Point) : Prop :=
  stored.length = commitments.length ∧
  ∀ i, i < stored.length →
    ∃ p c, stored.get? i = some (some p) ∧ commitments.get? i = some c ∧ Equal p c = true

/-! ## A small DKG to run `processDeals` on -/

/-- The test DKG library: a deal is its dealer index and its commitments in
the clear, points are numbers, an instance counts the deals it processed and
accepts every deal, the verifier of a dealer is the dealer's index and
decrypts the deals of that dealer only. -/
def testDKGEnv : DKGEnv where
  Instance := Nat
  Deal := Nat × List Nat
  Point := Nat
  Verifier := Nat
  Index := fun deal => deal.1
  ProcessDeal := fun inst _ => (.ok true, inst + 1)
  Verifiers := fun _ index => index
  DecryptDeal := fun verifier deal =>
    if verifier = deal.1 then .ok deal.2 else .error ["decryption failed"]
  Equal := fun p q => decide (p = q)

/-- A test DKG of participant 0 that stored the commits `[5, 6]` of dealer 1
and `[8]` of dealer 2 and holds the given deals. -/
def testDKG (deals : List (String × (Nat × List Nat))) : DKG testDKGEnv :=
  { instance_ := (0 : Nat)
    deals := deals
    commits := [(1, [some (5 : Nat), some (6 : Nat)]), (2, [some (8 : Nat)])]
    participantID := 0 }

/-- The initial state that `dpf.New` passes to `fsm.MustNewFSM`, line 103. -/
def DKGProposalFSM.initialState : String := StateDkgInitial

/-- The property that an event of the transition table leads from one state
to another: the table has one entry for `event`, its only source is `src`,
its destination is `dst`, it is internal or external as `isInternal` says,
and it is not an auto event. -/
def transitionIs (table : List EventDesc) (event src dst : String) (isInternal : Bool) : Bool :=
  match eventsNamed table event with
  | [e] =>
    decide (e.SrcState = [src]) && decide (e.DstState = dst) &&
      decide (e.IsInternal = isInternal) && !e.IsAuto
  | _ => false

/-! ## `fsm/state_machines/internal/types.go` -/

namespace internal

/-- Go `time.Time`, as the instant it denotes: nanoseconds on one time
line. -/
abbrev Time := Int

/-- The method `t.Before(u)` of `time.Time`: the instant `t` is before
`u`. -/
def Time.Before (t u : Time) : Bool := decide (t < u)

/-- The type `ConfirmationParticipantStatus`, a `uint8`. -/
abbrev ConfirmationParticipantStatus := Nat

/-- The constant `SigConfirmationAwaitConfirmation`, `iota` 0. -/
def SigConfirmationAwaitConfirmation : ConfirmationParticipantStatus := 0

/-- The constant `SigConfirmationConfirmed`. -/
def SigConfirmationConfirmed : ConfirmationParticipantStatus := 1

/-- The constant `SigConfirmationDeclined`. -/
def SigConfirmationDeclined : ConfirmationParticipantStatus := 2

/-- The constant `SigConfirmationError`. -/
def SigConfirmationError : ConfirmationParticipantStatus := 3

/-- The method `ConfirmationParticipantStatus.String`. -/
def ConfirmationParticipantStatus.String (s : ConfirmationParticipantStatus) : String :=
  if s = SigConfirmationAwaitConfirmation then "SigConfirmationAwaitConfirmation"
  else if s = SigConfirmationConfirmed then "SigConfirmationConfirmed"
  else if s = SigConfirmationDeclined then "SigConfirmationDeclined"
  else if s = SigConfirmationError then "SigConfirmationError"
  else "undefined"

/-- The struct `SignatureProposalParticipant`. -/
structure SignatureProposalParticipant where
  Addr : String
  PubKey : Bytes
  DkgPubKey : Bytes
  InvitationSecret : String
  Status : ConfirmationParticipantStatus
  Threshold : Int
  UpdatedAt : Time
  deriving DecidableEq, Repr

/-- The type `SignatureProposalQuorum`, a map from participant id. -/
abbrev SignatureProposalQuorum := List (Int × SignatureProposalParticipant)

/-- The struct `SignatureConfirmation`. -/
structure SignatureConfirmation where
  Quorum : SignatureProposalQuorum
  CreatedAt : Time
  UpdatedAt : Time
  ExpiresAt : Time
  deriving DecidableEq, Repr

/-- The method `SignatureConfirmation.IsExpired`. -/
def SignatureConfirmation.IsExpired (c : SignatureConfirmation) : Bool :=
  Time.Before c.ExpiresAt c.UpdatedAt

/-- The type `DKGParticipantStatus`, a `uint8`. -/
abbrev DKGParticipantStatus := Nat

/-- The constant `CommitAwaitConfirmation`, `iota` 0. -/
def CommitAwaitConfirmation : DKGParticipantStatus := 0

/-- The constant `CommitConfirmed`. -/
def CommitConfirmed : DKGParticipantStatus := 1

/-- The constant `CommitConfirmationError`. -/
def CommitConfirmationError : DKGParticipantStatus := 2

/-- The constant `DealAwaitConfirmation`. -/
def DealAwaitConfirmation : DKGParticipantStatus := 3

/-- The constant `DealConfirmed`. -/
def DealConfirmed : DKGParticipantStatus := 4

/-- The constant `DealConfirmationError`. -/
def DealConfirmationError : DKGParticipantStatus := 5

/-- The constant `ResponseAwaitConfirmation`. -/
def ResponseAwaitConfirmation : DKGParticipantStatus := 6

/-- The constant `ResponseConfirmed`. -/
def ResponseConfirmed : DKGParticipantStatus := 7

/-- The constant `ResponseConfirmationError`. -/
def ResponseConfirmationError : DKGParticipantStatus := 8

/-- The constant `MasterKeyAwaitConfirmation`. -/
def MasterKeyAwaitConfirmation : DKGParticipantStatus := 9

/-- The constant `MasterKeyConfirmed`. -/
def MasterKeyConfirmed : DKGParticipantStatus := 10

/-- The constant `MasterKeyConfirmationError`. -/
def MasterKeyConfirmationError : DKGParticipantStatus := 11

/-- The struct `DKGProposalParticipant`; `Error` is `none` for a nil
error. -/
structure DKGProposalParticipant where
  Addr : String
  DkgPubKey : Bytes
  DkgCommit : Bytes
  DkgDeal : Bytes
  DkgResponse : Bytes
  DkgMasterKey : Bytes
  Status : DKGParticipantStatus
  Error : Option Err
  UpdatedAt : Time
  deriving DecidableEq, Repr

/-- The type `DKGProposalQuorum`, a map from participant id. -/
abbrev DKGProposalQuorum := List (Int × DKGProposalParticipant)

/-- The struct `DKGConfirmation`. -/
structure DKGConfirmation where
  Quorum : DKGProposalQuorum
  CreatedAt : Time
  UpdatedAt : Time
  ExpiresAt : Time
  deriving DecidableEq, Repr

/-- The method `DKGConfirmation.IsExpired`. -/
def DKGConfirmation.IsExpired (c : DKGConfirmation) : Bool :=
  Time.Before c.ExpiresAt c.UpdatedAt

/-- The method `DKGParticipantStatus.String`. -/
def DKGParticipantStatus.String (s : DKGParticipantStatus) : String :=
  if s = CommitAwaitConfirmation then "CommitAwaitConfirmation"
  else if s = CommitConfirmed then "CommitConfirmed"
  else if s = CommitConfirmationError then "CommitConfirmationError"
  else if s = DealAwaitConfirmation then "DealAwaitConfirmation"
  else if s = DealConfirmed then "DealConfirmed"
  else if s = DealConfirmationError then "DealConfirmationError"
  else if s = ResponseAwaitConfirmation then "ResponseAwaitConfirmation"
  else if s = ResponseConfirmed then "ResponseConfirmed"
  else if s = ResponseConfirmationError then "ResponseConfirmationError"
  else if s = MasterKeyAwaitConfirmation then "MasterKeyAwaitConfirmation"
  else if s = MasterKeyConfirmed then "MasterKeyConfirmed"
  else if s = MasterKeyConfirmationError then "MasterKeyConfirmationError"
  else "undefined"

/-- The type `SigningParticipantStatus`, a `uint8`. -/
abbrev SigningParticipantStatus := Nat

/-- The constant `SigningAwaitConfirmation`, `iota` 0. -/
def SigningAwaitConfirmation : SigningParticipantStatus := 0

/-- The constant `SigningConfirmed`. -/
def SigningConfirmed : SigningParticipantStatus := 1

/-- The constant `SigningDeclined`. -/
def SigningDeclined : SigningParticipantStatus := 2

/-- The constant `SigningAwaitPartialSigns`. -/
def SigningAwaitPartialSigns : SigningParticipantStatus := 3

/-- The constant `SigningPartialSignsConfirmed`. -/
def SigningPartialSignsConfirmed : SigningParticipantStatus := 4

/-- The constant `SigningError`. -/
def SigningError : SigningParticipantStatus := 5

/-- The constant `SigningProcess`. -/
def SigningProcess : SigningParticipantStatus := 6

/-- The struct `SigningProposalParticipant`; `Error` is `none` for a nil
error. -/
structure SigningProposalParticipant where
  Addr : String
  Status : SigningParticipantStatus
  PartialSign : Bytes
  Error : Option Err
  UpdatedAt : Time
  deriving DecidableEq, Repr

/-- The type `SigningProposalQuorum`, a map from participant id. -/
abbrev SigningProposalQuorum := List (Int × SigningProposalParticipant)

/-- The struct `SigningConfirmation`. -/
structure SigningConfirmation where
  SigningId : String
  InitiatorId : Int
  Quorum : SigningProposalQuorum
  RecoveredKey : Bytes
  SrcPayload : Bytes
  EncryptedPayload : Bytes
  CreatedAt : Time
  UpdatedAt : Time
  ExpiresAt : Time
  deriving DecidableEq, Repr

/-- The method `SigningConfirmation.IsExpired`. -/
def SigningConfirmation.IsExpired (c : SigningConfirmation) : Bool :=
  Time.Before c.ExpiresAt c.UpdatedAt

/-- The method `SigningParticipantStatus.String`. -/
def SigningParticipantStatus.String (s : SigningParticipantStatus) : String :=
  if s = SigningAwaitConfirmation then "SigningAwaitConfirmation"
  else if s = SigningConfirmed then "SigningConfirmed"
  else if s = SigningAwaitPartialSigns then "SigningAwaitPartialSigns"
  else if s = SigningPartialSignsConfirmed then "SigningPartialSignsConfirmed"
  else if s = SigningError then "SigningError"
  else if s = SigningProcess then "SigningProcess"
  else "undefined"

/-- The declared constants of `ConfirmationParticipantStatus`, each with its
identifier. -/
def confirmationStatuses : List (ConfirmationParticipantStatus × String) :=
  [ (SigConfirmationAwaitConfirmation, "SigConfirmationAwaitConfirmation"),
    (SigConfirmationConfirmed, "SigConfirmationConfirmed"),
    (SigConfirmationDeclined, "SigConfirmationDeclined"),
    (SigConfirmationError, "SigConfirmationError") ]

/-- The declared constants of `DKGParticipantStatus`, each with its
identifier. -/
def dkgStatuses : List (DKGParticipantStatus × String) :=
  [ (CommitAwaitConfirmation, "CommitAwaitConfirmation"),
    (CommitConfirmed, "CommitConfirmed"),
    (CommitConfirmationError, "CommitConfirmationError"),
    (DealAwaitConfirmation, "DealAwaitConfirmation"),
    (DealConfirmed, "DealConfirmed"),
    (DealConfirmationError, "DealConfirmationError"),
    (ResponseAwaitConfirmation, "ResponseAwaitConfirmation"),
    (ResponseConfirmed, "ResponseConfirmed"),
    (ResponseConfirmationError, "ResponseConfirmationError"),
    (MasterKeyAwaitConfirmation, "MasterKeyAwaitConfirmation"),
    (MasterKeyConfirmed, "MasterKeyConfirmed"),
    (MasterKeyConfirmationError, "MasterKeyConfirmationError") ]

/-- The declared constants of `SigningParticipantStatus`, each with its
identifier. -/
def signingStatuses : List (SigningParticipantStatus × String) :=
  [ (SigningAwaitConfirmation, "SigningAwaitConfirmation"),
    (SigningConfirmed, "SigningConfirmed"),
    (SigningDeclined, "SigningDeclined"),
    (SigningAwaitPartialSigns, "SigningAwaitPartialSigns"),
    (SigningPartialSignsConfirmed, "SigningPartialSignsConfirmed"),
    (SigningError, "SigningError"),
    (SigningProcess, "SigningProcess") ]

/-- The property that a `String` method is to have on a list of declared
constants: every constant gives its own identifier and no identifier is
`undefined` or given twice. -/
def namesItsConstants (toString : Nat → String) (declared : List (Nat × String)) : Bool :=
  declared.all (fun p => decide (toString p.1 = p.2)) &&
    decide ("undefined" ∉ declared.map Prod.snd) && decide (declared.map Prod.snd).Nodup

end internal

/-- The method `BaseClient.GetFSMDump`; `FSMDump` is the method of that name
of the FSM instance. -/
def GetFSMDump (env : Env) {R : Type} (FSMDump : env.F → R) (dkgID : String) : M R :=
  M.bind
    (M.wrapErr ("failed to get FSM instance for DKG round ID " ++ dkgID)
      (getFSMInstance env dkgID))
    fun fsmInstance => M.pure (FSMDump fsmInstance)

/-- The persisted state after a `SaveFSM` that succeeded. -/
def World.withSnapshot (w : World) (dkgRoundID : String) (dump : Bytes) : World :=
  { w with fsms := (dkgRoundID, dump) :: w.fsms.filter (fun p => p.1 ≠ dkgRoundID) }

/-- A `SignatureReconstructed` message for a round `r9` that is not stored. -/
def reconstructedUnknownRound : Message :=
  ⟨"m6", "r9", 5, "signature_reconstructed", [7, 8], [9], "bob", ""⟩

/-- What the block "switch FSM state by hand" does when it succeeds, said
with the calls it makes: when the response state is `state`, the FSM is
restored from the dump with `FromDump` and `next` is what `Do` of `event`
returns on the restored FSM; otherwise nothing is dispatched and `next` is
`cur`. -/
def chainedTo (env : Env) (state event : String) (now : Nat)
    (cur next : Response env.D × Bytes × env.F) : Prop :=
  (cur.1.State = state ∧
    ∃ restored, env.FromDump cur.2.1 = .ok restored ∧
      env.Do restored event (env.DefaultRequest now) = .ok next) ∨
  (cur.1.State ≠ state ∧ next = cur)

/-- What the block "switch FSM state by hand" does when it fails with `e`:
the response state is `state`, and the restoring of the FSM or the `Do` of
`event` on the restored FSM returned the error that `e` wraps. -/
def chainFailsWith (env : Env) (state event : String) (now : Nat)
    (cur : Response env.D × Bytes × env.F) (e : Err) : Prop :=
  cur.1.State = state ∧
    ((∃ e0, env.FromDump cur.2.1 = .error e0 ∧
        e = wrap "failed get state_machines from dump" e0) ∨
      (∃ restored e0, env.FromDump cur.2.1 = .ok restored ∧
        env.Do restored event (env.DefaultRequest now) = .error e0 ∧
        e = wrap "failed to Do operation in FSM" e0))

/-- The test environment with an FSM that refuses `DKGInitProcess`. -/
def chainDownEnv : Env :=
  { testEnv with
    Do := fun f event req =>
      if event = "event_dkg_init_process" then .error ["invalid transition"]
      else testDo f event req }

/-! ## `airgapped/storage.go`: loading the keys -/

/-- What `LoadKeysFromDB` is given besides `AirEnv`: the symmetric
decryption and the decoding of curve points and scalars.

* `Point suite` and `Scalar suite` are `suite.Point()` and `suite.Scalar()`,
  the new values that `UnmarshalBinary` is called on.
* `UnmarshalPoint p bz` is `p.UnmarshalBinary(bz)`: the error (`none` for
  nil) and the receiver as the call left it; `UnmarshalScalar` likewise.
-/
structure KeyDecoders (env : AirEnv) where
  decrypt : Bytes → Bytes → Bytes → Except Err Bytes
  Point : env.Suite → env.Point
  Scalar : env.Suite → env.Scalar
  UnmarshalPoint : env.Point → Bytes → Option Err × env.Point
  UnmarshalScalar : env.Scalar → Bytes → Option Err × env.Scalar

/-- The error handling of the three reads of `LoadKeysFromDB`:
`leveldb.ErrNotFound` is returned as it is, any other error is wrapped. -/
def keyReadError (msg : String) (err : Err) : Err :=
  if err = ErrNotFound then err else wrap msg err

/-- Lines 181-190 of `LoadKeysFromDB`: the decrypted keys are decoded into a
new point and a new scalar, each assigned to its field of the machine before
it is decoded. -/
def unmarshalKeys {env : AirEnv} (dec : KeyDecoders env) (am : Machine env)
    (decryptedPubKey decryptedPrivateKey : Bytes) : Except Err Unit × Machine env :=
  match dec.UnmarshalPoint (dec.Point am.baseSuite) decryptedPubKey with
  | (some err, pubKey) =>
    (.error (wrap "failed to unmarshal public key" err), { am with pubKey := pubKey })
  | (none, pubKey) =>
    match dec.UnmarshalScalar (dec.Scalar am.baseSuite) decryptedPrivateKey with
    | (some err, secKey) =>
      (.error (wrap "failed to unmarshal private key" err),
        { am with pubKey := pubKey, secKey := secKey })
    | (none, secKey) => (.ok (), { am with pubKey := pubKey, secKey := secKey })

/-- Lines 148-179 of `LoadKeysFromDB`: the three values are read and the two
keys are decrypted under the salt. The result is the decrypted public key and
the decrypted private key. -/
def readKeys {env : AirEnv} (dec : KeyDecoders env) (am : Machine env) :
    Except Err (Bytes × Bytes) :=
  match dbGet env am.db pubKeyDBKey with
  | .error err => .error (keyReadError "failed to get public key from db" err)
  | .ok pubKeyBz =>
    match dbGet env am.db privateKeyDBKey with
    | .error err => .error (keyReadError "failed to get private key from db" err)
    | .ok privateKeyBz =>
      match dbGet env am.db saltDBKey with
      | .error err => .error (keyReadError "failed to read salt from db" err)
      | .ok salt =>
        match dec.decrypt am.encryptionKey salt pubKeyBz with
        | .error err => .error err
        | .ok decryptedPubKey =>
          match dec.decrypt am.encryptionKey salt privateKeyBz with
          | .error err => .error err
          | .ok decryptedPrivateKey => .ok (decryptedPubKey, decryptedPrivateKey)

/-- The method `Machine.LoadKeysFromDB`. -/
def LoadKeysFromDB {env : AirEnv} (dec : KeyDecoders env) (am : Machine env) :
    Except Err Unit × Machine env :=
  match readKeys dec am with
  | .error err => (.error err, am)
  | .ok (decryptedPubKey, decryptedPrivateKey) =>
    unmarshalKeys dec am decryptedPubKey decryptedPrivateKey

/-- The decoders of the test environment: a cipher text is key, salt and
plain text one after the other, a new point or scalar is empty, and the empty
byte string decodes to nothing. -/
def testDecoders : KeyDecoders testAirEnv where
  decrypt := fun key salt cipher =>
    if cipher.take (key.length + salt.length) = key ++ salt then
      .ok (cipher.drop (key.length + salt.length))
    else .error ["cipher: message authentication failed"]
  Point := fun _ => ([] : Bytes)
  Scalar := fun _ => ([] : Bytes)
  UnmarshalPoint := fun p bz =>
    match bz with
    | [] => (some ["invalid point encoding"], p)
    | _ => (none, bz)
  UnmarshalScalar := fun s bz =>
    match bz with
    | [] => (some ["invalid scalar encoding"], s)
    | _ => (none, bz)

/-- A store whose public key decrypts to bytes that are no point. -/
def badPubKeyDB : DB :=
  [("public_key", [3, 9]), ("private_key", [3, 9, 23]), ("salt_key", [9])]

/-- A store whose private key decrypts to bytes that are no scalar. -/
def badPrivateKeyDB : DB :=
  [("public_key", [3, 9, 21, 22]), ("private_key", [3, 9]), ("salt_key", [9])]

/-- A store that holds the keys `[21, 22]` and `[23]`. -/
def goodKeysDB : DB :=
  [("public_key", [3, 9, 21, 22]), ("private_key", [3, 9, 23]), ("salt_key", [9])]

/-- The public key of a machine of the test environment, as bytes. -/
def pubKeyBytes (am : Machine testAirEnv) : Bytes := am.pubKey

/-- The private key of a machine of the test environment, as bytes. -/
def secKeyBytes (am : Machine testAirEnv) : Bytes := am.secKey

/-! ## `client/http_server.go` -/

/-- What a handler reads of the request `r`: the method, what
`ioutil.ReadAll(r.Body)` returns, and the `operationID` of the query. -/
structure Request where
  Method : String
  Body : Except Err Bytes
  operationID : String

/-- The constant `http.MethodGet`. -/
def MethodGet : String := "GET"

/-- The constant `http.MethodPost`. -/
def MethodPost : String := "POST"

/-- The constant `http.StatusBadRequest`. -/
def StatusBadRequest : Nat := 400

/-- The constant `http.StatusInternalServerError`. -/
def StatusInternalServerError : Nat := 500

/-- The value handed to `successResponse`. -/
inductive Reply where
  | text (s : String)
  | key (bz : Bytes)
  | operations (ops : List Operation)
  | paths (ps : List String)
  | json (bz : Bytes)
  deriving DecidableEq, Repr

/-- What a handler does, step by step: the response it writes with
`errorResponse`, `successResponse` or `rawResponse`, and the calls of
`SendMessage` and `handleProcessedOperation` on the client. The message of an
error response is the chain that `fmt.Sprintf("...: %v", err)` prints. -/
inductive Served where
  | errorResponse (statusCode : Nat) (error : Err)
  | successResponse (response : Reply)
  | rawResponse (response : Bytes)
  | SendMessage (message : Message)
  | handleProcessedOperation (operation : Operation)
  deriving DecidableEq, Repr

/-- How a handler ends: it returns, or it dereferences a nil pointer and
panics. -/
inductive Ending where
  | returned
  | nilDereference
  deriving DecidableEq, Repr

/-- The run of a handler: its steps, oldest first, and how it ended. -/
structure Handled where
  served : List Served
  ending : Ending
  deriving DecidableEq, Repr

/-- What the handlers call on the client and in other packages.

* `userName`, `pubKey` are `c.GetUsername()` and `c.GetPubKey()`.
* `uuid` is the `uuid.New().String()` of `buildMessage`; `MessageBytes` is
  `message.Bytes()`; `signMessage` is `c.signMessage`.
* `UnmarshalMessage`, `UnmarshalSignRequest` and `UnmarshalOperation` are the
  calls of `json.Unmarshal` into a `storage.Message`, a `map[string][]byte`
  and a `types.Operation`.
* `md5` and `hexEncode` are `md5.Sum` and `hex.EncodeToString`.
-/
structure HttpEnv where
  userName : String
  pubKey : Bytes
  uuid : String
  MessageBytes : Message → Bytes
  signMessage : Bytes → Except Err Bytes
  UnmarshalMessage : Bytes → Except Err Message
  UnmarshalSignRequest : Bytes → Except Err (List (String × Bytes))
  UnmarshalOperation : Bytes → Except Err Operation
  SendMessage : Message → Option Err
  GetOperations : Except Err (List Operation)
  GetOperationQRPath : String → Except Err (List String)
  getOperationJSON : String → Except Err Bytes
  EncodeQR : Bytes → Except Err Bytes
  handleProcessedOperation : Operation → Option Err
  md5 : Bytes → Bytes
  hexEncode : Bytes → String
  EventInitProposal : String
  EventSigningStart : String

/-- The method `Client.buildMessage`: the pointer to the message (`none` for
nil) and the error (`none` for nil). -/
def buildMessage (henv : HttpEnv) (dkgRoundID event : String) (data : Bytes) :
    Option Message × Option Err :=
  let message : Message :=
    { ID := henv.uuid
      DkgRoundID := dkgRoundID
      Offset := 0
      Event := event
      Data := data
      Signature := []
      SenderAddr := henv.userName
      RecipientAddr := "" }
  match henv.signMessage (henv.MessageBytes message) with
  | .error err => (none, some (wrap "failed to sign message" err))
  | .ok signature => (some { message with Signature := signature }, none)

/-- The first lines of every handler: a request with another method than the
handler's gets the response "Wrong HTTP method" and the handler returns. -/
def withMethod (method : String) (r : Request) (body : Handled) : Handled :=
  if r.Method ≠ method then
    ⟨[.errorResponse StatusBadRequest ["Wrong HTTP method"]], .returned⟩
  else body

/-- The method `Client.getUsernameHandler`. -/
def getUsernameHandler (henv : HttpEnv) (r : Request) : Handled :=
  withMethod MethodGet r ⟨[.successResponse (.text henv.userName)], .returned⟩

/-- The method `Client.getPubkeyHandler`. -/
def getPubkeyHandler (henv : HttpEnv) (r : Request) : Handled :=
  withMethod MethodGet r ⟨[.successResponse (.key henv.pubKey)], .returned⟩

/-- The method `Client.sendMessageHandler`. -/
def sendMessageHandler (henv : HttpEnv) (r : Request) : Handled :=
  withMethod MethodPost r <|
    match r.Body with
    | .error err =>
      ⟨[.errorResponse StatusBadRequest (wrap "failed to read request body" err)], .returned⟩
    | .ok reqBytes =>
      match henv.UnmarshalMessage reqBytes with
      | .error err =>
        ⟨[.errorResponse StatusInternalServerError (wrap "failed to unmarshal message" err)],
          .returned⟩
      | .ok msg =>
        match henv.SendMessage msg with
        | some err =>
          ⟨[.SendMessage msg,
              .errorResponse StatusInternalServerError
                (wrap "failed to send message to the storage" err)], .returned⟩
        | none => ⟨[.SendMessage msg, .successResponse (.text "ok")], .returned⟩

/-- The method `Client.getOperationsHandler`. -/
def getOperationsHandler (henv : HttpEnv) (r : Request) : Handled :=
  withMethod MethodGet r <|
    match henv.GetOperations with
    | .error err =>
      ⟨[.errorResponse StatusInternalServerError (wrap "failed to get operations" err)],
        .returned⟩
    | .ok operations => ⟨[.successResponse (.operations operations)], .returned⟩

/-- The method `Client.getOperationQRPathHandler`. -/
def getOperationQRPathHandler (henv : HttpEnv) (r : Request) : Handled :=
  withMethod MethodGet r <|
    match henv.GetOperationQRPath r.operationID with
    | .error err =>
      ⟨[.errorResponse StatusInternalServerError (wrap "failed to get operation QR path" err)],
        .returned⟩
    | .ok qrPaths => ⟨[.successResponse (.paths qrPaths)], .returned⟩

/-- The method `Client.getOperationHandler`. -/
def getOperationHandler (henv : HttpEnv) (r : Request) : Handled :=
  withMethod MethodGet r <|
    match henv.getOperationJSON r.operationID with
    | .error err =>
      ⟨[.errorResponse StatusInternalServerError (wrap "failed to get operation" err)],
        .returned⟩
    | .ok operation => ⟨[.successResponse (.json operation)], .returned⟩

/-- The method `Client.getOperationQRToBodyHandler`. -/
def getOperationQRToBodyHandler (henv : HttpEnv) (r : Request) : Handled :=
  withMethod MethodGet r <|
    match henv.getOperationJSON r.operationID with
    | .error err =>
      ⟨[.errorResponse StatusInternalServerError (wrap "failed to get operation in JSON" err)],
        .returned⟩
    | .ok operationJSON =>
      match henv.EncodeQR operationJSON with
      | .error err =>
        ⟨[.errorResponse StatusInternalServerError (wrap "failed to encode operation" err)],
          .returned⟩
      | .ok encodedData => ⟨[.rawResponse encodedData], .returned⟩

/-- Lines 211-215 and 240-244: `c.SendMessage(*message)` and the response to
it, after the steps `before`. The pointer `message` is dereferenced; a nil
pointer ends the handler there. -/
def sendBuilt (henv : HttpEnv) (before : List Served) (message : Option Message) : Handled :=
  match message with
  | none => ⟨before, .nilDereference⟩
  | some msg =>
    match henv.SendMessage msg with
    | some err =>
      ⟨before ++
          [.SendMessage msg,
            .errorResponse StatusInternalServerError (wrap "failed to send message" err)],
        .returned⟩
    | none => ⟨before ++ [.SendMessage msg, .successResponse (.text "ok")], .returned⟩

/-- The method `Client.startDKGHandler`. -/
def startDKGHandler (henv : HttpEnv) (r : Request) : Handled :=
  withMethod MethodPost r <|
    match r.Body with
    | .error err =>
      ⟨[.errorResponse StatusInternalServerError (wrap "failed to read body" err)], .returned⟩
    | .ok reqBody =>
      match buildMessage henv (henv.hexEncode (henv.md5 reqBody)) henv.EventInitProposal
          reqBody with
      | (_, some err) =>
        ⟨[.errorResponse StatusInternalServerError (wrap "failed to build message" err)],
          .returned⟩
      | (message, none) => sendBuilt henv [] message

/-- The method `Client.proposeSignDataHandler`. The block at lines 237-239
writes the error response and does not return. -/
def proposeSignDataHandler (henv : HttpEnv) (r : Request) : Handled :=
  withMethod MethodPost r <|
    match r.Body with
    | .error err =>
      ⟨[.errorResponse StatusInternalServerError (wrap "failed to read body" err)], .returned⟩
    | .ok reqBody =>
      match henv.UnmarshalSignRequest reqBody with
      | .error err =>
        ⟨[.errorResponse StatusInternalServerError (wrap "failed to umarshal request" err)],
          .returned⟩
      | .ok req =>
        match buildMessage henv (henv.hexEncode ((req.lookup "dkgID").getD []))
            henv.EventSigningStart ((req.lookup "data").getD []) with
        | (message, some err) =>
          sendBuilt henv
            [.errorResponse StatusInternalServerError (wrap "failed to build message" err)]
            message
        | (message, none) => sendBuilt henv [] message

/-- The method `Client.handleJSONOperationHandler`. -/
def handleJSONOperationHandler (henv : HttpEnv) (r : Request) : Handled :=
  withMethod MethodPost r <|
    match r.Body with
    | .error err =>
      ⟨[.errorResponse StatusInternalServerError (wrap "failed to read body" err)], .returned⟩
    | .ok reqBody =>
      match henv.UnmarshalOperation reqBody with
      | .error err =>
        ⟨[.errorResponse StatusInternalServerError (wrap "failed to umarshal request" err)],
          .returned⟩
      | .ok req =>
        match henv.handleProcessedOperation req with
        | some err =>
          ⟨[.handleProcessedOperation req,
              .errorResponse StatusInternalServerError
                (wrap "failed to handle processed operation" err)], .returned⟩
        | none => ⟨[.handleProcessedOperation req, .successResponse (.text "ok")], .returned⟩

/-- The step is an error response. -/
def Served.isError : Served → Bool
  | .errorResponse _ _ => true
  | _ => false

/-- The property that a run of a handler is to have: the handler returned,
and an error response, if it wrote one, was its last step. -/
def Handled.returnsAfterError (h : Handled) : Bool :=
  decide (h.ending = .returned) && h.served.dropLast.all (fun s => !s.isError)

/-- A client whose key store cannot load the keys, with codecs that take the
request body as it is. -/
def keysDownHttpEnv : HttpEnv where
  userName := "alice"
  pubKey := [1]
  uuid := "uuid-1"
  MessageBytes := fun m => m.Offset :: m.Data
  signMessage := fun _ => .error ["failed to LoadKeys", "no keys"]
  UnmarshalMessage := fun _ => .error ["unexpected end of JSON input"]
  UnmarshalSignRequest := fun bz => .ok [("dkgID", bz.take 1), ("data", bz.drop 1)]
  UnmarshalOperation := fun _ => .error ["unexpected end of JSON input"]
  SendMessage := fun _ => none
  GetOperations := .ok []
  GetOperationQRPath := fun _ => .ok []
  getOperationJSON := fun _ => .ok []
  EncodeQR := fun bz => .ok bz
  handleProcessedOperation := fun _ => none
  md5 := fun bz => bz
  hexEncode := fun bz => String.join (bz.map toString)
  EventInitProposal := "event_sig_proposal_init"
  EventSigningStart := "event_signing_start"

/-- A `POST` request with the body `[1, 7]`. -/
def signRequest : Request := ⟨"POST", .ok [1, 7], ""⟩

/-- The response of a run of the FSM needs no operation: its state is not
one of the await states of the `switch`, it carries no data, or it carries a
signing invitation of which this node is the initiator. -/
def needsNoOperation (env : Env) (r : Response env.D × Bytes × env.F) : Prop :=
  r.1.State ∉ awaitStates env.K ∨ r.1.Data = none ∨
  ∃ data invitations initiator, r.1.Data = some data ∧
    env.asInvitationsResponse data = some invitations ∧
    env.SigningQuorumGetParticipant r.2.2 invitations.InitiatorId = .ok initiator ∧
    initiator.Username = GetUsername env

/-- The run of `ProcessMessage` on the message from the persisted state `w`
needs no operation: if the FSM of the round is resolved, the message
verified and the FSM run with its chain calls `DKGInitProcess` and
`SigningInit`, the response at hand needs no operation. -/
def runNeedsNoOperation (env : Env) (amb : Ambient) (m : Message) (w : World) : Prop :=
  ∀ f req r, (resolveAndVerify env m w).result = .ok f →
    env.FSMRequestFromMessage m = .ok req → doWithChains env amb f m req = .ok r →
      needsNoOperation env r

/-- The runs of the loop of `Poll` over the messages, from the persisted
state `w` on, need no operation: each message that is handled has such a run
from the state that the messages before it left. -/
def runsNeedNoOperation (env : Env) : List (Ambient × Message) → World → Prop
  | [], _ => True
  | (amb, message) :: rest, w =>
    if message.RecipientAddr = "" ∨ message.RecipientAddr = GetUsername env then
      runNeedsNoOperation env amb message w ∧
        runsNeedNoOperation env rest (ProcessMessage env amb message w).world
    else runsNeedNoOperation env rest w

/-! # Theorems -/

/-! ## Running sequenced steps -/

theorem M.bind_of_ok {α β : Type} {x : M α} {f : α → M β} {w : World} {a : α}
    (h : (x w).result = .ok a) :
    M.bind x f w = ⟨(f a (x w).world).result, (f a (x w).world).world,
      (x w).calls ++ (f a (x w).world).calls⟩ := by
  simp only [M.bind, h]

theorem M.bind_of_error {α β : Type} {x : M α} {f : α → M β} {w : World} {e : Err}
    (h : (x w).result = .error e) :
    M.bind x f w = ⟨.error e, (x w).world, (x w).calls⟩ := by
  simp only [M.bind, h]

/-- A sequence that succeeds: the first step succeeded and the second one ran
on the state it left. -/
theorem M.bind_ok_inv {α β : Type} {x : M α} {f : α → M β} {w : World} {b : β}
    (h : (M.bind x f w).result = .ok b) :
    ∃ a, (x w).result = .ok a ∧ (f a (x w).world).result = .ok b ∧
      (M.bind x f w).calls = (x w).calls ++ (f a (x w).world).calls ∧
      (M.bind x f w).world = (f a (x w).world).world := by
  cases hx : (x w).result with
  | error e => rw [M.bind_of_error hx] at h; cases h
  | ok a =>
    rw [M.bind_of_ok hx] at h ⊢
    exact ⟨a, rfl, h, rfl, rfl⟩

/-- The calls of a sequence start with the calls of its first step. -/
theorem M.bind_calls_prefix {α β : Type} (x : M α) (f : α → M β) (w : World) :
    ∃ rest, (M.bind x f w).calls = (x w).calls ++ rest := by
  cases hx : (x w).result with
  | error e => exact ⟨[], by rw [M.bind_of_error hx]; simp⟩
  | ok a => exact ⟨_, by rw [M.bind_of_ok hx]⟩

@[simp] theorem M.pure_result {α : Type} (a : α) (w : World) : (M.pure a w).result = .ok a := rfl

@[simp] theorem M.pure_world {α : Type} (a : α) (w : World) : (M.pure a w).world = w := rfl

@[simp] theorem M.pure_calls {α : Type} (a : α) (w : World) : (M.pure a w).calls = [] := rfl

@[simp] theorem M.fail_result {α : Type} (e : Err) (w : World) :
    (M.fail e w : Run α).result = .error e := rfl

@[simp] theorem M.fail_world {α : Type} (e : Err) (w : World) :
    (M.fail e w : Run α).world = w := rfl

@[simp] theorem M.fail_calls {α : Type} (e : Err) (w : World) :
    (M.fail e w : Run α).calls = [] := rfl

@[simp] theorem M.lift_result {α : Type} (x : Except Err α) (w : World) :
    (M.lift x w).result = x := rfl

@[simp] theorem M.lift_world {α : Type} (x : Except Err α) (w : World) :
    (M.lift x w).world = w := rfl

@[simp] theorem M.lift_calls {α : Type} (x : Except Err α) (w : World) :
    (M.lift x w).calls = [] := rfl

@[simp] theorem M.wrapErr_result {α : Type} (msg : String) (x : M α) (w : World) :
    (M.wrapErr msg x w).result = wrapExcept msg (x w).result := rfl

@[simp] theorem M.wrapErr_world {α : Type} (msg : String) (x : M α) (w : World) :
    (M.wrapErr msg x w).world = (x w).world := rfl

@[simp] theorem M.wrapErr_calls {α : Type} (msg : String) (x : M α) (w : World) :
    (M.wrapErr msg x w).calls = (x w).calls := rfl

@[simp] theorem wrapExcept_eq_ok {α : Type} {msg : String} {x : Except Err α} {a : α} :
    wrapExcept msg x = .ok a ↔ x = .ok a := by
  cases x <;> simp [wrapExcept]

theorem wrapExcept_eq_error {α : Type} {msg : String} {x : Except Err α} {e : Err} :
    wrapExcept msg x = .error e ↔ ∃ e0, x = .error e0 ∧ e = wrap msg e0 := by
  cases x <;> simp [wrapExcept, eq_comm]

/-- The part of the persisted state that a piece of client code may not
touch: stated as a predicate kept by every step of a sequence. -/
theorem M.bind_world_inv {α β : Type} (P : World → Prop) {x : M α} {f : α → M β} {w : World}
    (hx : P w → P (x w).world) (hf : ∀ a w1, P w1 → P (f a w1).world) (hw : P w) :
    P (M.bind x f w).world := by
  cases h : (x w).result with
  | error e => rw [M.bind_of_error h]; exact hx hw
  | ok a => rw [M.bind_of_ok h]; exact hf a _ (hx hw)

/-- A predicate on calls that holds for the calls of every step holds for
the calls of the sequence. -/
theorem M.bind_calls_all {α β : Type} (P : Call → Prop) {x : M α} {f : α → M β} {w : World}
    (hx : ∀ c ∈ (x w).calls, P c) (hf : ∀ a w1, ∀ c ∈ (f a w1).calls, P c) :
    ∀ c ∈ (M.bind x f w).calls, P c := by
  cases h : (x w).result with
  | error e => rw [M.bind_of_error h]; exact hx
  | ok a =>
    rw [M.bind_of_ok h]
    intro c hc
    rcases List.mem_append.1 hc with hc | hc
    · exact hx c hc
    · exact hf a _ c hc

/-! ## The adapters, call by call -/

@[simp] theorem SaveSignature_calls (env : Env) (s : ReconstructedSignature) (w : World) :
    (SaveSignature env s w).calls = [.SaveSignature s] := by
  unfold SaveSignature; split <;> rfl

@[simp] theorem SaveOffset_calls (env : Env) (n : Nat) (w : World) :
    (SaveOffset env n w).calls = [.SaveOffset n] := by
  unfold SaveOffset; split <;> rfl

@[simp] theorem LoadFSM_calls (env : Env) (id : String) (w : World) :
    (LoadFSM env id w).calls = [.LoadFSM id] := by
  unfold LoadFSM; (repeat' split) <;> rfl

@[simp] theorem LoadFSM_world (env : Env) (id : String) (w : World) :
    (LoadFSM env id w).world = w := by
  unfold LoadFSM; (repeat' split) <;> rfl

@[simp] theorem SaveFSM_calls (env : Env) (id : String) (d : Bytes) (w : World) :
    (SaveFSM env id d w).calls = [.SaveFSM id d] := by
  unfold SaveFSM; split <;> rfl

@[simp] theorem PutOperation_calls (env : Env) (o : Operation) (w : World) :
    (PutOperation env o w).calls = [.PutOperation o] := by
  unfold PutOperation; split <;> rfl

@[simp] theorem GetOperationByID_calls (env : Env) (id : String) (w : World) :
    (GetOperationByID env id w).calls = [.GetOperationByID id] := by
  unfold GetOperationByID; (repeat' split) <;> rfl

@[simp] theorem GetOperationByID_world (env : Env) (id : String) (w : World) :
    (GetOperationByID env id w).world = w := by
  unfold GetOperationByID; (repeat' split) <;> rfl

@[simp] theorem DeleteOperation_calls (env : Env) (id : String) (w : World) :
    (DeleteOperation env id w).calls = [.DeleteOperation id] := by
  unfold DeleteOperation; split <;> rfl

@[simp] theorem SendBatch_calls (env : Env) (ms : List Message) (w : World) :
    (SendBatch env ms w).calls = [.SendBatch ms] := by
  unfold SendBatch; split <;> rfl

@[simp] theorem LoadKeys_calls (env : Env) (u p : String) (w : World) :
    (LoadKeys env u p w).calls = [.LoadKeys u p] := by
  unfold LoadKeys; split <;> rfl

@[simp] theorem LoadKeys_world (env : Env) (u p : String) (w : World) :
    (LoadKeys env u p w).world = w := by
  unfold LoadKeys; split <;> rfl

theorem SaveOffset_world_of_ok {env : Env} {n : Nat} {w : World}
    (h : (SaveOffset env n w).result = .ok ()) :
    (SaveOffset env n w).world = { w with offset := n } := by
  revert h; unfold SaveOffset; split <;> simp

theorem SaveOffset_world_of_error {env : Env} {n : Nat} {w : World} {e : Err}
    (h : (SaveOffset env n w).result = .error e) :
    (SaveOffset env n w).world = w := by
  revert h; unfold SaveOffset; split <;> simp

theorem SaveFSM_world_of_ok {env : Env} {id : String} {d : Bytes} {w : World}
    (h : (SaveFSM env id d w).result = .ok ()) :
    (SaveFSM env id d w).world =
      { w with fsms := (id, d) :: w.fsms.filter (fun p => p.1 ≠ id) } := by
  revert h; unfold SaveFSM; split <;> simp

theorem SaveFSM_world_of_error {env : Env} {id : String} {d : Bytes} {w : World} {e : Err}
    (h : (SaveFSM env id d w).result = .error e) :
    (SaveFSM env id d w).world = w := by
  revert h; unfold SaveFSM; split <;> simp

theorem PutOperation_world_of_ok {env : Env} {o : Operation} {w : World}
    (h : (PutOperation env o w).result = .ok ()) :
    (PutOperation env o w).world =
      { w with operations := w.operations.filter (fun p => p.ID ≠ o.ID) ++ [o] } := by
  revert h; unfold PutOperation; split <;> simp

theorem PutOperation_world_of_error {env : Env} {o : Operation} {w : World} {e : Err}
    (h : (PutOperation env o w).result = .error e) :
    (PutOperation env o w).world = w := by
  revert h; unfold PutOperation; split <;> simp

/-- `SaveSignature` changes the stored signatures only. -/
theorem SaveSignature_frame (env : Env) (s : ReconstructedSignature) (w : World) :
    (SaveSignature env s w).world.offset = w.offset ∧
    (SaveSignature env s w).world.fsms = w.fsms ∧
    (SaveSignature env s w).world.operations = w.operations ∧
    (SaveSignature env s w).world.sent = w.sent := by
  unfold SaveSignature; split <;> simp

/-- `SaveFSM` changes the stored snapshots only. -/
theorem SaveFSM_frame (env : Env) (id : String) (d : Bytes) (w : World) :
    (SaveFSM env id d w).world.offset = w.offset ∧
    (SaveFSM env id d w).world.operations = w.operations ∧
    (SaveFSM env id d w).world.signatures = w.signatures ∧
    (SaveFSM env id d w).world.sent = w.sent := by
  unfold SaveFSM; split <;> simp

/-- `SaveOffset` changes the stored offset only. -/
theorem SaveOffset_frame (env : Env) (n : Nat) (w : World) :
    (SaveOffset env n w).world.fsms = w.fsms ∧
    (SaveOffset env n w).world.operations = w.operations ∧
    (SaveOffset env n w).world.signatures = w.signatures ∧
    (SaveOffset env n w).world.sent = w.sent := by
  unfold SaveOffset; split <;> simp

/-- `PutOperation` changes the pool only. -/
theorem PutOperation_frame (env : Env) (o : Operation) (w : World) :
    (PutOperation env o w).world.offset = w.offset ∧
    (PutOperation env o w).world.fsms = w.fsms ∧
    (PutOperation env o w).world.signatures = w.signatures ∧
    (PutOperation env o w).world.sent = w.sent := by
  unfold PutOperation; split <;> simp

/-! ## Reading calls off a sequence -/

@[simp] theorem savedOffsets_append (a b : List Call) :
    savedOffsets (a ++ b) = savedOffsets a ++ savedOffsets b := by
  simp [savedOffsets]

@[simp] theorem savedSnapshots_append (a b : List Call) :
    savedSnapshots (a ++ b) = savedSnapshots a ++ savedSnapshots b := by
  simp [savedSnapshots]

@[simp] theorem putOperations_append (a b : List Call) :
    putOperations (a ++ b) = putOperations a ++ putOperations b := by
  simp [putOperations]

@[simp] theorem savedSignatures_append (a b : List Call) :
    savedSignatures (a ++ b) = savedSignatures a ++ savedSignatures b := by
  simp [savedSignatures]

@[simp] theorem deletedOperations_append (a b : List Call) :
    deletedOperations (a ++ b) = deletedOperations a ++ deletedOperations b := by
  simp [deletedOperations]

@[simp] theorem sentBatches_append (a b : List Call) :
    sentBatches (a ++ b) = sentBatches a ++ sentBatches b := by
  simp [sentBatches]

theorem quiet_calls {cs : List Call} (h : ∀ c ∈ cs, c.isQuiet = true) :
    savedOffsets cs = [] ∧ putOperations cs = [] ∧ deletedOperations cs = [] ∧
      sentBatches cs = [] := by
  induction cs with
  | nil => simp [savedOffsets, putOperations, deletedOperations, sentBatches]
  | cons c cs ih =>
    have hc := h c (List.mem_cons_self _ _)
    have ih := ih (fun c hc => h c (List.mem_cons_of_mem _ hc))
    simp only [savedOffsets, putOperations, deletedOperations, sentBatches] at ih ⊢
    cases c <;> simp_all [Call.isQuiet, Call.savedOffset?, Call.putOperation?,
      Call.deletedOperation?, Call.sentBatch?]

/-! ## `processSignature` and `getFSMInstance` -/

theorem processSignature_calls (env : Env) (m : Message) (w : World) :
    (processSignature env m w).calls =
      match env.UnmarshalSignature m.Data with
      | .error _ => []
      | .ok s => [.SaveSignature { s with Username := m.SenderAddr, DKGRoundID := m.DkgRoundID }] := by
  cases h : env.UnmarshalSignature m.Data <;> simp [processSignature, h]

theorem processSignature_frame (env : Env) (m : Message) (w : World) :
    (processSignature env m w).world.offset = w.offset ∧
    (processSignature env m w).world.fsms = w.fsms ∧
    (processSignature env m w).world.operations = w.operations ∧
    (processSignature env m w).world.sent = w.sent := by
  cases h : env.UnmarshalSignature m.Data with
  | error e => simp [processSignature, h]
  | ok s => simp only [processSignature, h]; exact SaveSignature_frame _ _ _

theorem saveSigningData_frame (env : Env) (m : Message) (w : World) :
    (saveSigningData env m w).world.offset = w.offset ∧
    (saveSigningData env m w).world.fsms = w.fsms ∧
    (saveSigningData env m w).world.operations = w.operations ∧
    (saveSigningData env m w).world.sent = w.sent := by
  unfold saveSigningData; split
  · exact processSignature_frame _ _ _
  · simp

theorem saveSigningData_quiet (env : Env) (m : Message) (w : World) :
    ∀ c ∈ (saveSigningData env m w).calls, c.isQuiet = true ∧ c.savedSnapshot? = none := by
  unfold saveSigningData; split
  · rw [M.wrapErr_calls, processSignature_calls]; split <;> simp [Call.isQuiet, Call.savedSnapshot?]
  · simp

/-- The FSM of a round that is stored: it is loaded, nothing is written. -/
theorem getFSMInstance_stored {env : Env} {id : String} {w : World} {bz : Bytes}
    (h : w.fsms.lookup id = some bz) :
    (getFSMInstance env id w).calls = [.LoadFSM id] ∧ (getFSMInstance env id w).world = w := by
  unfold getFSMInstance
  cases hl : (M.wrapErr "failed to LoadFSM" (LoadFSM env id) w).result with
  | error e => rw [M.bind_of_error hl]; simp
  | ok a =>
    rw [M.bind_of_ok hl]
    cases a with
    | some f => simp
    | none =>
      exfalso
      revert hl
      simp only [M.wrapErr_result, wrapExcept_eq_ok, LoadFSM, h]
      (repeat' split) <;> simp

/-- The calls of `getFSMInstance`: `LoadFSM`, and for a round that is not
stored and whose fresh FSM could be created and dumped, `SaveFSM` of the
initial dump. -/
theorem getFSMInstance_calls (env : Env) (id : String) (w : World) :
    (getFSMInstance env id w).calls = [.LoadFSM id] ∨
    ∃ f0 bz, w.fsms.lookup id = none ∧ env.Create id = .ok f0 ∧ env.Dump f0 = .ok bz ∧
      (getFSMInstance env id w).calls = [.LoadFSM id, .SaveFSM id bz] := by
  cases hs : w.fsms.lookup id with
  | some bz => exact Or.inl (getFSMInstance_stored hs).1
  | none =>
    unfold getFSMInstance
    cases hl : (M.wrapErr "failed to LoadFSM" (LoadFSM env id) w).result with
    | error e => rw [M.bind_of_error hl]; simp
    | ok a =>
      rw [M.bind_of_ok hl]
      cases a with
      | some f => simp
      | none =>
        cases hc : env.Create id with
        | error e => left; simp [M.bind, hc, wrapExcept]
        | ok f0 =>
          cases hd : env.Dump f0 with
          | error e => left; simp [M.bind, hc, hd, wrapExcept]
          | ok bz =>
            right
            refine ⟨f0, bz, rfl, rfl, hd, ?_⟩
            simp only [M.bind, M.lift_result, hc, hd, wrapExcept, M.wrapErr_result, M.lift_calls,
              M.wrapErr_calls, M.wrapErr_world, LoadFSM_calls, SaveFSM_calls, M.lift_world]
            split <;> simp

theorem getFSMInstance_frame (env : Env) (id : String) (w : World) :
    (getFSMInstance env id w).world.offset = w.offset ∧
    (getFSMInstance env id w).world.operations = w.operations ∧
    (getFSMInstance env id w).world.signatures = w.signatures ∧
    (getFSMInstance env id w).world.sent = w.sent := by
  let P : World → Prop := fun w1 => w1.offset = w.offset ∧ w1.operations = w.operations ∧
    w1.signatures = w.signatures ∧ w1.sent = w.sent
  show P (getFSMInstance env id w).world
  unfold getFSMInstance
  refine M.bind_world_inv P (fun h => by simpa using h) ?_ ⟨rfl, rfl, rfl, rfl⟩
  intro a w1 h1
  cases a with
  | some f => simpa using h1
  | none =>
    refine M.bind_world_inv P (fun h => by simpa using h) ?_ h1
    intro f0 w2 h2
    refine M.bind_world_inv P (fun h => by simpa using h) ?_ h2
    intro bz w3 h3
    refine M.bind_world_inv P (fun h => ?_) (fun _ _ h => by simpa using h) h3
    have := SaveFSM_frame env id bz w3
    simp only [M.wrapErr_world, P]
    rw [this.1, this.2.1, this.2.2.1, this.2.2.2]
    exact h

/-! ## Resolving the FSM and verifying the message -/

theorem resolveFSM_quiet (env : Env) (m : Message) (w : World) :
    ∀ c ∈ (resolveFSM env m w).calls, c.isQuiet = true := by
  unfold resolveFSM
  refine M.bind_calls_all _ (fun c hc => (saveSigningData_quiet env m w c hc).1) ?_
  intro _ w1 c hc
  rw [M.wrapErr_calls] at hc
  rcases getFSMInstance_calls env m.DkgRoundID w1 with h | ⟨_, _, _, _, _, h⟩ <;>
    rw [h] at hc <;> simp at hc <;> rcases hc with rfl | rfl <;> rfl

theorem resolveFSM_frame (env : Env) (m : Message) (w : World) :
    (resolveFSM env m w).world.offset = w.offset ∧
    (resolveFSM env m w).world.operations = w.operations ∧
    (resolveFSM env m w).world.sent = w.sent := by
  let P : World → Prop := fun w1 => w1.offset = w.offset ∧ w1.operations = w.operations ∧
    w1.sent = w.sent
  show P (resolveFSM env m w).world
  unfold resolveFSM
  refine M.bind_world_inv P (fun _ => ?_) ?_ ⟨rfl, rfl, rfl⟩
  · have := saveSigningData_frame env m w
    exact ⟨this.1, this.2.2.1, this.2.2.2⟩
  · intro _ w1 h1
    have := getFSMInstance_frame env m.DkgRoundID w1
    simp only [M.wrapErr_world, P]
    rw [this.1, this.2.1, this.2.2.2]
    exact h1

/-- Resolving the FSM of a round whose snapshot is stored saves no snapshot:
the calls are the optional `SaveSignature` followed by `LoadFSM`. -/
theorem resolveFSM_stored {env : Env} {m : Message} {w : World} {bz : Bytes}
    (h : w.fsms.lookup m.DkgRoundID = some bz) :
    savedSnapshots (resolveFSM env m w).calls = [] ∧ (resolveFSM env m w).world.fsms = w.fsms := by
  have hq := saveSigningData_quiet env m w
  have hs : savedSnapshots (saveSigningData env m w).calls = [] := by
    simp only [savedSnapshots, List.filterMap_eq_nil_iff]
    exact fun c hc => (hq c hc).2
  have hf := (saveSigningData_frame env m w).2.1
  have h1 : (saveSigningData env m w).world.fsms.lookup m.DkgRoundID = some bz := by rw [hf]; exact h
  unfold resolveFSM
  cases hr : (saveSigningData env m w).result with
  | error e => rw [M.bind_of_error hr]; exact ⟨hs, hf⟩
  | ok a =>
    rw [M.bind_of_ok hr]
    simp only [M.wrapErr_calls, M.wrapErr_world, savedSnapshots_append, hs,
      (getFSMInstance_stored h1).1, (getFSMInstance_stored h1).2, hf]
    simp [savedSnapshots, Call.savedSnapshot?]

/-- The only snapshot that resolving the FSM can save is the initial dump of
a round that was not stored. -/
theorem resolveFSM_snapshots (env : Env) (m : Message) (w : World) :
    savedSnapshots (resolveFSM env m w).calls = [] ∨
    ∃ f0 bz, w.fsms.lookup m.DkgRoundID = none ∧ env.Create m.DkgRoundID = .ok f0 ∧
      env.Dump f0 = .ok bz ∧ savedSnapshots (resolveFSM env m w).calls = [(m.DkgRoundID, bz)] := by
  have hq := saveSigningData_quiet env m w
  have hs : savedSnapshots (saveSigningData env m w).calls = [] := by
    simp only [savedSnapshots, List.filterMap_eq_nil_iff]
    exact fun c hc => (hq c hc).2
  have hf := (saveSigningData_frame env m w).2.1
  unfold resolveFSM
  cases hr : (saveSigningData env m w).result with
  | error e => rw [M.bind_of_error hr]; exact Or.inl hs
  | ok a =>
    rw [M.bind_of_ok hr]
    simp only [M.wrapErr_calls, savedSnapshots_append, hs, List.nil_append]
    rcases getFSMInstance_calls env m.DkgRoundID (saveSigningData env m w).world with
      h | ⟨f0, bz, h0, hc, hd, h⟩
    · left; rw [h]; simp [savedSnapshots, Call.savedSnapshot?]
    · right
      refine ⟨f0, bz, ?_, hc, hd, ?_⟩
      · rw [← hf]; exact h0
      · rw [h]; simp [savedSnapshots, Call.savedSnapshot?]

theorem resolveAndVerify_calls (env : Env) (m : Message) (w : World) :
    (resolveAndVerify env m w).calls = (resolveFSM env m w).calls ∧
    (resolveAndVerify env m w).world = (resolveFSM env m w).world := by
  unfold resolveAndVerify
  cases hr : (resolveFSM env m w).result with
  | error e => rw [M.bind_of_error hr]; exact ⟨rfl, rfl⟩
  | ok f =>
    rw [M.bind_of_ok hr]
    cases hv : verifyUnlessInit env f m with
    | error e => simp [M.bind, hv]
    | ok u => simp [M.bind, hv]

/-- The FSM path goes on only with a resolved FSM and a verified message. -/
theorem resolveAndVerify_ok {env : Env} {m : Message} {w : World} {f : env.F}
    (h : (resolveAndVerify env m w).result = .ok f) :
    (resolveFSM env m w).result = .ok f ∧ verifyUnlessInit env f m = .ok () := by
  unfold resolveAndVerify at h
  obtain ⟨f1, h1, h2, -, -⟩ := M.bind_ok_inv h
  obtain ⟨u, h3, h4, -, -⟩ := M.bind_ok_inv h2
  simp only [M.pure_result, Except.ok.injEq] at h4
  subst h4
  exact ⟨h1, h3⟩

/-- A failed verification ends the run with that error. -/
theorem resolveAndVerify_error {env : Env} {m : Message} {w : World} {f : env.F} {e : Err}
    (hf : (resolveFSM env m w).result = .ok f) (hv : verifyUnlessInit env f m = .error e) :
    (resolveAndVerify env m w).result = .error e := by
  unfold resolveAndVerify
  rw [M.bind_of_ok hf]
  simp [M.bind, hv]

theorem verifyUnlessInit_ok {env : Env} {f : env.F} {m : Message}
    (h : verifyUnlessInit env f m = .ok ()) (hev : m.Event ≠ env.K.EventInitProposal) :
    verifyMessage env f m = .ok () := by
  simpa [verifyUnlessInit, hev] using h

/-- What a successful `verifyMessage` means: the sender has a key in the
round's FSM and the signature verifies under it over the message's bytes. -/
theorem verifyMessage_ok_iff (env : Env) (f : env.F) (m : Message) :
    verifyMessage env f m = .ok () ↔
      ∃ pk, env.GetPubKeyByUsername f m.SenderAddr = .ok pk ∧
        env.Verify pk (env.MessageBytes m) m.Signature = true := by
  unfold verifyMessage
  cases env.GetPubKeyByUsername f m.SenderAddr with
  | error e => simp
  | ok pk => cases hv : env.Verify pk (env.MessageBytes m) m.Signature <;> simp [hv]

/-! ## The three writes -/

theorem putIfAny_calls (env : Env) (op : Option Operation) (w : World) :
    (putIfAny env op w).calls = op.toList.map Call.PutOperation := by
  cases op <;> simp [putIfAny]

theorem putIfAny_world_of_ok {env : Env} {op : Option Operation} {w : World}
    (h : (putIfAny env op w).result = .ok ()) :
    (putIfAny env op w).world =
      match op with
      | some o => { w with operations := w.operations.filter (fun p => p.ID ≠ o.ID) ++ [o] }
      | none => w := by
  cases op with
  | none => rfl
  | some o =>
    simp only [putIfAny, M.wrapErr_result, wrapExcept_eq_ok, M.wrapErr_world] at h ⊢
    exact PutOperation_world_of_ok h

/-- A successful `persist`: the calls, in order, and the state left. -/
theorem persist_ok {env : Env} {m : Message} {op : Option Operation} {d : Bytes} {w : World}
    (h : (persist env m op d w).result = .ok ()) :
    (persist env m op d w).calls =
      op.toList.map Call.PutOperation ++
        [Call.SaveOffset (u64 (m.Offset + 1)), Call.SaveFSM m.DkgRoundID d] ∧
    (persist env m op d w).world =
      { w with
        offset := u64 (m.Offset + 1)
        fsms := (m.DkgRoundID, d) :: w.fsms.filter (fun p => p.1 ≠ m.DkgRoundID)
        operations := poolWith w.operations op } := by
  unfold persist at h ⊢
  obtain ⟨_, h1, h2, hc1, hw1⟩ := M.bind_ok_inv h
  obtain ⟨_, h3, h4, hc2, hw2⟩ := M.bind_ok_inv h2
  simp only [M.wrapErr_result, wrapExcept_eq_ok, M.wrapErr_world] at h3 h4
  rw [hc1, hc2, hw1, hw2]
  simp only [M.wrapErr_calls, M.wrapErr_world, putIfAny_calls, SaveOffset_calls, SaveFSM_calls]
  refine ⟨rfl, ?_⟩
  rw [SaveFSM_world_of_ok h4, SaveOffset_world_of_ok h3, putIfAny_world_of_ok h1]
  cases op <;> rfl

/-- The calls of `persist`, whatever its outcome, are an initial part of
`PutOperation` (if there is an operation), `SaveOffset`, `SaveFSM`. -/
theorem persist_calls_prefix (env : Env) (m : Message) (op : Option Operation) (d : Bytes)
    (w : World) :
    (persist env m op d w).calls <+:
      op.toList.map Call.PutOperation ++
        [Call.SaveOffset (u64 (m.Offset + 1)), Call.SaveFSM m.DkgRoundID d] := by
  unfold persist
  cases h1 : (putIfAny env op w).result with
  | error e =>
    rw [M.bind_of_error h1, putIfAny_calls]
    exact List.prefix_append _ _
  | ok a =>
    rw [M.bind_of_ok h1, putIfAny_calls]
    refine (List.prefix_append_right_inj _).2 ?_
    cases h2 : (M.wrapErr "failed to SaveOffset" (SaveOffset env (u64 (m.Offset + 1)))
        (putIfAny env op w).world).result with
    | error e =>
      rw [M.bind_of_error h2]
      simp only [M.wrapErr_calls, SaveOffset_calls]
      exact ⟨[_], rfl⟩
    | ok b =>
      rw [M.bind_of_ok h2]
      simp only [M.wrapErr_calls, SaveOffset_calls, SaveFSM_calls]
      exact List.prefix_rfl

/-! ## `ProcessMessage` -/

theorem ProcessMessage_reconstructed {env : Env} {m : Message}
    (h : m.Event = env.K.SignatureReconstructed) (amb : Ambient) :
    ProcessMessage env amb m = saveReconstructed env m := by
  simp [ProcessMessage, h]

theorem ProcessMessage_byFSM {env : Env} {m : Message}
    (h : m.Event ≠ env.K.SignatureReconstructed) (amb : Ambient) :
    ProcessMessage env amb m = processByFSM env amb m := by
  simp [ProcessMessage, h]

/-- A successful run of the shortcut for `SignatureReconstructed`. -/
theorem saveReconstructed_ok {env : Env} {m : Message} {w : World}
    (h : (saveReconstructed env m w).result = .ok ()) :
    ∃ s, env.UnmarshalSignature m.Data = .ok s ∧
      (saveReconstructed env m w).calls =
        [.SaveSignature { s with Username := m.SenderAddr, DKGRoundID := m.DkgRoundID },
         .SaveOffset (u64 (m.Offset + 1))] ∧
      (saveReconstructed env m w).world =
        { w with
          offset := u64 (m.Offset + 1)
          signatures := w.signatures ++
            [{ s with Username := m.SenderAddr, DKGRoundID := m.DkgRoundID }] } := by
  unfold saveReconstructed at h ⊢
  obtain ⟨_, h1, h2, hc, hw⟩ := M.bind_ok_inv h
  simp only [M.wrapErr_result, wrapExcept_eq_ok, M.wrapErr_world] at h1 h2
  rw [hc, hw]
  simp only [M.wrapErr_calls, M.wrapErr_world, SaveOffset_calls, SaveOffset_world_of_ok h2]
  cases hs : env.UnmarshalSignature m.Data with
  | error e => simp [processSignature, hs] at h1
  | ok s =>
    refine ⟨s, rfl, ?_, ?_⟩
    · rw [processSignature_calls, hs]; rfl
    · simp only [processSignature, hs] at h1 ⊢
      have : (SaveSignature env { s with Username := m.SenderAddr, DKGRoundID := m.DkgRoundID }
          w).world = { w with signatures := w.signatures ++
            [{ s with Username := m.SenderAddr, DKGRoundID := m.DkgRoundID }] } := by
        revert h1; unfold SaveSignature; split <;> simp
      rw [this]

/-- A successful run of the FSM path: the FSM was resolved, the message
verified, the FSM run, and the three writes succeeded. -/
theorem processByFSM_ok {env : Env} {amb : Ambient} {m : Message} {w : World}
    (h : (processByFSM env amb m w).result = .ok ()) :
    ∃ f op d, (resolveAndVerify env m w).result = .ok f ∧ runFSM env amb f m = .ok (op, d) ∧
      (persist env m op d (resolveFSM env m w).world).result = .ok () ∧
      (processByFSM env amb m w).calls =
        (resolveFSM env m w).calls ++ (persist env m op d (resolveFSM env m w).world).calls ∧
      (processByFSM env amb m w).world = (persist env m op d (resolveFSM env m w).world).world := by
  unfold processByFSM at h ⊢
  obtain ⟨f, h1, h2, hc1, hw1⟩ := M.bind_ok_inv h
  obtain ⟨r, h3, h4, hc2, hw2⟩ := M.bind_ok_inv h2
  simp only [M.lift_result, M.lift_world, M.lift_calls, List.nil_append] at h3 h4 hc2 hw2
  rw [(resolveAndVerify_calls env m w).2] at h4 hc2 hw2 hc1 hw1
  rw [(resolveAndVerify_calls env m w).1] at hc1
  exact ⟨f, r.1, r.2, h1, h3, h4, by rw [hc1, hc2], by rw [hw1, hw2]⟩

/-- A run of the FSM path in which the FSM was resolved and run: the calls
are those of the resolution followed by those of the writes. -/
theorem processByFSM_run {env : Env} {amb : Ambient} {m : Message} {w : World} {f : env.F}
    {op : Option Operation} {d : Bytes}
    (hf : (resolveAndVerify env m w).result = .ok f) (hr : runFSM env amb f m = .ok (op, d)) :
    processByFSM env amb m w =
      ⟨(persist env m op d (resolveFSM env m w).world).result,
       (persist env m op d (resolveFSM env m w).world).world,
       (resolveFSM env m w).calls ++ (persist env m op d (resolveFSM env m w).world).calls⟩ := by
  unfold processByFSM
  rw [M.bind_of_ok hf, (resolveAndVerify_calls env m w).1, (resolveAndVerify_calls env m w).2]
  have hl : (M.lift (runFSM env amb f m) (resolveFSM env m w).world).result = .ok (op, d) := hr
  rw [M.bind_of_ok hl]
  simp

/-- A run of the FSM path that does not get to the writes: the calls and
the state are those of the resolution of the FSM. -/
theorem processByFSM_stop_resolve {env : Env} {amb : Ambient} {m : Message} {w : World} {e : Err}
    (hf : (resolveAndVerify env m w).result = .error e) :
    processByFSM env amb m w = ⟨.error e, (resolveFSM env m w).world, (resolveFSM env m w).calls⟩ := by
  unfold processByFSM
  rw [M.bind_of_error hf, (resolveAndVerify_calls env m w).1, (resolveAndVerify_calls env m w).2]

theorem processByFSM_stop_run {env : Env} {amb : Ambient} {m : Message} {w : World} {f : env.F}
    {e : Err}
    (hf : (resolveAndVerify env m w).result = .ok f) (hr : runFSM env amb f m = .error e) :
    processByFSM env amb m w = ⟨.error e, (resolveFSM env m w).world, (resolveFSM env m w).calls⟩ := by
  unfold processByFSM
  rw [M.bind_of_ok hf, (resolveAndVerify_calls env m w).1, (resolveAndVerify_calls env m w).2]
  have hl : (M.lift (runFSM env amb f m) (resolveFSM env m w).world).result = .error e := hr
  rw [M.bind_of_error hl]
  simp

/-- Claim C1 (offset monotonicity). If `ProcessMessage` returns no error for
a message, then the last offset handed to `SaveOffset` during the run is the
Go value of `message.Offset + 1` (the sum in `uint64`), and it is the offset
that is persisted afterwards; this holds on the `SignatureReconstructed`
shortcut and on the FSM path alike. Below the top of `uint64` that value is
the number `Offset + 1`. -/
theorem offset_after_success (env : Env) (amb : Ambient) (m : Message) (w : World)
    (h : (ProcessMessage env amb m w).result = .ok ()) :
    (savedOffsets (ProcessMessage env amb m w).calls).getLast? = some (u64 (m.Offset + 1)) ∧
    (ProcessMessage env amb m w).world.offset = u64 (m.Offset + 1) ∧
    (m.Offset + 1 < uint64Size → (ProcessMessage env amb m w).world.offset = m.Offset + 1) := by
  have key : (savedOffsets (ProcessMessage env amb m w).calls).getLast? = some (u64 (m.Offset + 1)) ∧
      (ProcessMessage env amb m w).world.offset = u64 (m.Offset + 1) := by
    by_cases hev : m.Event = env.K.SignatureReconstructed
    · rw [ProcessMessage_reconstructed hev] at h ⊢
      obtain ⟨s, -, hc, hw⟩ := saveReconstructed_ok h
      rw [hc, hw]
      simp [savedOffsets, Call.savedOffset?]
    · rw [ProcessMessage_byFSM hev] at h ⊢
      obtain ⟨f, op, d, -, -, hp, hc, hw⟩ := processByFSM_ok h
      obtain ⟨hpc, hpw⟩ := persist_ok hp
      rw [hc, hw, hpc, hpw]
      have hq := (quiet_calls (resolveFSM_quiet env m w)).1
      simp only [savedOffsets_append, hq, List.nil_append]
      cases op <;> simp [savedOffsets, Call.savedOffset?]
  refine ⟨key.1, key.2, fun hlt => ?_⟩
  rw [key.2, u64, Nat.mod_eq_of_lt hlt]

theorem offset_after_success_witness :
    (ProcessMessage testEnv testAmbient initMessage emptyWorld).result = .ok () ∧
    ((savedOffsets (ProcessMessage testEnv testAmbient initMessage emptyWorld).calls).getLast?
        = some (u64 (initMessage.Offset + 1)) ∧
      (ProcessMessage testEnv testAmbient initMessage emptyWorld).world.offset
        = u64 (initMessage.Offset + 1) ∧
      (initMessage.Offset + 1 < uint64Size →
        (ProcessMessage testEnv testAmbient initMessage emptyWorld).world.offset
          = initMessage.Offset + 1)) :=
  ⟨by decide, offset_after_success testEnv testAmbient initMessage emptyWorld (by decide)⟩

/-- Claim C2, as stated, fails. A confirmation with a corrupt signature for
the stored round `r1` makes `ProcessMessage` return the error of
`verifyMessage`; `SaveOffset` is not called and the persisted offset stays 2
instead of advancing to 3. The same message for a round that is not stored
makes `getFSMInstance` save the initial snapshot of that round before the
verification fails. -/
theorem bad_signature_offset_not_advanced :
    forgedConfirm.Event ≠ testEnv.K.EventInitProposal ∧
    verifyMessage testEnv (TestFSM.fromDump [1]) forgedConfirm = .error ["signature is corrupt"] ∧
    (ProcessMessage testEnv testAmbient forgedConfirm worldAfterInit).result
      = .error ["failed to verifyMessage", "signature is corrupt"] ∧
    savedOffsets (ProcessMessage testEnv testAmbient forgedConfirm worldAfterInit).calls = [] ∧
    (ProcessMessage testEnv testAmbient forgedConfirm worldAfterInit).world.offset = 2 ∧
    u64 (forgedConfirm.Offset + 1) = 3 ∧
    (ProcessMessage testEnv testAmbient forgedUnknownRound emptyWorld).result
      = .error ["failed to verifyMessage", "failed to GetPubKeyByUsername", "participant not found"] ∧
    savedSnapshots (ProcessMessage testEnv testAmbient forgedUnknownRound emptyWorld).calls
      = [("r9", [0])] := by
  decide

/-- Claim C2, amended. On the FSM path, a message whose event is not
`InitProposal` and for which `verifyMessage` fails on the FSM resolved for its
round makes `ProcessMessage` return that error, wrapped. Neither `SaveOffset`
nor `PutOperation` is called and the persisted offset and pool are left as
they were; the only snapshot that can have been saved is the initial dump
that `getFSMInstance` writes for a round that was not stored. -/
theorem bad_signature_rejected (env : Env) (amb : Ambient) (m : Message) (w : World) (f : env.F)
    (e : Err)
    (hsr : m.Event ≠ env.K.SignatureReconstructed)
    (hinit : m.Event ≠ env.K.EventInitProposal)
    (hf : (resolveFSM env m w).result = .ok f)
    (hv : verifyMessage env f m = .error e) :
    (ProcessMessage env amb m w).result = .error (wrap "failed to verifyMessage" e) ∧
    savedOffsets (ProcessMessage env amb m w).calls = [] ∧
    putOperations (ProcessMessage env amb m w).calls = [] ∧
    (ProcessMessage env amb m w).world.offset = w.offset ∧
    (ProcessMessage env amb m w).world.operations = w.operations ∧
    (savedSnapshots (ProcessMessage env amb m w).calls = [] ∨
      ∃ f0 bz, w.fsms.lookup m.DkgRoundID = none ∧ env.Create m.DkgRoundID = .ok f0 ∧
        env.Dump f0 = .ok bz ∧
        savedSnapshots (ProcessMessage env amb m w).calls = [(m.DkgRoundID, bz)]) := by
  have hu : verifyUnlessInit env f m = .error (wrap "failed to verifyMessage" e) := by
    simp [verifyUnlessInit, hinit, hv, wrapExcept]
  rw [ProcessMessage_byFSM hsr, processByFSM_stop_resolve (resolveAndVerify_error hf hu)]
  have hq := quiet_calls (resolveFSM_quiet env m w)
  have hfr := resolveFSM_frame env m w
  exact ⟨rfl, hq.1, hq.2.1, hfr.1, hfr.2.1, resolveFSM_snapshots env m w⟩

theorem bad_signature_rejected_witness :
    (forgedConfirm.Event ≠ testEnv.K.SignatureReconstructed ∧
      forgedConfirm.Event ≠ testEnv.K.EventInitProposal ∧
      (resolveFSM testEnv forgedConfirm worldAfterInit).result = .ok (TestFSM.fromDump [1]) ∧
      verifyMessage testEnv (TestFSM.fromDump [1]) forgedConfirm = .error ["signature is corrupt"]) ∧
    ((ProcessMessage testEnv testAmbient forgedConfirm worldAfterInit).result
        = .error (wrap "failed to verifyMessage" ["signature is corrupt"]) ∧
      savedOffsets (ProcessMessage testEnv testAmbient forgedConfirm worldAfterInit).calls = [] ∧
      putOperations (ProcessMessage testEnv testAmbient forgedConfirm worldAfterInit).calls = [] ∧
      (ProcessMessage testEnv testAmbient forgedConfirm worldAfterInit).world.offset
        = worldAfterInit.offset ∧
      (ProcessMessage testEnv testAmbient forgedConfirm worldAfterInit).world.operations
        = worldAfterInit.operations ∧
      (savedSnapshots (ProcessMessage testEnv testAmbient forgedConfirm worldAfterInit).calls = [] ∨
        ∃ f0 bz, worldAfterInit.fsms.lookup forgedConfirm.DkgRoundID = none ∧
          testEnv.Create forgedConfirm.DkgRoundID = .ok f0 ∧ testEnv.Dump f0 = .ok bz ∧
          savedSnapshots (ProcessMessage testEnv testAmbient forgedConfirm worldAfterInit).calls
            = [(forgedConfirm.DkgRoundID, bz)])) :=
  ⟨⟨by decide, by decide, rfl, by decide⟩,
    bad_signature_rejected testEnv testAmbient forgedConfirm worldAfterInit
      (TestFSM.fromDump [1]) ["signature is corrupt"] (by decide) (by decide) rfl (by decide)⟩

/-- Claim C3: the code at the failing input. A `SignatureReconstructed`
message with a signature that `verifyMessage` rejects under the round's FSM is
accepted: `ProcessMessage` returns no error, saves the signature record under
the sender's name and saves offset 4. A `SigningStart` message with such a
signature has its record saved before the verification rejects it. -/
theorem unverified_signature_record_saved :
    forgedReconstructed.Event ≠ testEnv.K.EventInitProposal ∧
    verifyMessage testEnv (TestFSM.fromDump [1]) forgedReconstructed
      = .error ["signature is corrupt"] ∧
    (ProcessMessage testEnv testAmbient forgedReconstructed worldAfterInit).result = .ok () ∧
    (ProcessMessage testEnv testAmbient forgedReconstructed worldAfterInit).calls
      = [.SaveSignature ⟨"sig", [7], [8], "bob", "r1"⟩, .SaveOffset 4] ∧
    forgedSigningStart.Event ≠ testEnv.K.EventInitProposal ∧
    (ProcessMessage testEnv testAmbient forgedSigningStart worldAfterInit).result
      = .error ["failed to verifyMessage", "signature is corrupt"] ∧
    (ProcessMessage testEnv testAmbient forgedSigningStart worldAfterInit).world.signatures
      = [⟨"sig", [7], [8], "bob", "r1"⟩] := by
  decide

/-! ## The run of the FSM -/

theorem chainCall_of_ne {env : Env} {state event : String} {now : Nat}
    {cur : Response env.D × Bytes × env.F} (h : cur.1.State ≠ state) :
    chainCall env state event now cur = .ok cur := by
  simp [chainCall, h]

/-- What a successful `runFSM` went through. -/
theorem runFSM_ok {env : Env} {amb : Ambient} {f : env.F} {m : Message}
    {op : Option Operation} {d : Bytes} (h : runFSM env amb f m = .ok (op, d)) :
    ∃ req r r2, env.FSMRequestFromMessage m = .ok req ∧ doWithChains env amb f m req = .ok r ∧
      materialize env amb r.2.2 m r.1 = .ok op ∧
      chainCall env env.K.StateSigningPartialSignsCollected env.K.EventSigningRestart
        amb.nowSigningRestart r = .ok r2 ∧ d = r2.2.1 := by
  unfold runFSM at h
  cases hq : env.FSMRequestFromMessage m with
  | error e => simp [hq, wrapExcept, bind, Except.bind] at h
  | ok req =>
    cases hd : doWithChains env amb f m req with
    | error e => simp [hq, hd, wrapExcept, bind, Except.bind] at h
    | ok r =>
      cases hm : materialize env amb r.2.2 m r.1 with
      | error e => simp [hq, hd, hm, wrapExcept, bind, Except.bind] at h
      | ok op1 =>
        cases hc : chainCall env env.K.StateSigningPartialSignsCollected env.K.EventSigningRestart
            amb.nowSigningRestart r with
        | error e => simp [hq, hd, hm, hc, wrapExcept, bind, Except.bind] at h
        | ok r2 =>
          simp only [hq, hd, hm, hc, wrapExcept, bind, Except.bind, pure, Except.pure,
            Except.ok.injEq, Prod.mk.injEq] at h
          exact ⟨req, r, r2, rfl, hd, by rw [← h.1]; exact hm, hc, h.2.symm⟩

/-- The value of `runFSM` from the values of its parts. -/
theorem runFSM_eq {env : Env} {amb : Ambient} {f : env.F} {m : Message} {req : env.Req}
    {r : Response env.D × Bytes × env.F}
    (hq : env.FSMRequestFromMessage m = .ok req) (hd : doWithChains env amb f m req = .ok r) :
    runFSM env amb f m =
      match materialize env amb r.2.2 m r.1 with
      | .error e => .error e
      | .ok op =>
        match chainCall env env.K.StateSigningPartialSignsCollected env.K.EventSigningRestart
            amb.nowSigningRestart r with
        | .error e => .error e
        | .ok r2 => .ok (op, r2.2.1) := by
  unfold runFSM
  simp only [hq, hd, wrapExcept, bind, Except.bind, pure, Except.pure]
  cases materialize env amb r.2.2 m r.1 with
  | error e => rfl
  | ok op =>
    simp only
    cases chainCall env env.K.StateSigningPartialSignsCollected env.K.EventSigningRestart
      amb.nowSigningRestart r <;> rfl

theorem doWithChains_of_noChain {env : Env} {amb : Ambient} {f : env.F} {m : Message}
    {req : env.Req} (hq : env.FSMRequestFromMessage m = .ok req) (h : noChainCallFrom env f m) :
    doWithChains env amb f m req =
      wrapExcept "failed to Do operation in FSM" (env.Do f m.Event req) := by
  unfold doWithChains
  cases hd : env.Do f m.Event req with
  | error e => rfl
  | ok r =>
    obtain ⟨h1, h2, -⟩ := h req r hq hd
    simp [wrapExcept, bind, Except.bind, chainCall_of_ne h1, chainCall_of_ne h2]

/-- The dump that `runFSM` returns depends on the run's clock readings only
through the readings handed to the chain calls. -/
theorem runFSM_dump_eq {env : Env} {amb1 amb2 : Ambient} {f : env.F} {m : Message}
    {op1 op2 : Option Operation} {d1 d2 : Bytes}
    (hc : amb1.sameChainClocks amb2 ∨ noChainCallFrom env f m)
    (h1 : runFSM env amb1 f m = .ok (op1, d1)) (h2 : runFSM env amb2 f m = .ok (op2, d2)) :
    d1 = d2 := by
  obtain ⟨req1, r1, s1, hq1, hd1, -, hr1, rfl⟩ := runFSM_ok h1
  obtain ⟨req2, r2, s2, hq2, hd2, -, hr2, rfl⟩ := runFSM_ok h2
  have hq := hq1
  rw [hq1] at hq2
  cases hq2
  rcases hc with ⟨ha, hb, hc⟩ | hn
  · have : doWithChains env amb1 f m req1 = doWithChains env amb2 f m req1 := by
      simp only [doWithChains, ha, hb]
    rw [this, hd2] at hd1
    cases hd1
    rw [hc, hr2] at hr1
    cases hr1
    rfl
  · rw [doWithChains_of_noChain hq hn] at hd1 hd2
    rw [hd1] at hd2
    cases hd2
    cases hdo : env.Do f m.Event req1 with
    | error e => simp [hdo, wrapExcept] at hd1
    | ok r =>
      simp only [hdo, wrapExcept, Except.ok.injEq] at hd1
      subst hd1
      have h3 := (hn req1 r hq hdo).2.2
      rw [chainCall_of_ne h3] at hr1 hr2
      cases hr1
      cases hr2
      rfl

/-- Claim C4, as stated, fails. The last confirmation of round `r1` makes
`ProcessMessage` chain `DKGInitProcess` with `CreatedAt: time.Now()`; two runs
on the same stored snapshot and message whose clocks read 100 and 200 hand
different snapshots to `SaveFSM`. -/
theorem snapshot_depends_on_clock :
    (ProcessMessage testEnv testAmbient lastConfirm worldAfterInit).result = .ok () ∧
    (ProcessMessage testEnv laterAmbient lastConfirm worldAfterInit).result = .ok () ∧
    savedSnapshots (ProcessMessage testEnv testAmbient lastConfirm worldAfterInit).calls
      = [("r1", [3, 100])] ∧
    savedSnapshots (ProcessMessage testEnv laterAmbient lastConfirm worldAfterInit).calls
      = [("r1", [3, 200])] ∧
    (ProcessMessage testEnv testAmbient lastConfirm worldAfterInit).world.fsms ≠
      (ProcessMessage testEnv laterAmbient lastConfirm worldAfterInit).world.fsms := by
  decide

/-- Claim C4, amended. Two successful runs of `ProcessMessage` on the same
persisted state and message hand the same snapshots to `SaveFSM`, and leave
the same snapshots persisted, whenever the clock readings handed to the chain
calls (`DKGInitProcess`, `SigningInit`, `SigningRestart`) agree, or the run
makes no chain call; the UUID and the `CreatedAt` of the operation play no
part. -/
theorem snapshot_determined (env : Env) (amb1 amb2 : Ambient) (m : Message) (w : World)
    (hc : amb1.sameChainClocks amb2 ∨ noChainCall env m w)
    (h1 : (ProcessMessage env amb1 m w).result = .ok ())
    (h2 : (ProcessMessage env amb2 m w).result = .ok ()) :
    savedSnapshots (ProcessMessage env amb1 m w).calls =
      savedSnapshots (ProcessMessage env amb2 m w).calls ∧
    (ProcessMessage env amb1 m w).world.fsms = (ProcessMessage env amb2 m w).world.fsms := by
  by_cases hev : m.Event = env.K.SignatureReconstructed
  · rw [ProcessMessage_reconstructed hev, ProcessMessage_reconstructed hev]
    exact ⟨rfl, rfl⟩
  · rw [ProcessMessage_byFSM hev] at h1 h2 ⊢
    rw [ProcessMessage_byFSM hev]
    obtain ⟨f1, op1, d1, hf1, hr1, hp1, hc1, hw1⟩ := processByFSM_ok h1
    obtain ⟨f2, op2, d2, hf2, hr2, hp2, hc2, hw2⟩ := processByFSM_ok h2
    rw [hf1] at hf2
    cases hf2
    have hd : d1 = d2 := runFSM_dump_eq (hc.imp_right (fun h => h f1 hf1)) hr1 hr2
    subst hd
    rw [hc1, hc2, hw1, hw2, (persist_ok hp1).1, (persist_ok hp2).1, (persist_ok hp1).2,
      (persist_ok hp2).2]
    refine ⟨?_, rfl⟩
    simp only [savedSnapshots_append]
    cases op1 <;> cases op2 <;> simp [savedSnapshots, Call.savedSnapshot?]

/-- In the test environment a confirmation that is not the last one makes no
chain call. -/
theorem earlyConfirm_noChainCall : noChainCall testEnv earlyConfirm worldAfterInit := by
  intro f hf req r hq hd
  have hf0 : (resolveAndVerify testEnv earlyConfirm worldAfterInit).result =
      .ok (testFSM "state_sig_proposal_await_participants_confirmations" []) := rfl
  rw [hf0] at hf
  cases hf
  have hq0 : testEnv.FSMRequestFromMessage earlyConfirm = .ok (testReq 0) := rfl
  rw [hq0] at hq
  cases hq
  have hd0 : testEnv.Do (testFSM "state_sig_proposal_await_participants_confirmations" [])
      earlyConfirm.Event (testReq 0) =
      .ok (testRun "state_sig_proposal_await_participants_confirmations" none []) := rfl
  rw [hd0] at hd
  cases hd
  decide

theorem snapshot_determined_witness :
    (((testAmbient.sameChainClocks otherAmbient ∨
          noChainCall testEnv lastConfirm worldAfterInit) ∧
        (ProcessMessage testEnv testAmbient lastConfirm worldAfterInit).result = .ok () ∧
        (ProcessMessage testEnv otherAmbient lastConfirm worldAfterInit).result = .ok ()) ∧
      (savedSnapshots (ProcessMessage testEnv testAmbient lastConfirm worldAfterInit).calls =
          savedSnapshots (ProcessMessage testEnv otherAmbient lastConfirm worldAfterInit).calls ∧
        (ProcessMessage testEnv testAmbient lastConfirm worldAfterInit).world.fsms =
          (ProcessMessage testEnv otherAmbient lastConfirm worldAfterInit).world.fsms)) ∧
    (((testAmbient.sameChainClocks laterAmbient ∨
          noChainCall testEnv earlyConfirm worldAfterInit) ∧
        (ProcessMessage testEnv testAmbient earlyConfirm worldAfterInit).result = .ok () ∧
        (ProcessMessage testEnv laterAmbient earlyConfirm worldAfterInit).result = .ok ()) ∧
      (savedSnapshots (ProcessMessage testEnv testAmbient earlyConfirm worldAfterInit).calls =
          savedSnapshots (ProcessMessage testEnv laterAmbient earlyConfirm worldAfterInit).calls ∧
        (ProcessMessage testEnv testAmbient earlyConfirm worldAfterInit).world.fsms =
          (ProcessMessage testEnv laterAmbient earlyConfirm worldAfterInit).world.fsms)) :=
  ⟨⟨⟨Or.inl ⟨rfl, rfl, rfl⟩, by decide, by decide⟩,
      snapshot_determined testEnv testAmbient otherAmbient lastConfirm worldAfterInit
        (Or.inl ⟨rfl, rfl, rfl⟩) (by decide) (by decide)⟩,
    ⟨⟨Or.inr earlyConfirm_noChainCall, by decide, by decide⟩,
      snapshot_determined testEnv testAmbient laterAmbient earlyConfirm worldAfterInit
        (Or.inr earlyConfirm_noChainCall) (by decide) (by decide)⟩⟩

/-! ## The operation pool -/

theorem putOperations_eq_nil {cs : List Call} :
    putOperations cs = [] ↔ ∀ c ∈ cs, c.putOperation? = none := by
  simp [putOperations, List.filterMap_eq_nil_iff]

theorem persist_none_pool (env : Env) (m : Message) (d : Bytes) (w : World) :
    putOperations (persist env m none d w).calls = [] ∧
    (persist env m none d w).world.operations = w.operations := by
  constructor
  · obtain ⟨t, ht⟩ := persist_calls_prefix env m none d w
    rw [putOperations_eq_nil]
    intro c hc
    have : c ∈ (persist env m none d w).calls ++ t := List.mem_append_left _ hc
    rw [ht] at this
    simp at this
    rcases this with rfl | rfl <;> rfl
  · let P : World → Prop := fun w1 => w1.operations = w.operations
    show P (persist env m none d w).world
    unfold persist
    refine M.bind_world_inv P (fun h => h) ?_ rfl
    intro _ w1 h1
    refine M.bind_world_inv P (fun h => ?_) ?_ h1
    · simp only [M.wrapErr_world, P]; rw [(SaveOffset_frame _ _ _).2.1]; exact h
    · intro _ w2 h2
      simp only [M.wrapErr_world, P]; rw [(SaveFSM_frame _ _ _ _).2.1]; exact h2

theorem saveReconstructed_pool (env : Env) (m : Message) (w : World) :
    putOperations (saveReconstructed env m w).calls = [] ∧
    (saveReconstructed env m w).world.operations = w.operations := by
  constructor
  · rw [putOperations_eq_nil]
    unfold saveReconstructed
    refine M.bind_calls_all _ ?_ ?_
    · intro c hc
      rw [M.wrapErr_calls, processSignature_calls] at hc
      split at hc <;> simp at hc
      subst hc; rfl
    · intro _ w1 c hc
      simp at hc
      subst hc; rfl
  · let P : World → Prop := fun w1 => w1.operations = w.operations
    show P (saveReconstructed env m w).world
    unfold saveReconstructed
    refine M.bind_world_inv P (fun h => ?_) ?_ rfl
    · simp only [M.wrapErr_world, P]; rw [(processSignature_frame _ _ _).2.2.1]
    · intro _ w1 h1
      simp only [M.wrapErr_world, P]; rw [(SaveOffset_frame _ _ _).2.1]; exact h1

/-- A message whose run of the FSM materializes no operation leaves the pool
as it was and makes no `PutOperation` call. -/
theorem ProcessMessage_pool_unchanged {env : Env} {amb : Ambient} {m : Message}
    (h : materializesNothing env amb m) (w : World) :
    putOperations (ProcessMessage env amb m w).calls = [] ∧
    (ProcessMessage env amb m w).world.operations = w.operations := by
  by_cases hev : m.Event = env.K.SignatureReconstructed
  · rw [ProcessMessage_reconstructed hev]
    exact saveReconstructed_pool env m w
  · rw [ProcessMessage_byFSM hev]
    have hq := (quiet_calls (resolveFSM_quiet env m w)).2.1
    have hfr := (resolveFSM_frame env m w).2.1
    cases hf : (resolveAndVerify env m w).result with
    | error e => rw [processByFSM_stop_resolve hf]; exact ⟨hq, hfr⟩
    | ok f =>
      cases hr : runFSM env amb f m with
      | error e => rw [processByFSM_stop_run hf hr]; exact ⟨hq, hfr⟩
      | ok r =>
        obtain ⟨op, d⟩ := r
        have : op = none := h f (op, d) hr
        subst this
        rw [processByFSM_run hf hr]
        have hp := persist_none_pool env m d (resolveFSM env m w).world
        simp only [putOperations_append, hq, hp.1, hp.2, hfr, List.append_nil, and_self]

/-- The loop of `Poll` over messages that materialize no operation leaves
the pool as it was. -/
theorem handleMessages_pool_unchanged {env : Env} (rest : List (Ambient × Message))
    (h : ∀ s ∈ rest, materializesNothing env s.1 s.2) (w : World) :
    putOperations (handleMessages env rest w).calls = [] ∧
    (handleMessages env rest w).world.operations = w.operations := by
  induction rest generalizing w with
  | nil => exact ⟨rfl, rfl⟩
  | cons s rest ih =>
    obtain ⟨amb, m⟩ := s
    have hs := ProcessMessage_pool_unchanged (h (amb, m) (List.mem_cons_self _ _)) w
    have ih := ih (fun s hs => h s (List.mem_cons_of_mem _ hs))
    unfold handleMessages
    split
    · have := ih (ProcessMessage env amb m w).world
      simp only [putOperations_append, hs.1, this.1, this.2, hs.2, List.append_nil, and_self]
    · exact ih w

/-- Claim C5, as stated, fails. From the empty pool, `initMessage` and
`lastConfirm` bring round `r1` to the state that awaits the commits, with one
operation of that type in the pool. A commit confirmation then leaves the FSM
in the same state (the same snapshot is stored) with response data, and
`ProcessMessage` puts a second operation of that type for the round. -/
theorem second_operation_for_same_await :
    (handleMessages testEnv [(testAmbient, initMessage), (otherAmbient, lastConfirm)]
      emptyWorld).world = worldAwaitingCommits ∧
    (operationsFor worldAwaitingCommits.operations StateDkgCommitsAwaitConfirmations "r1").length
      = 1 ∧
    (ProcessMessage testEnv thirdAmbient commitConfirm worldAwaitingCommits).result = .ok () ∧
    (ProcessMessage testEnv thirdAmbient commitConfirm worldAwaitingCommits).world.fsms
      = worldAwaitingCommits.fsms ∧
    putOperations (ProcessMessage testEnv thirdAmbient commitConfirm worldAwaitingCommits).calls
      = [⟨"uuid-3", StateDkgCommitsAwaitConfirmations, [0], [], [], 102, "r1"⟩] ∧
    (operationsFor
      (ProcessMessage testEnv thirdAmbient commitConfirm worldAwaitingCommits).world.operations
      StateDkgCommitsAwaitConfirmations "r1").length = 2 := by
  decide

/-- In the test environment a confirmation that is not the last one
materializes no operation. -/
theorem earlyConfirm_materializesNothing (amb : Ambient) :
    materializesNothing testEnv amb earlyConfirm := by
  intro f r h
  obtain ⟨req, r1, r2, hq, hdo, hm, -, -⟩ := runFSM_ok (show runFSM testEnv amb f earlyConfirm = .ok (r.1, r.2) from h)
  have hq0 : testEnv.FSMRequestFromMessage earlyConfirm = .ok (0 : Nat) := rfl
  rw [hq0] at hq
  cases hq
  have hdo0 : testEnv.Do f earlyConfirm.Event (0 : Nat) =
      testDo f "event_sig_proposal_confirm_by_participant" 0 := rfl
  by_cases hs : f.state = "state_sig_proposal_await_participants_confirmations"
  · have hd : testDo f "event_sig_proposal_confirm_by_participant" 0 =
        .ok (⟨f.state, none⟩, TestFSM.dump ⟨f.state, f.stamps⟩, ⟨f.state, f.stamps⟩) := by
      simp [testDo, hs]
    have hne1 : f.state ≠ testEnv.K.StateSignatureProposalCollected := by rw [hs]; decide
    have hne2 : f.state ≠ testEnv.K.StateDkgMasterKeyCollected := by rw [hs]; decide
    simp only [doWithChains, hdo0, hd, wrapExcept, bind, Except.bind] at hdo
    rw [chainCall_of_ne hne1] at hdo
    simp only at hdo
    rw [chainCall_of_ne hne2] at hdo
    cases hdo
    unfold materialize at hm
    split at hm
    · exact (Except.ok.inj hm).symm
    · exact (Except.ok.inj hm).symm
  · have hd : testDo f "event_sig_proposal_confirm_by_participant" 0 =
        .error ["invalid transition"] := by
      simp [testDo, hs]
    simp [doWithChains, hdo0, hd, wrapExcept, bind, Except.bind] at hdo

/-! ## The order of the writes -/

theorem isWrite_false_of_quiet {c : Call} (hq : c.isQuiet = true) (hs : c.savedSnapshot? = none) :
    c.isWrite = false := by
  cases c <;> simp_all [Call.isQuiet, Call.savedSnapshot?, Call.isWrite]

/-- Resolving the FSM of a stored round makes none of the three writes. -/
theorem resolveFSM_stored_no_write {env : Env} {m : Message} {w : World} {bz : Bytes}
    (h : w.fsms.lookup m.DkgRoundID = some bz) :
    (resolveFSM env m w).calls.filter Call.isWrite = [] := by
  rw [List.filter_eq_nil_iff]
  intro c hc
  have hs : savedSnapshots (resolveFSM env m w).calls = [] := (resolveFSM_stored h).1
  simp only [savedSnapshots, List.filterMap_eq_nil_iff] at hs
  simp [isWrite_false_of_quiet (resolveFSM_quiet env m w c hc) (hs c hc)]

theorem filter_isWrite_writes (op : Option Operation) (n : Nat) (id : String) (d : Bytes) :
    (op.toList.map Call.PutOperation ++ [Call.SaveOffset n, Call.SaveFSM id d]).filter Call.isWrite
      = op.toList.map Call.PutOperation ++ [Call.SaveOffset n, Call.SaveFSM id d] := by
  cases op <;> simp [Call.isWrite]

/-- The calls of a successful resolution of the FSM of a stored round: those
of saving the signing data, then `LoadFSM`. -/
theorem resolveFSM_stored_calls {env : Env} {m : Message} {w : World} {bz : Bytes} {f : env.F}
    (hst : w.fsms.lookup m.DkgRoundID = some bz) (hok : (resolveFSM env m w).result = .ok f) :
    (resolveFSM env m w).calls = (saveSigningData env m w).calls ++ [.LoadFSM m.DkgRoundID] := by
  unfold resolveFSM at hok ⊢
  obtain ⟨_, -, -, hc, -⟩ := M.bind_ok_inv hok
  have h1 : (saveSigningData env m w).world.fsms.lookup m.DkgRoundID = some bz := by
    rw [(saveSigningData_frame env m w).2.1]; exact hst
  rw [hc, M.wrapErr_calls, (getFSMInstance_stored h1).1]

/-- Saving the signing data calls nothing for an event other than
`SigningStart`. -/
theorem saveSigningData_calls_of_ne {env : Env} {m : Message}
    (h : m.Event ≠ env.K.EventSigningStart) (w : World) :
    (saveSigningData env m w).calls = [] := by
  simp [saveSigningData, h]

/-- Claim C6 (write order and count). For a message of a round whose
snapshot is stored, a successful run of `ProcessMessage` through the FSM makes
its writes in the order `PutOperation`, `SaveOffset`, `SaveFSM`:
`SaveOffset` and `SaveFSM` are called exactly once each, and `PutOperation`
is called exactly once when the run of the FSM materialized an operation and
not at all otherwise. The calls of the whole run are those of saving the
signing data (none unless the event is `SigningStart`), `LoadFSM`, and these
writes. -/
theorem write_order (env : Env) (amb : Ambient) (m : Message) (w : World) (bz : Bytes)
    (hev : m.Event ≠ env.K.SignatureReconstructed)
    (hst : w.fsms.lookup m.DkgRoundID = some bz)
    (hok : (ProcessMessage env amb m w).result = .ok ()) :
    ∃ f op d, (resolveAndVerify env m w).result = .ok f ∧ runFSM env amb f m = .ok (op, d) ∧
      (ProcessMessage env amb m w).calls.filter Call.isWrite =
        op.toList.map Call.PutOperation ++
          [Call.SaveOffset (u64 (m.Offset + 1)), Call.SaveFSM m.DkgRoundID d] ∧
      putOperations (ProcessMessage env amb m w).calls = op.toList ∧
      savedOffsets (ProcessMessage env amb m w).calls = [u64 (m.Offset + 1)] ∧
      savedSnapshots (ProcessMessage env amb m w).calls = [(m.DkgRoundID, d)] ∧
      (ProcessMessage env amb m w).calls =
        (saveSigningData env m w).calls ++ Call.LoadFSM m.DkgRoundID ::
          (op.toList.map Call.PutOperation ++
            [Call.SaveOffset (u64 (m.Offset + 1)), Call.SaveFSM m.DkgRoundID d]) ∧
      (m.Event ≠ env.K.EventSigningStart → (saveSigningData env m w).calls = []) := by
  rw [ProcessMessage_byFSM hev] at hok ⊢
  obtain ⟨f, op, d, hf, hr, hp, hc, -⟩ := processByFSM_ok hok
  have hq := quiet_calls (resolveFSM_quiet env m w)
  refine ⟨f, op, d, hf, hr, ?_, ?_, ?_, ?_, ?_, fun h => saveSigningData_calls_of_ne h w⟩
  · rw [hc, List.filter_append, resolveFSM_stored_no_write hst, (persist_ok hp).1,
      filter_isWrite_writes, List.nil_append]
  · rw [hc, putOperations_append, hq.2.1, (persist_ok hp).1]
    cases op <;> simp [putOperations, Call.putOperation?]
  · rw [hc, savedOffsets_append, hq.1, (persist_ok hp).1]
    cases op <;> simp [savedOffsets, Call.savedOffset?]
  · rw [hc, savedSnapshots_append, (resolveFSM_stored hst).1, (persist_ok hp).1]
    cases op <;> simp [savedSnapshots, Call.savedSnapshot?]
  · rw [hc, resolveFSM_stored_calls hst (resolveAndVerify_ok hf).1, (persist_ok hp).1]
    simp

theorem write_order_witness :
    (initMessage.Event ≠ testEnv.K.SignatureReconstructed ∧
      worldFresh.fsms.lookup initMessage.DkgRoundID = some [0] ∧
      (ProcessMessage testEnv testAmbient initMessage worldFresh).result = .ok () ∧
      (ProcessMessage testEnv testAmbient initMessage worldFresh).calls =
        [.LoadFSM "r1", .PutOperation initOperation, .SaveOffset 2, .SaveFSM "r1" [1]]) ∧
    ∃ f op d, (resolveAndVerify testEnv initMessage worldFresh).result = .ok f ∧
      runFSM testEnv testAmbient f initMessage = .ok (op, d) ∧
      (ProcessMessage testEnv testAmbient initMessage worldFresh).calls.filter Call.isWrite =
        op.toList.map Call.PutOperation ++
          [Call.SaveOffset (u64 (initMessage.Offset + 1)),
           Call.SaveFSM initMessage.DkgRoundID d] ∧
      putOperations (ProcessMessage testEnv testAmbient initMessage worldFresh).calls
        = op.toList ∧
      savedOffsets (ProcessMessage testEnv testAmbient initMessage worldFresh).calls
        = [u64 (initMessage.Offset + 1)] ∧
      savedSnapshots (ProcessMessage testEnv testAmbient initMessage worldFresh).calls
        = [(initMessage.DkgRoundID, d)] ∧
      (ProcessMessage testEnv testAmbient initMessage worldFresh).calls =
        (saveSigningData testEnv initMessage worldFresh).calls ++
          Call.LoadFSM initMessage.DkgRoundID ::
          (op.toList.map Call.PutOperation ++
            [Call.SaveOffset (u64 (initMessage.Offset + 1)),
             Call.SaveFSM initMessage.DkgRoundID d]) ∧
      (initMessage.Event ≠ testEnv.K.EventSigningStart →
        (saveSigningData testEnv initMessage worldFresh).calls = []) :=
  ⟨⟨by decide, by decide, by decide, by decide⟩,
    write_order testEnv testAmbient initMessage worldFresh [0] (by decide) (by decide)
      (by decide)⟩

/-! ## Materializing the operation -/

theorem newOperation_eq {env : Env} {amb : Ambient} {m : Message} {state : String} {data : env.D}
    {bz : Bytes} (h : env.MarshalResponse data = .ok bz) :
    newOperation env amb m state data = .ok (some (operationFor amb m state bz)) := by
  simp [newOperation, h, operationFor]

theorem materialize_not_await {env : Env} {amb : Ambient} {f : env.F} {m : Message}
    {resp : Response env.D} (h : resp.State ∉ awaitStates env.K) :
    materialize env amb f m resp = .ok none := by
  simp [materialize, h]

theorem materialize_no_data {env : Env} {amb : Ambient} {f : env.F} {m : Message}
    {resp : Response env.D} (h : resp.Data = none) :
    materialize env amb f m resp = .ok none := by
  unfold materialize
  split
  · simp [h]
  · rfl

theorem materialize_notInitiator {env : Env} {amb : Ambient} {f : env.F} {m : Message}
    {resp : Response env.D} {data : env.D} {bz : Bytes}
    (hs : resp.State ∈ awaitStates env.K) (hd : resp.Data = some data)
    (hn : notInitiator env f data) (hm : env.MarshalResponse data = .ok bz) :
    materialize env amb f m resp = .ok (some (operationFor amb m resp.State bz)) := by
  unfold materialize
  rw [if_pos hs]
  rcases hn with h | ⟨inv, p, h1, h2, h3⟩
  · simp [hd, h, newOperation_eq hm]
  · simp [hd, h1, h2, h3, newOperation_eq hm]

theorem materialize_initiator_self {env : Env} {amb : Ambient} {f : env.F} {m : Message}
    {resp : Response env.D} {data : env.D}
    {inv : SigningProposalParticipantInvitationsResponse} {p : SigningProposalParticipant}
    (hd : resp.Data = some data) (h1 : env.asInvitationsResponse data = some inv)
    (h2 : env.SigningQuorumGetParticipant f inv.InitiatorId = .ok p)
    (h3 : p.Username = GetUsername env) :
    materialize env amb f m resp = .ok none := by
  unfold materialize
  split
  · simp [hd, h1, h2, h3]
  · rfl

theorem materialize_initiator_missing {env : Env} {amb : Ambient} {f : env.F} {m : Message}
    {resp : Response env.D} {data : env.D}
    {inv : SigningProposalParticipantInvitationsResponse} {e : Err}
    (hs : resp.State ∈ awaitStates env.K) (hd : resp.Data = some data)
    (h1 : env.asInvitationsResponse data = some inv)
    (h2 : env.SigningQuorumGetParticipant f inv.InitiatorId = .error e) :
    materialize env amb f m resp = .error (wrap "failed to get SigningQuorumParticipant" e) := by
  unfold materialize
  rw [if_pos hs]
  simp [hd, h1, h2]

theorem persist_putOperations (env : Env) (m : Message) (op : Option Operation) (d : Bytes)
    (w : World) : putOperations (persist env m op d w).calls = op.toList := by
  obtain ⟨t, ht⟩ := persist_calls_prefix env m op d w
  unfold persist at ht ⊢
  cases h1 : (putIfAny env op w).result with
  | error e =>
    rw [M.bind_of_error h1, putIfAny_calls]
    cases op <;> simp [putOperations, Call.putOperation?]
  | ok a =>
    rw [M.bind_of_ok h1, putIfAny_calls, putOperations_append]
    have : putOperations ((M.wrapErr "failed to SaveOffset" (SaveOffset env (u64 (m.Offset + 1)))).bind
        (fun _ => M.wrapErr "failed to SaveFSM" (SaveFSM env m.DkgRoundID d))
        (putIfAny env op w).world).calls = [] := by
      rw [putOperations_eq_nil]
      refine M.bind_calls_all _ ?_ ?_
      · intro c hc; simp at hc; subst hc; rfl
      · intro _ _ c hc; simp at hc; subst hc; rfl
    rw [this]
    cases op <;> simp [putOperations, Call.putOperation?]

theorem persist_none_savedOffsets (env : Env) (m : Message) (d : Bytes) (w : World) :
    savedOffsets (persist env m none d w).calls = [u64 (m.Offset + 1)] := by
  unfold persist
  have h1 : (putIfAny env none w).result = .ok () := rfl
  rw [M.bind_of_ok h1]
  cases h2 : (M.wrapErr "failed to SaveOffset" (SaveOffset env (u64 (m.Offset + 1)))
      (putIfAny env none w).world).result with
  | error e => rw [M.bind_of_error h2]; simp [putIfAny, savedOffsets, Call.savedOffset?]
  | ok a => rw [M.bind_of_ok h2]; simp [putIfAny, savedOffsets, Call.savedOffset?]

/-- When `SaveOffset` and `SaveFSM` do not fail, `persist` without an
operation succeeds. -/
theorem persist_none_ok {env : Env} (m : Message) (d : Bytes) (w : World)
    (ho : ∀ w1 n, env.faults.SaveOffset w1 n = none)
    (hs : ∀ w1 id bz, env.faults.SaveFSM w1 id bz = none) :
    (persist env m none d w).result = .ok () := by
  have h2 : ∀ w1 n, (SaveOffset env n w1).result = .ok () := by
    intro w1 n; simp [SaveOffset, ho]
  have h3 : ∀ w1 id bz, (SaveFSM env id bz w1).result = .ok () := by
    intro w1 id bz; simp [SaveFSM, hs]
  simp [persist, M.bind, putIfAny, h2, h3, wrapExcept]

theorem runFSM_of_parts {env : Env} {amb : Ambient} {f : env.F} {m : Message} {req : env.Req}
    {r r2 : Response env.D × Bytes × env.F} {op : Option Operation}
    (hq : env.FSMRequestFromMessage m = .ok req) (hd : doWithChains env amb f m req = .ok r)
    (hm : materialize env amb r.2.2 m r.1 = .ok op)
    (hc : chainCall env env.K.StateSigningPartialSignsCollected env.K.EventSigningRestart
      amb.nowSigningRestart r = .ok r2) :
    runFSM env amb f m = .ok (op, r2.2.1) := by
  rw [runFSM_eq hq hd, hm]; simp only; rw [hc]

theorem runFSM_error_materialize {env : Env} {amb : Ambient} {f : env.F} {m : Message}
    {req : env.Req} {r : Response env.D × Bytes × env.F} {e : Err}
    (hq : env.FSMRequestFromMessage m = .ok req) (hd : doWithChains env amb f m req = .ok r)
    (hm : materialize env amb r.2.2 m r.1 = .error e) :
    runFSM env amb f m = .error e := by
  rw [runFSM_eq hq hd, hm]

theorem runFSM_error_restart {env : Env} {amb : Ambient} {f : env.F} {m : Message}
    {req : env.Req} {r : Response env.D × Bytes × env.F} {op : Option Operation} {e : Err}
    (hq : env.FSMRequestFromMessage m = .ok req) (hd : doWithChains env amb f m req = .ok r)
    (hm : materialize env amb r.2.2 m r.1 = .ok op)
    (hc : chainCall env env.K.StateSigningPartialSignsCollected env.K.EventSigningRestart
      amb.nowSigningRestart r = .error e) :
    runFSM env amb f m = .error e := by
  rw [runFSM_eq hq hd, hm]; simp only; rw [hc]

/-- A run of the FSM path whose `switch` decides for no operation makes no
`PutOperation` call. -/
theorem processByFSM_no_put {env : Env} {amb : Ambient} {m : Message} {w : World} {f : env.F}
    {req : env.Req} {r : Response env.D × Bytes × env.F}
    (hf : (resolveAndVerify env m w).result = .ok f)
    (hq : env.FSMRequestFromMessage m = .ok req) (hd : doWithChains env amb f m req = .ok r)
    (hm : materialize env amb r.2.2 m r.1 = .ok none) :
    putOperations (processByFSM env amb m w).calls = [] := by
  have hq0 := (quiet_calls (resolveFSM_quiet env m w)).2.1
  cases hc : chainCall env env.K.StateSigningPartialSignsCollected env.K.EventSigningRestart
      amb.nowSigningRestart r with
  | error e => rw [processByFSM_stop_run hf (runFSM_error_restart hq hd hm hc)]; exact hq0
  | ok r2 =>
    rw [processByFSM_run hf (runFSM_of_parts hq hd hm hc)]
    simp only [putOperations_append, hq0, persist_putOperations, Option.toList, List.append_nil]

/-- Claim C7 (operation materialization). On the FSM path, let `r` be the
response, dump and instance after `Do` and the chain calls `DKGInitProcess`
and `SigningInit`. When the response state is not one of the enumerated await
states, or the response data is nil, `ProcessMessage` makes no `PutOperation`
call. When the state is one of them, the data is not nil, the
signing-initiator exception does not apply, the data is encoded and the run
gets to the writes, `ProcessMessage` makes exactly one `PutOperation` call;
its operation has the response state as type, the encoding of the response
data as payload and the message's `DkgRoundID` as DKG identifier. -/
theorem operation_materialized (env : Env) (amb : Ambient) (m : Message) (w : World) (f : env.F)
    (req : env.Req) (r : Response env.D × Bytes × env.F)
    (hev : m.Event ≠ env.K.SignatureReconstructed)
    (hf : (resolveAndVerify env m w).result = .ok f)
    (hq : env.FSMRequestFromMessage m = .ok req)
    (hd : doWithChains env amb f m req = .ok r) :
    ((r.1.State ∉ awaitStates env.K ∨ r.1.Data = none) →
      putOperations (ProcessMessage env amb m w).calls = []) ∧
    (∀ data bz r2, r.1.State ∈ awaitStates env.K → r.1.Data = some data →
      notInitiator env r.2.2 data → env.MarshalResponse data = .ok bz →
      chainCall env env.K.StateSigningPartialSignsCollected env.K.EventSigningRestart
        amb.nowSigningRestart r = .ok r2 →
      putOperations (ProcessMessage env amb m w).calls = [operationFor amb m r.1.State bz] ∧
      (operationFor amb m r.1.State bz).OperationType = r.1.State ∧
      (operationFor amb m r.1.State bz).Payload = bz ∧
      (operationFor amb m r.1.State bz).DKGIdentifier = m.DkgRoundID) := by
  rw [ProcessMessage_byFSM hev]
  constructor
  · intro h
    have hm : materialize env amb r.2.2 m r.1 = .ok none := by
      rcases h with h | h
      · exact materialize_not_await h
      · exact materialize_no_data h
    exact processByFSM_no_put hf hq hd hm
  · intro data bz r2 hs hdata hn hmar hc
    have hm : materialize env amb r.2.2 m r.1 = .ok (some (operationFor amb m r.1.State bz)) :=
      materialize_notInitiator hs hdata hn hmar
    rw [processByFSM_run hf (runFSM_of_parts hq hd hm hc)]
    have hq0 := (quiet_calls (resolveFSM_quiet env m w)).2.1
    refine ⟨?_, rfl, rfl, rfl⟩
    simp only [putOperations_append, hq0, persist_putOperations, Option.toList, List.nil_append]

/-- Claim C8 (signing-initiator exception). On the FSM path, let `r` be the
response, dump and instance after `Do` and the chain calls, with an
enumerated await state and response data that is a
`SigningProposalParticipantInvitationsResponse`. If the participant of the
signing quorum with index `InitiatorId` has this node's user name, no
`PutOperation` call is made, and when the run gets to the writes `SaveOffset`
is called with `Offset + 1` and a successful run leaves that offset and the
new snapshot persisted (the run is successful when `SaveOffset` and `SaveFSM`
do not fail). If the initiator is another participant, the operation is put.
If the index is not in the signing quorum, `ProcessMessage` fails: it calls
neither `SaveOffset` nor `PutOperation`, its calls are those of the
resolution of the FSM, and for a stored round no `SaveFSM` call is made. -/
theorem signing_initiator_exception (env : Env) (amb : Ambient) (m : Message) (w : World)
    (f : env.F) (req : env.Req) (r : Response env.D × Bytes × env.F) (data : env.D)
    (inv : SigningProposalParticipantInvitationsResponse)
    (hev : m.Event ≠ env.K.SignatureReconstructed)
    (hf : (resolveAndVerify env m w).result = .ok f)
    (hq : env.FSMRequestFromMessage m = .ok req)
    (hd : doWithChains env amb f m req = .ok r)
    (hs : r.1.State ∈ awaitStates env.K)
    (hdata : r.1.Data = some data)
    (hinv : env.asInvitationsResponse data = some inv) :
    (∀ p, env.SigningQuorumGetParticipant r.2.2 inv.InitiatorId = .ok p →
      p.Username = GetUsername env →
      putOperations (ProcessMessage env amb m w).calls = [] ∧
      ∀ r2, chainCall env env.K.StateSigningPartialSignsCollected env.K.EventSigningRestart
          amb.nowSigningRestart r = .ok r2 →
        savedOffsets (ProcessMessage env amb m w).calls = [u64 (m.Offset + 1)] ∧
        ((ProcessMessage env amb m w).result = .ok () →
          (ProcessMessage env amb m w).world.offset = u64 (m.Offset + 1) ∧
          (ProcessMessage env amb m w).world.fsms.lookup m.DkgRoundID = some r2.2.1 ∧
          (ProcessMessage env amb m w).world.operations = w.operations) ∧
        ((∀ w1 n, env.faults.SaveOffset w1 n = none) →
          (∀ w1 id bz, env.faults.SaveFSM w1 id bz = none) →
          (ProcessMessage env amb m w).result = .ok ())) ∧
    (∀ p bz r2, env.SigningQuorumGetParticipant r.2.2 inv.InitiatorId = .ok p →
      p.Username ≠ GetUsername env → env.MarshalResponse data = .ok bz →
      chainCall env env.K.StateSigningPartialSignsCollected env.K.EventSigningRestart
        amb.nowSigningRestart r = .ok r2 →
      putOperations (ProcessMessage env amb m w).calls = [operationFor amb m r.1.State bz]) ∧
    (∀ e, env.SigningQuorumGetParticipant r.2.2 inv.InitiatorId = .error e →
      (ProcessMessage env amb m w).result =
        .error (wrap "failed to get SigningQuorumParticipant" e) ∧
      savedOffsets (ProcessMessage env amb m w).calls = [] ∧
      putOperations (ProcessMessage env amb m w).calls = [] ∧
      (ProcessMessage env amb m w).calls = (resolveFSM env m w).calls ∧
      (ProcessMessage env amb m w).world.offset = w.offset ∧
      (∀ bz0, w.fsms.lookup m.DkgRoundID = some bz0 →
        savedSnapshots (ProcessMessage env amb m w).calls = [] ∧
        (ProcessMessage env amb m w).world.fsms = w.fsms)) := by
  rw [ProcessMessage_byFSM hev]
  have hq0 := quiet_calls (resolveFSM_quiet env m w)
  have hfr := resolveFSM_frame env m w
  refine ⟨?_, ?_, ?_⟩
  · intro p hp hself
    have hm : materialize env amb r.2.2 m r.1 = .ok none :=
      materialize_initiator_self hdata hinv hp hself
    refine ⟨processByFSM_no_put hf hq hd hm, ?_⟩
    intro r2 hc
    rw [processByFSM_run hf (runFSM_of_parts hq hd hm hc)]
    refine ⟨?_, ?_, ?_⟩
    · simp only [savedOffsets_append, hq0.1, persist_none_savedOffsets, List.nil_append]
    · intro hok
      have hp2 := (persist_ok (show (persist env m none r2.2.1 (resolveFSM env m w).world).result
        = .ok () from hok)).2
      simp only [hp2, poolWith, hfr.2.1]
      simp
    · intro ho hsv
      exact persist_none_ok m r2.2.1 _ ho hsv
  · intro p bz r2 hp hother hmar hc
    have hn : notInitiator env r.2.2 data := Or.inr ⟨inv, p, hinv, hp, hother⟩
    have hm : materialize env amb r.2.2 m r.1 = .ok (some (operationFor amb m r.1.State bz)) :=
      materialize_notInitiator hs hdata hn hmar
    rw [processByFSM_run hf (runFSM_of_parts hq hd hm hc)]
    simp only [putOperations_append, hq0.2.1, persist_putOperations, Option.toList,
      List.nil_append]
  · intro e he
    have hm : materialize env amb r.2.2 m r.1 =
        .error (wrap "failed to get SigningQuorumParticipant" e) :=
      materialize_initiator_missing hs hdata hinv he
    rw [processByFSM_stop_run hf (runFSM_error_materialize hq hd hm)]
    refine ⟨rfl, hq0.1, hq0.2.1, rfl, hfr.1, ?_⟩
    intro bz0 hst
    exact resolveFSM_stored hst

theorem operation_materialized_witness :
    (initMessage.Event ≠ testEnv.K.SignatureReconstructed ∧
      (resolveAndVerify testEnv initMessage worldFresh).result = .ok (testFSM "stage_idle" []) ∧
      testEnv.FSMRequestFromMessage initMessage = .ok (testReq 0) ∧
      doWithChains testEnv testAmbient (testFSM "stage_idle" []) initMessage (testReq 0) =
        .ok (testRun "state_sig_proposal_await_participants_confirmations" (some none) [])) ∧
    (putOperations (ProcessMessage testEnv testAmbient initMessage worldFresh).calls =
        [operationFor testAmbient initMessage
          "state_sig_proposal_await_participants_confirmations" [0]]) ∧
    (earlyConfirm.Event ≠ testEnv.K.SignatureReconstructed ∧
      (resolveAndVerify testEnv earlyConfirm worldAfterInit).result =
        .ok (testFSM "state_sig_proposal_await_participants_confirmations" []) ∧
      testEnv.FSMRequestFromMessage earlyConfirm = .ok (testReq 0) ∧
      doWithChains testEnv testAmbient
        (testFSM "state_sig_proposal_await_participants_confirmations" []) earlyConfirm
        (testReq 0) =
        .ok (testRun "state_sig_proposal_await_participants_confirmations" none [])) ∧
    putOperations (ProcessMessage testEnv testAmbient earlyConfirm worldAfterInit).calls = [] :=
  ⟨⟨by decide, rfl, rfl, rfl⟩,
    ((operation_materialized testEnv testAmbient initMessage worldFresh
        (testFSM "stage_idle" []) (testReq 0)
        (testRun "state_sig_proposal_await_participants_confirmations" (some none) [])
        (by decide) rfl rfl rfl).2
      (testData none) [0]
      (testRun "state_sig_proposal_await_participants_confirmations" (some none) [])
      (by decide) rfl (Or.inl rfl) rfl rfl).1,
    ⟨by decide, rfl, rfl, rfl⟩,
    (operation_materialized testEnv testAmbient earlyConfirm worldAfterInit
        (testFSM "state_sig_proposal_await_participants_confirmations" []) (testReq 0)
        (testRun "state_sig_proposal_await_participants_confirmations" none [])
        (by decide) rfl rfl rfl).1 (Or.inr rfl)⟩

theorem signing_initiator_exception_witness :
    (signingStartSelf.Event ≠ testEnv.K.SignatureReconstructed ∧
      (resolveAndVerify testEnv signingStartSelf worldAwaitingCommits).result =
        .ok (testFSM "state_dkg_commits_await_confirmations" [100]) ∧
      testEnv.FSMRequestFromMessage signingStartSelf = .ok (testReq 0) ∧
      doWithChains testEnv testAmbient (testFSM "state_dkg_commits_await_confirmations" [100])
        signingStartSelf (testReq 0) =
        .ok (testRun "state_signing_await_confirmations" (some (some 0)) [100])) ∧
    (putOperations (ProcessMessage testEnv testAmbient signingStartSelf
        worldAwaitingCommits).calls = [] ∧
      savedOffsets (ProcessMessage testEnv testAmbient signingStartSelf
        worldAwaitingCommits).calls = [u64 (signingStartSelf.Offset + 1)] ∧
      (ProcessMessage testEnv testAmbient signingStartSelf worldAwaitingCommits).result
        = .ok ()) ∧
    putOperations (ProcessMessage testEnv testAmbient signingStartOther
        worldAwaitingCommits).calls =
      [operationFor testAmbient signingStartOther "state_signing_await_confirmations" [1, 1]] ∧
    ((ProcessMessage testEnv testAmbient signingStartMissing worldAwaitingCommits).result =
        .error (wrap "failed to get SigningQuorumParticipant" ["participant not found"]) ∧
      savedOffsets (ProcessMessage testEnv testAmbient signingStartMissing
        worldAwaitingCommits).calls = []) :=
  have hself := (signing_initiator_exception testEnv testAmbient signingStartSelf
    worldAwaitingCommits (testFSM "state_dkg_commits_await_confirmations" [100]) (testReq 0)
    (testRun "state_signing_await_confirmations" (some (some 0)) [100]) (testData (some 0)) ⟨0⟩
    (by decide) rfl rfl rfl (by decide) rfl rfl).1 ⟨"alice", 0, [], 0⟩ rfl rfl
  have hrun := hself.2 (testRun "state_signing_await_confirmations" (some (some 0)) [100]) rfl
  have hother := (signing_initiator_exception testEnv testAmbient signingStartOther
    worldAwaitingCommits (testFSM "state_dkg_commits_await_confirmations" [100]) (testReq 1)
    (testRun "state_signing_await_confirmations" (some (some 1)) [100]) (testData (some 1)) ⟨1⟩
    (by decide) rfl rfl rfl (by decide) rfl rfl).2.1 ⟨"bob", 0, [], 0⟩ [1, 1]
    (testRun "state_signing_await_confirmations" (some (some 1)) [100]) rfl (by decide) rfl rfl
  have hmissing := (signing_initiator_exception testEnv testAmbient signingStartMissing
    worldAwaitingCommits (testFSM "state_dkg_commits_await_confirmations" [100]) (testReq 5)
    (testRun "state_signing_await_confirmations" (some (some 5)) [100]) (testData (some 5)) ⟨5⟩
    (by decide) rfl rfl rfl (by decide) rfl rfl).2.2 ["participant not found"] rfl
  ⟨⟨by decide, rfl, rfl, rfl⟩,
    ⟨hself.1, hrun.1, hrun.2.2 (fun _ _ => rfl) (fun _ _ _ => rfl)⟩,
    hother, ⟨hmissing.1, hmissing.2.1⟩⟩

/-! ## `handleProcessedOperation` -/

theorem intake_calls {cs : List Call} (h : ∀ c ∈ cs, c.isIntake = true) :
    sentBatches cs = [] ∧ deletedOperations cs = [] := by
  simp only [sentBatches, deletedOperations, List.filterMap_eq_nil_iff]
  constructor <;> intro c hc <;> have := h c hc <;> cases c <;>
    simp_all [Call.isIntake, Call.sentBatch?, Call.deletedOperation?]

theorem signMessage_intake (env : Env) (bz : Bytes) (w : World) :
    (signMessage env bz w).world = w ∧ ∀ c ∈ (signMessage env bz w).calls, c.isIntake = true := by
  unfold signMessage
  cases h : (M.wrapErr "failed to LoadKeys" (LoadKeys env env.userName "") w).result with
  | error e => rw [M.bind_of_error h]; simp [Call.isIntake]
  | ok a => rw [M.bind_of_ok h]; simp [Call.isIntake]

theorem signResultMsg_intake (env : Env) (m : Message) (w : World) :
    (signResultMsg env m w).world = w ∧
      ∀ c ∈ (signResultMsg env m w).calls, c.isIntake = true := by
  have hs := signMessage_intake env (env.MessageBytes { m with SenderAddr := GetUsername env }) w
  unfold signResultMsg
  cases h : (M.wrapErr "failed to sign a message"
      (signMessage env (env.MessageBytes { m with SenderAddr := GetUsername env })) w).result with
  | error e => rw [M.bind_of_error h]; exact hs
  | ok a =>
    rw [M.bind_of_ok h]
    simp only [M.wrapErr_world, M.wrapErr_calls, M.pure_world, M.pure_calls, List.append_nil]
    exact hs

/-- Signing the result messages changes nothing that is persisted and only
loads the keys. -/
theorem signResultMsgs_intake (env : Env) (ms : List Message) (w : World) :
    (signResultMsgs env ms w).world = w ∧
      ∀ c ∈ (signResultMsgs env ms w).calls, c.isIntake = true := by
  induction ms with
  | nil => simp [signResultMsgs]
  | cons m rest ih =>
    have h1 := signResultMsg_intake env m w
    unfold signResultMsgs
    cases h : (signResultMsg env m w).result with
    | error e => rw [M.bind_of_error h]; exact h1
    | ok a =>
      rw [M.bind_of_ok h]
      simp only [h1.1]
      cases h2 : (signResultMsgs env rest w).result with
      | error e =>
        rw [M.bind_of_error h2]
        refine ⟨ih.1, ?_⟩
        intro c hc
        rcases List.mem_append.1 hc with hc | hc
        · exact h1.2 c hc
        · exact ih.2 c hc
      | ok b =>
        rw [M.bind_of_ok h2]
        simp only [M.pure_world, M.pure_calls, List.append_nil, M.pure_result]
        refine ⟨ih.1, ?_⟩
        intro c hc
        rcases List.mem_append.1 hc with hc | hc
        · exact h1.2 c hc
        · exact ih.2 c hc

/-- An id that is not in the pool makes `GetOperationByID` fail. -/
theorem GetOperationByID_unknown {env : Env} {id : String} {w : World}
    (h : ∀ o ∈ w.operations, o.ID ≠ id) :
    ∃ e, (GetOperationByID env id w).result = .error e := by
  have hfind : w.operations.find? (fun o => o.ID = id) = none := by
    rw [List.find?_eq_none]
    intro o ho
    simpa using h o ho
  unfold GetOperationByID
  split
  · exact ⟨_, rfl⟩
  · rw [hfind]; exact ⟨_, rfl⟩

/-- Claim C9 (processed-operation intake fails closed). If the id of the
incoming operation is not in the pool, or `GetOperationByID` fails, or the
stored operation's `Check` of the incoming one fails, then
`handleProcessedOperation` returns an error, its only call is
`GetOperationByID`: `SendBatch` and `DeleteOperation` are not called, and
the persisted state (pool and sent messages included) is unchanged. -/
theorem intake_fails_closed (env : Env) (operation : Operation) (w : World)
    (h : (∀ o ∈ w.operations, o.ID ≠ operation.ID) ∨
      (∃ e, (GetOperationByID env operation.ID w).result = .error e) ∨
      (∃ stored e, (GetOperationByID env operation.ID w).result = .ok stored ∧
        env.Check stored operation = some e)) :
    (∃ e, (handleProcessedOperation env operation w).result = .error e) ∧
    (handleProcessedOperation env operation w).calls = [.GetOperationByID operation.ID] ∧
    sentBatches (handleProcessedOperation env operation w).calls = [] ∧
    deletedOperations (handleProcessedOperation env operation w).calls = [] ∧
    (handleProcessedOperation env operation w).world = w := by
  have key : (∃ e, (handleProcessedOperation env operation w).result = .error e) ∧
      (handleProcessedOperation env operation w).calls = [.GetOperationByID operation.ID] ∧
      (handleProcessedOperation env operation w).world = w := by
    have h2 : (∃ e, (GetOperationByID env operation.ID w).result = .error e) ∨
        (∃ stored e, (GetOperationByID env operation.ID w).result = .ok stored ∧
          env.Check stored operation = some e) := by
      rcases h with h | h | h
      · exact Or.inl (GetOperationByID_unknown h)
      · exact Or.inl h
      · exact Or.inr h
    unfold handleProcessedOperation
    rcases h2 with ⟨e, he⟩ | ⟨stored, e, hs, hc⟩
    · have : (M.wrapErr "failed to find matching operation"
          (GetOperationByID env operation.ID) w).result =
          .error (wrap "failed to find matching operation" e) := by
        simp [he, wrapExcept]
      rw [M.bind_of_error this]
      exact ⟨⟨_, rfl⟩, by simp, by simp⟩
    · have : (M.wrapErr "failed to find matching operation"
          (GetOperationByID env operation.ID) w).result = .ok stored := by
        simp [hs]
      rw [M.bind_of_ok this]
      have hck : (M.lift (checkOperation env stored operation)
          (M.wrapErr "failed to find matching operation"
            (GetOperationByID env operation.ID) w).world).result =
          .error (wrap "processed operation does not match stored operation" e) := by
        simp [checkOperation, hc]
      rw [M.bind_of_error hck]
      exact ⟨⟨_, rfl⟩, by simp, by simp⟩
  refine ⟨key.1, key.2.1, ?_, ?_, key.2.2⟩
  · rw [key.2.1]; rfl
  · rw [key.2.1]; rfl

theorem intake_fails_closed_witness :
    ((∀ o ∈ worldAfterInit.operations, o.ID ≠ unknownOperation.ID) ∨
      (∃ e, (GetOperationByID testEnv unknownOperation.ID worldAfterInit).result = .error e) ∨
      (∃ stored e,
        (GetOperationByID testEnv unknownOperation.ID worldAfterInit).result = .ok stored ∧
        testEnv.Check stored unknownOperation = some e)) ∧
    ((∃ e, (handleProcessedOperation testEnv unknownOperation worldAfterInit).result
        = .error e) ∧
      (handleProcessedOperation testEnv unknownOperation worldAfterInit).calls
        = [.GetOperationByID unknownOperation.ID] ∧
      sentBatches (handleProcessedOperation testEnv unknownOperation worldAfterInit).calls
        = [] ∧
      deletedOperations (handleProcessedOperation testEnv unknownOperation worldAfterInit).calls
        = [] ∧
      (handleProcessedOperation testEnv unknownOperation worldAfterInit).world
        = worldAfterInit) ∧
    ((∃ stored e,
        (GetOperationByID testEnv alteredOperation.ID worldAfterInit).result = .ok stored ∧
        testEnv.Check stored alteredOperation = some e) ∧
      (handleProcessedOperation testEnv alteredOperation worldAfterInit).result =
        .error ["processed operation does not match stored operation",
          "operations do not match"] ∧
      (handleProcessedOperation testEnv alteredOperation worldAfterInit).world
        = worldAfterInit) :=
  ⟨Or.inl (by decide),
    intake_fails_closed testEnv unknownOperation worldAfterInit (Or.inl (by decide)),
    ⟨⟨initOperation, ["operations do not match"], by decide, by decide⟩, by decide,
      (intake_fails_closed testEnv alteredOperation worldAfterInit
        (Or.inr (Or.inr ⟨initOperation, ["operations do not match"], by decide,
          by decide⟩))).2.2.2.2⟩⟩

theorem SendBatch_world_of_error {env : Env} {ms : List Message} {w : World} {e : Err}
    (h : (SendBatch env ms w).result = .error e) : (SendBatch env ms w).world = w := by
  revert h; unfold SendBatch; split <;> simp

theorem deletedOperations_of_intake {cs : List Call} (h : ∀ c ∈ cs, c.isIntake = true) :
    deletedOperations cs = [] := (intake_calls h).2

/-- Claim C10. If signing a result message fails, or `SendBatch` fails, then
`handleProcessedOperation` returns an error and `DeleteOperation` is not
called on that run; the pool, and the rest of the persisted state, is as it
was, so the operation is still in the pool. -/
theorem send_failure_keeps_operation (env : Env) (operation : Operation) (w : World)
    (h : (∃ e, (signResultMsgs env operation.ResultMsgs w).result = .error e) ∨
      (∃ msgs e, (signResultMsgs env operation.ResultMsgs w).result = .ok msgs ∧
        (SendBatch env msgs w).result = .error e)) :
    (∃ e, (handleProcessedOperation env operation w).result = .error e) ∧
    deletedOperations (handleProcessedOperation env operation w).calls = [] ∧
    (handleProcessedOperation env operation w).world = w ∧
    (∀ o ∈ w.operations, o ∈ (handleProcessedOperation env operation w).world.operations) := by
  have key : (∃ e, (handleProcessedOperation env operation w).result = .error e) ∧
      deletedOperations (handleProcessedOperation env operation w).calls = [] ∧
      (handleProcessedOperation env operation w).world = w := by
    have hsi := signResultMsgs_intake env operation.ResultMsgs w
    have hsd := deletedOperations_of_intake hsi.2
    unfold handleProcessedOperation
    cases hg : (M.wrapErr "failed to find matching operation"
        (GetOperationByID env operation.ID) w).result with
    | error e =>
      rw [M.bind_of_error hg]
      exact ⟨⟨_, rfl⟩, by simp [deletedOperations, Call.deletedOperation?], by simp⟩
    | ok stored =>
      rw [M.bind_of_ok hg]
      simp only [M.wrapErr_world, M.wrapErr_calls, GetOperationByID_world, GetOperationByID_calls]
      cases hck : (M.lift (checkOperation env stored operation) w).result with
      | error e =>
        rw [M.bind_of_error hck]
        exact ⟨⟨_, rfl⟩, by simp [deletedOperations, Call.deletedOperation?], by simp⟩
      | ok u =>
        rw [M.bind_of_ok hck]
        simp only [M.lift_world, M.lift_calls, List.nil_append]
        rcases h with ⟨e, he⟩ | ⟨msgs, e, hm, hsb⟩
        · rw [M.bind_of_error he]
          refine ⟨⟨_, rfl⟩, ?_, hsi.1⟩
          simp only [deletedOperations_append, hsd, List.append_nil]
          simp [deletedOperations, Call.deletedOperation?]
        · rw [M.bind_of_ok hm]
          simp only [hsi.1]
          have hsb2 : (M.wrapErr "failed to post messages" (SendBatch env msgs) w).result =
              .error (wrap "failed to post messages" e) := by
            simp [hsb, wrapExcept]
          rw [M.bind_of_error hsb2]
          refine ⟨⟨_, rfl⟩, ?_, ?_⟩
          · simp only [deletedOperations_append, hsd, M.wrapErr_calls, SendBatch_calls]
            simp [deletedOperations, Call.deletedOperation?]
          · simp only [M.wrapErr_world]
            exact SendBatch_world_of_error hsb
  refine ⟨key.1, key.2.1, key.2.2, ?_⟩
  rw [key.2.2]
  exact fun o ho => ho

theorem send_failure_keeps_operation_witness :
    ((∃ e, (signResultMsgs logDownEnv processedOperation.ResultMsgs worldAfterInit).result
        = .error e) ∨
      (∃ msgs e,
        (signResultMsgs logDownEnv processedOperation.ResultMsgs worldAfterInit).result
          = .ok msgs ∧
        (SendBatch logDownEnv msgs worldAfterInit).result = .error e)) ∧
    ((∃ e, (handleProcessedOperation logDownEnv processedOperation worldAfterInit).result
        = .error e) ∧
      deletedOperations (handleProcessedOperation logDownEnv processedOperation
        worldAfterInit).calls = [] ∧
      (handleProcessedOperation logDownEnv processedOperation worldAfterInit).world
        = worldAfterInit ∧
      (∀ o ∈ worldAfterInit.operations,
        o ∈ (handleProcessedOperation logDownEnv processedOperation
          worldAfterInit).world.operations)) ∧
    ((handleProcessedOperation logDownEnv processedOperation worldAfterInit).result =
        .error ["failed to post messages", "log unavailable"] ∧
      (handleProcessedOperation logDownEnv processedOperation worldAfterInit).calls =
        [.GetOperationByID "uuid-1", .LoadKeys "alice" "",
          .SendBatch [{ resultMessage with SenderAddr := "alice", Signature := [1, 0, 0] }]]) ∧
    ((∃ e, (signResultMsgs keysDownEnv processedOperation.ResultMsgs worldAfterInit).result
        = .error e) ∧
      (handleProcessedOperation keysDownEnv processedOperation worldAfterInit).result =
        .error ["failed to sign a message", "failed to LoadKeys", "no keys"] ∧
      (handleProcessedOperation keysDownEnv processedOperation worldAfterInit).calls =
        [.GetOperationByID "uuid-1", .LoadKeys "alice" ""]) :=
  have hsend : ∃ msgs e,
      (signResultMsgs logDownEnv processedOperation.ResultMsgs worldAfterInit).result
        = .ok msgs ∧
      (SendBatch logDownEnv msgs worldAfterInit).result = .error e :=
    ⟨[{ resultMessage with SenderAddr := "alice", Signature := [1, 0, 0] }],
      ["log unavailable"], by decide, by decide⟩
  ⟨Or.inr hsend,
    send_failure_keeps_operation logDownEnv processedOperation worldAfterInit (Or.inr hsend),
    ⟨by decide, by decide⟩,
    ⟨⟨["failed to sign a message", "failed to LoadKeys", "no keys"], by decide⟩, by decide,
      by decide⟩⟩


/-! ## A processed operation that is accepted -/

theorem LoadKeys_ok {env : Env} {u p : String} {w : World} {k : KeyPair}
    (h : (LoadKeys env u p w).result = .ok k) : k = env.keyPair := by
  revert h; unfold LoadKeys; split <;> simp
  exact fun h => h.symm

theorem signMessage_ok {env : Env} {bz sig : Bytes} {w : World}
    (h : (signMessage env bz w).result = .ok sig) :
    sig = env.Sign env.keyPair.Priv bz ∧
      (signMessage env bz w).calls = [.LoadKeys env.userName ""] := by
  unfold signMessage at h ⊢
  obtain ⟨k, h1, h2, hc, -⟩ := M.bind_ok_inv h
  simp only [M.wrapErr_result, wrapExcept_eq_ok] at h1
  have hk := LoadKeys_ok h1
  subst hk
  simp only [M.pure_result, Except.ok.injEq] at h2
  rw [hc]
  exact ⟨h2.symm, by simp⟩

theorem signResultMsg_ok {env : Env} {m signed : Message} {w : World}
    (h : (signResultMsg env m w).result = .ok signed) :
    signed = signedMessage env m ∧
      (signResultMsg env m w).calls = [.LoadKeys env.userName ""] := by
  unfold signResultMsg at h ⊢
  obtain ⟨sig, h1, h2, hc, -⟩ := M.bind_ok_inv h
  simp only [M.wrapErr_result, wrapExcept_eq_ok] at h1
  obtain ⟨hs, hcs⟩ := signMessage_ok h1
  simp only [M.pure_result, Except.ok.injEq] at h2
  rw [hc]
  refine ⟨?_, by simp [hcs]⟩
  rw [← h2, hs]
  rfl

/-- A successful run of the signing loop: every message is signed, in order,
and the keys are loaded once for each. -/
theorem signResultMsgs_ok {env : Env} {ms signed : List Message} {w : World}
    (h : (signResultMsgs env ms w).result = .ok signed) :
    signed = ms.map (signedMessage env) ∧
      (signResultMsgs env ms w).calls = ms.map (fun _ => Call.LoadKeys env.userName "") := by
  induction ms generalizing signed with
  | nil =>
    simp only [signResultMsgs, M.pure_result, Except.ok.injEq] at h
    exact ⟨h.symm, rfl⟩
  | cons m rest ih =>
    unfold signResultMsgs at h ⊢
    obtain ⟨s1, h1, h2, hc1, -⟩ := M.bind_ok_inv h
    obtain ⟨s2, h3, h4, hc2, -⟩ := M.bind_ok_inv h2
    rw [(signResultMsg_intake env m w).1] at h3 hc2 hc1
    obtain ⟨hs1, hcs1⟩ := signResultMsg_ok h1
    obtain ⟨hs2, hcs2⟩ := ih h3
    simp only [M.pure_result, Except.ok.injEq] at h4
    rw [hc1, hc2, hcs1, hcs2]
    refine ⟨?_, by simp⟩
    rw [← h4, hs1, hs2]
    rfl

/-- The signing loop succeeds when the key store does not fail. -/
theorem signResultMsgs_never_fails {env : Env}
    (hk : ∀ w userName password, env.faults.LoadKeys w userName password = none)
    (ms : List Message) (w : World) :
    (signResultMsgs env ms w).result = .ok (ms.map (signedMessage env)) := by
  have hl : ∀ w1, (LoadKeys env env.userName "" w1).result = .ok env.keyPair := by
    intro w1; simp [LoadKeys, hk]
  have h1 : ∀ m, (signResultMsg env m w).result = .ok (signedMessage env m) := by
    intro m
    simp [signResultMsg, signMessage, M.bind, hl, wrapExcept, signedMessage]
  induction ms with
  | nil => rfl
  | cons m rest ih =>
    unfold signResultMsgs
    rw [M.bind_of_ok (h1 m)]
    simp only [(signResultMsg_intake env m w).1]
    rw [M.bind_of_ok ih]
    rfl

/-- A successful run of `handleProcessedOperation`: its calls, in order, and
the state it leaves. -/
theorem handleProcessedOperation_ok {env : Env} {operation : Operation} {w : World}
    (h : (handleProcessedOperation env operation w).result = .ok ()) :
    (handleProcessedOperation env operation w).calls =
      Call.GetOperationByID operation.ID ::
        (operation.ResultMsgs.map (fun _ => Call.LoadKeys env.userName "") ++
          [Call.SendBatch (operation.ResultMsgs.map (signedMessage env)),
           Call.DeleteOperation operation.ID]) ∧
    (handleProcessedOperation env operation w).world =
      { w with
        sent := w.sent ++ operation.ResultMsgs.map (signedMessage env)
        operations := w.operations.filter (fun o => o.ID ≠ operation.ID) } := by
  unfold handleProcessedOperation at h ⊢
  obtain ⟨stored, h1, h2, -, -⟩ := M.bind_ok_inv h
  obtain ⟨u, h3, h4, -, -⟩ := M.bind_ok_inv h2
  obtain ⟨signed, h5, h6, -, -⟩ := M.bind_ok_inv h4
  obtain ⟨v, h7, h8, -, -⟩ := M.bind_ok_inv h6
  rw [M.bind_of_ok h1]
  dsimp only
  rw [M.bind_of_ok h3]
  dsimp only
  rw [M.bind_of_ok h5]
  dsimp only
  rw [M.bind_of_ok h7]
  dsimp only
  simp only [M.wrapErr_world, GetOperationByID_world, M.lift_world,
    (signResultMsgs_intake env operation.ResultMsgs w).1] at h5 h7 h8 ⊢
  obtain ⟨hs, hcs⟩ := signResultMsgs_ok h5
  subst hs
  simp only [M.wrapErr_result, wrapExcept_eq_ok] at h7 h8
  have hsend : (SendBatch env (operation.ResultMsgs.map (signedMessage env)) w).world =
      { w with sent := w.sent ++ operation.ResultMsgs.map (signedMessage env) } := by
    revert h7; unfold SendBatch; split <;> simp
  rw [hsend] at h8 ⊢
  have hdel : (DeleteOperation env operation.ID
      { w with sent := w.sent ++ operation.ResultMsgs.map (signedMessage env) }).world =
      { w with
        sent := w.sent ++ operation.ResultMsgs.map (signedMessage env)
        operations := w.operations.filter (fun o => o.ID ≠ operation.ID) } := by
    revert h8; unfold DeleteOperation; split <;> simp
  rw [hdel]
  simp [hcs]

/-- A processed operation whose stored counterpart passes `Check` is
accepted when the adapters do not fail. -/
theorem handleProcessedOperation_accepts {env : Env} {operation stored : Operation} {w : World}
    (hfind : w.operations.find? (fun o => o.ID = operation.ID) = some stored)
    (hcheck : env.Check stored operation = none)
    (hfaults : env.faults.intakeNeverFails) :
    (handleProcessedOperation env operation w).result = .ok () := by
  obtain ⟨hg, hk, hs, hd⟩ := hfaults
  have h1 : (M.wrapErr "failed to find matching operation"
      (GetOperationByID env operation.ID) w).result = .ok stored := by
    simp [GetOperationByID, hg, hfind]
  have h3 : (M.lift (checkOperation env stored operation) w).result = .ok () := by
    simp [checkOperation, hcheck]
  have h5 := signResultMsgs_never_fails hk operation.ResultMsgs w
  have h7 : ∀ ms w1, (M.wrapErr "failed to post messages" (SendBatch env ms) w1).result
      = .ok () := by
    intro ms w1; simp [SendBatch, hs]
  have h9 : ∀ w1, (M.wrapErr "failed to DeleteOperation" (DeleteOperation env operation.ID)
      w1).result = .ok () := by
    intro w1; simp [DeleteOperation, hd]
  unfold handleProcessedOperation
  rw [M.bind_of_ok h1]
  simp only [M.wrapErr_world, GetOperationByID_world]
  rw [M.bind_of_ok h3]
  simp only [M.lift_world]
  rw [M.bind_of_ok h5]
  dsimp only
  rw [M.bind_of_ok (h7 _ _)]
  exact h9 _

theorem Operation.Check_self (operation : Operation) : operation.Check operation = none := by
  simp [Operation.Check]

/-- Claim C11. A successful `handleProcessedOperation` makes one `SendBatch`
call, with exactly the operation's result messages in their original order,
each with this node's user name as `SenderAddr` and, as `Signature`, the
signature by this node's private key over the bytes of the message with the
sender set (which are the bytes of the message as sent when the codec leaves
out the signature field); it then calls `DeleteOperation` with the operation's
id, and the sent messages and the pool are updated accordingly. A processed
operation whose stored counterpart passes `Check`, as an operation equal to
the stored one does with the `Check` of the spec, is accepted without error
when the adapters do not fail. -/
theorem processed_operation_sent_and_deleted (env : Env) (operation : Operation) (w : World) :
    ((handleProcessedOperation env operation w).result = .ok () →
      (handleProcessedOperation env operation w).calls =
        Call.GetOperationByID operation.ID ::
          (operation.ResultMsgs.map (fun _ => Call.LoadKeys env.userName "") ++
            [Call.SendBatch (operation.ResultMsgs.map (signedMessage env)),
             Call.DeleteOperation operation.ID]) ∧
      sentBatches (handleProcessedOperation env operation w).calls =
        [operation.ResultMsgs.map (signedMessage env)] ∧
      deletedOperations (handleProcessedOperation env operation w).calls = [operation.ID] ∧
      (handleProcessedOperation env operation w).world.sent =
        w.sent ++ operation.ResultMsgs.map (signedMessage env) ∧
      (handleProcessedOperation env operation w).world.operations =
        w.operations.filter (fun o => o.ID ≠ operation.ID)) ∧
    (∀ m, (signedMessage env m).SenderAddr = GetUsername env ∧
      (signedMessage env m).Signature =
        env.Sign env.keyPair.Priv (env.MessageBytes { m with SenderAddr := GetUsername env }) ∧
      ((∀ (x : Message) (s : Bytes),
          env.MessageBytes { x with Signature := s } = env.MessageBytes x) →
        (signedMessage env m).Signature =
          env.Sign env.keyPair.Priv (env.MessageBytes (signedMessage env m)))) ∧
    (∀ stored, w.operations.find? (fun o => o.ID = operation.ID) = some stored →
      env.Check stored operation = none → env.faults.intakeNeverFails →
      (handleProcessedOperation env operation w).result = .ok ()) ∧
    (w.operations.find? (fun o => o.ID = operation.ID) = some operation →
      env.Check = Operation.Check → env.faults.intakeNeverFails →
      (handleProcessedOperation env operation w).result = .ok ()) := by
  refine ⟨?_, ?_, ?_, ?_⟩
  · intro h
    obtain ⟨hc, hw⟩ := handleProcessedOperation_ok h
    refine ⟨hc, ?_, ?_, by rw [hw], by rw [hw]⟩
    · rw [hc]
      simp [sentBatches, List.filterMap_append, List.filterMap_map, Call.sentBatch?]
    · rw [hc]
      simp [deletedOperations, List.filterMap_append, List.filterMap_map,
        Call.deletedOperation?]
  · intro m
    refine ⟨rfl, rfl, ?_⟩
    intro hb
    have : env.MessageBytes (signedMessage env m) =
        env.MessageBytes { m with SenderAddr := GetUsername env } :=
      hb { m with SenderAddr := GetUsername env } _
    rw [this]
    rfl
  · intro stored hfind hcheck hfaults
    exact handleProcessedOperation_accepts hfind hcheck hfaults
  · intro hfind hcheck hfaults
    refine handleProcessedOperation_accepts hfind ?_ hfaults
    rw [hcheck]
    exact Operation.Check_self operation

theorem processed_operation_sent_and_deleted_witness :
    ((handleProcessedOperation testEnv processedOperation worldAfterInit).result = .ok () ∧
      (handleProcessedOperation testEnv processedOperation worldAfterInit).calls =
        [.GetOperationByID "uuid-1", .LoadKeys "alice" "",
          .SendBatch [{ resultMessage with SenderAddr := "alice", Signature := [1, 0, 0] }],
          .DeleteOperation "uuid-1"] ∧
      (handleProcessedOperation testEnv processedOperation worldAfterInit).world.sent =
        [{ resultMessage with SenderAddr := "alice", Signature := [1, 0, 0] }] ∧
      (handleProcessedOperation testEnv processedOperation worldAfterInit).world.operations =
        []) ∧
    (sentBatches (handleProcessedOperation testEnv processedOperation worldAfterInit).calls =
        [processedOperation.ResultMsgs.map (signedMessage testEnv)] ∧
      deletedOperations (handleProcessedOperation testEnv processedOperation
        worldAfterInit).calls = [processedOperation.ID]) ∧
    (signedMessage testEnv resultMessage).Signature =
      testEnv.Sign testEnv.keyPair.Priv
        (testEnv.MessageBytes (signedMessage testEnv resultMessage)) ∧
    (worldAfterInit.operations.find? (fun o => o.ID = initOperation.ID) = some initOperation ∧
      testEnv.Check = Operation.Check ∧
      (handleProcessedOperation testEnv initOperation worldAfterInit).result = .ok ()) :=
  have h := processed_operation_sent_and_deleted testEnv processedOperation worldAfterInit
  have hfaults : testEnv.faults.intakeNeverFails :=
    ⟨fun _ _ => rfl, fun _ _ _ => rfl, fun _ _ => rfl, fun _ _ => rfl⟩
  ⟨⟨by decide, by decide, by decide, by decide⟩,
    ⟨(h.1 (by decide)).2.1, (h.1 (by decide)).2.2.1⟩,
    (h.2.1 resultMessage).2.2 (fun _ _ => rfl),
    ⟨by decide, rfl,
      (processed_operation_sent_and_deleted testEnv initOperation worldAfterInit).2.2.2
        (by decide) rfl hfaults⟩⟩


/-! ## The shortcut for `SignatureReconstructed` -/

theorem saveReconstructed_decode_error {env : Env} {m : Message} {e : Err}
    (h : env.UnmarshalSignature m.Data = .error e) (w : World) :
    saveReconstructed env m w =
      ⟨.error (wrap "failed to process signature"
        (wrap "failed to unmarshal reconstructed signature" e)), w, []⟩ := by
  have h1 : (M.wrapErr "failed to process signature" (processSignature env m) w).result =
      .error (wrap "failed to process signature"
        (wrap "failed to unmarshal reconstructed signature" e)) := by
    simp [processSignature, h, wrapExcept]
  unfold saveReconstructed
  rw [M.bind_of_error h1]
  simp [processSignature, h]

theorem saveReconstructed_save_error {env : Env} {m : Message} {s : ReconstructedSignature}
    {e : Err} {w : World}
    (h : env.UnmarshalSignature m.Data = .ok s)
    (hs : (SaveSignature env (recordOf m s) w).result = .error e) :
    saveReconstructed env m w =
      ⟨.error (wrap "failed to process signature" e), w, [.SaveSignature (recordOf m s)]⟩ := by
  have hp : processSignature env m w = SaveSignature env (recordOf m s) w := by
    simp [processSignature, h, recordOf]
  have h1 : (M.wrapErr "failed to process signature" (processSignature env m) w).result =
      .error (wrap "failed to process signature" e) := by
    simp [hp, hs, wrapExcept]
  have hw : (SaveSignature env (recordOf m s) w).world = w := by
    revert hs; unfold SaveSignature; split <;> simp
  unfold saveReconstructed
  rw [M.bind_of_error h1]
  simp [hp, hw]

theorem saveReconstructed_saved {env : Env} {m : Message} {s : ReconstructedSignature}
    {w : World}
    (h : env.UnmarshalSignature m.Data = .ok s)
    (hs : (SaveSignature env (recordOf m s) w).result = .ok ()) :
    (saveReconstructed env m w).calls =
      [.SaveSignature (recordOf m s), .SaveOffset (u64 (m.Offset + 1))] ∧
    (saveReconstructed env m w).world.signatures = w.signatures ++ [recordOf m s] := by
  have hp : processSignature env m w = SaveSignature env (recordOf m s) w := by
    simp [processSignature, h, recordOf]
  have h1 : (M.wrapErr "failed to process signature" (processSignature env m) w).result =
      .ok () := by
    simp [hp, hs]
  have hw : (SaveSignature env (recordOf m s) w).world =
      { w with signatures := w.signatures ++ [recordOf m s] } := by
    revert hs; unfold SaveSignature; split <;> simp
  unfold saveReconstructed
  rw [M.bind_of_ok h1]
  simp only [M.wrapErr_calls, M.wrapErr_world, hp, SaveSignature_calls, SaveOffset_calls, hw,
    (SaveOffset_frame _ _ _).2.2.1]
  simp

/-- Claim C12 (the `SignatureReconstructed` shortcut). For a message with
event `SignatureReconstructed`, `ProcessMessage` calls nothing but
`SaveSignature` and `SaveOffset`: no `LoadFSM`, `SaveFSM` or `PutOperation`,
and the stored snapshots and the pool are as they were. When the data decodes
and the record is saved, the record has the message's `SenderAddr` as
`Username` and its `DkgRoundID` as `DKGRoundID`, and `SaveOffset` is then
called with `Offset + 1`; a successful run leaves that record and that offset
persisted. When decoding fails or saving the record fails, `ProcessMessage`
fails, `SaveOffset` is not called and the persisted offset is as it was. -/
theorem reconstructed_shortcut (env : Env) (amb : Ambient) (m : Message) (w : World)
    (hev : m.Event = env.K.SignatureReconstructed) :
    ((∀ c ∈ (ProcessMessage env amb m w).calls,
        (∃ s, c = Call.SaveSignature s) ∨ c = Call.SaveOffset (u64 (m.Offset + 1))) ∧
      savedSnapshots (ProcessMessage env amb m w).calls = [] ∧
      putOperations (ProcessMessage env amb m w).calls = [] ∧
      (ProcessMessage env amb m w).world.fsms = w.fsms ∧
      (ProcessMessage env amb m w).world.operations = w.operations) ∧
    (∀ s, env.UnmarshalSignature m.Data = .ok s →
      (SaveSignature env (recordOf m s) w).result = .ok () →
      (ProcessMessage env amb m w).calls =
        [.SaveSignature (recordOf m s), .SaveOffset (u64 (m.Offset + 1))] ∧
      (recordOf m s).Username = m.SenderAddr ∧ (recordOf m s).DKGRoundID = m.DkgRoundID ∧
      (ProcessMessage env amb m w).world.signatures = w.signatures ++ [recordOf m s] ∧
      ((ProcessMessage env amb m w).result = .ok () →
        (ProcessMessage env amb m w).world.offset = u64 (m.Offset + 1))) ∧
    (∀ e, env.UnmarshalSignature m.Data = .error e →
      (∃ e1, (ProcessMessage env amb m w).result = .error e1) ∧
      (ProcessMessage env amb m w).calls = [] ∧
      (ProcessMessage env amb m w).world = w) ∧
    (∀ s e, env.UnmarshalSignature m.Data = .ok s →
      (SaveSignature env (recordOf m s) w).result = .error e →
      (∃ e1, (ProcessMessage env amb m w).result = .error e1) ∧
      savedOffsets (ProcessMessage env amb m w).calls = [] ∧
      (ProcessMessage env amb m w).world = w) := by
  rw [ProcessMessage_reconstructed hev]
  have hcases : (∃ e, env.UnmarshalSignature m.Data = .error e) ∨
      (∃ s e, env.UnmarshalSignature m.Data = .ok s ∧
        (SaveSignature env (recordOf m s) w).result = .error e) ∨
      (∃ s, env.UnmarshalSignature m.Data = .ok s ∧
        (SaveSignature env (recordOf m s) w).result = .ok ()) := by
    cases hu : env.UnmarshalSignature m.Data with
    | error e => exact Or.inl ⟨e, rfl⟩
    | ok s =>
      cases hs : (SaveSignature env (recordOf m s) w).result with
      | error e => exact Or.inr (Or.inl ⟨s, e, rfl, hs⟩)
      | ok u => exact Or.inr (Or.inr ⟨s, rfl, hs⟩)
  refine ⟨?_, ?_, ?_, ?_⟩
  · rcases hcases with ⟨e, he⟩ | ⟨s, e, hs, hse⟩ | ⟨s, hs, hso⟩
    · rw [saveReconstructed_decode_error he]
      simp [savedSnapshots, putOperations]
    · rw [saveReconstructed_save_error hs hse]
      simp [savedSnapshots, putOperations, Call.savedSnapshot?, Call.putOperation?]
    · have hp := saveReconstructed_pool env m w
      rw [(saveReconstructed_saved hs hso).1]
      refine ⟨?_, ?_, ?_, ?_, hp.2⟩
      · simp
      · simp [savedSnapshots, Call.savedSnapshot?]
      · simp [putOperations, Call.putOperation?]
      · unfold saveReconstructed
        let P : World → Prop := fun w1 => w1.fsms = w.fsms
        show P _
        refine M.bind_world_inv P (fun _ => ?_) ?_ rfl
        · simp only [M.wrapErr_world, P]; exact (processSignature_frame _ _ _).2.1
        · intro _ w1 h1
          simp only [M.wrapErr_world, P]; rw [(SaveOffset_frame _ _ _).1]; exact h1
  · intro s hs hso
    obtain ⟨hc, hsig⟩ := saveReconstructed_saved hs hso
    refine ⟨hc, rfl, rfl, hsig, ?_⟩
    intro hok
    obtain ⟨_, -, -, hw⟩ := saveReconstructed_ok hok
    rw [hw]
  · intro e he
    rw [saveReconstructed_decode_error he]
    exact ⟨⟨_, rfl⟩, rfl, rfl⟩
  · intro s e hs hse
    rw [saveReconstructed_save_error hs hse]
    exact ⟨⟨_, rfl⟩, rfl, rfl⟩

theorem reconstructed_shortcut_witness :
    (forgedReconstructed.Event = testEnv.K.SignatureReconstructed ∧
      undecodableReconstructed.Event = testEnv.K.SignatureReconstructed) ∧
    ((ProcessMessage testEnv testAmbient forgedReconstructed worldAfterInit).calls =
        [.SaveSignature (recordOf forgedReconstructed ⟨"sig", [7], [8], "", ""⟩),
          .SaveOffset (u64 (forgedReconstructed.Offset + 1))] ∧
      (recordOf forgedReconstructed ⟨"sig", [7], [8], "", ""⟩).Username
        = forgedReconstructed.SenderAddr ∧
      (recordOf forgedReconstructed ⟨"sig", [7], [8], "", ""⟩).DKGRoundID
        = forgedReconstructed.DkgRoundID ∧
      (ProcessMessage testEnv testAmbient forgedReconstructed worldAfterInit).world.signatures
        = worldAfterInit.signatures ++ [recordOf forgedReconstructed ⟨"sig", [7], [8], "", ""⟩] ∧
      ((ProcessMessage testEnv testAmbient forgedReconstructed worldAfterInit).result = .ok () →
        (ProcessMessage testEnv testAmbient forgedReconstructed worldAfterInit).world.offset
          = u64 (forgedReconstructed.Offset + 1))) ∧
    (savedSnapshots (ProcessMessage testEnv testAmbient forgedReconstructed
        worldAfterInit).calls = [] ∧
      putOperations (ProcessMessage testEnv testAmbient forgedReconstructed
        worldAfterInit).calls = [] ∧
      (ProcessMessage testEnv testAmbient forgedReconstructed worldAfterInit).result = .ok () ∧
      (ProcessMessage testEnv testAmbient forgedReconstructed worldAfterInit).world.offset = 4) ∧
    ((∃ e1, (ProcessMessage testEnv testAmbient undecodableReconstructed worldAfterInit).result
        = .error e1) ∧
      (ProcessMessage testEnv testAmbient undecodableReconstructed worldAfterInit).calls = [] ∧
      (ProcessMessage testEnv testAmbient undecodableReconstructed worldAfterInit).world
        = worldAfterInit) :=
  have h := reconstructed_shortcut testEnv testAmbient forgedReconstructed worldAfterInit
    (by decide)
  ⟨⟨by decide, by decide⟩,
    h.2.1 ⟨"sig", [7], [8], "", ""⟩ rfl (by decide),
    ⟨h.1.2.1, h.1.2.2.1, by decide, by decide⟩,
    (reconstructed_shortcut testEnv testAmbient undecodableReconstructed worldAfterInit
      (by decide)).2.2.1 ["unexpected end of JSON input"] rfl⟩


/-! ## The store of the airgapped machine -/

theorem lookup_cons_filter_self {β : Type} (l : List (String × β)) (k : String) (v : β) :
    ((k, v) :: l.filter (fun p => p.1 ≠ k)).lookup k = some v := by
  simp [List.lookup]

theorem lookup_filter_ne {β : Type} (l : List (String × β)) {k k' : String} (h : k' ≠ k) :
    (l.filter (fun p => p.1 ≠ k)).lookup k' = l.lookup k' := by
  induction l with
  | nil => rfl
  | cons p l ih =>
    obtain ⟨a, b⟩ := p
    by_cases ha : a = k
    · subst ha
      have hne : (k' == a) = false := by simpa using h
      rw [List.filter_cons_of_neg (by simp), List.lookup, hne]
      exact ih
    · rw [List.filter_cons_of_pos (by simpa using ha)]
      by_cases hk : k' = a
      · subst hk
        simp [List.lookup]
      · have hne : (k' == a) = false := by simpa using hk
        rw [List.lookup, hne, List.lookup, hne]
        exact ih

theorem lookup_cons_filter_ne {β : Type} (l : List (String × β)) {k k' : String} (v : β)
    (h : k' ≠ k) : ((k, v) :: l.filter (fun p => p.1 ≠ k)).lookup k' = l.lookup k' := by
  have hne : (k' == k) = false := by simpa using h
  rw [List.lookup, hne]
  exact lookup_filter_ne l h

theorem RoundOperationLog.lookup_set_self (log : RoundOperationLog) (k : String)
    (v : List Operation) : (log.set k v).lookup k = some v :=
  lookup_cons_filter_self log k v

theorem RoundOperationLog.lookup_set_ne (log : RoundOperationLog) {k k' : String}
    (v : List Operation) (h : k' ≠ k) : (log.set k v).lookup k' = log.lookup k' :=
  lookup_cons_filter_ne log v h

theorem DB.lookup_put_self (db : DB) (k : String) (v : Bytes) : (db.put k v).lookup k = some v :=
  lookup_cons_filter_self db k v

theorem DB.lookup_put_ne (db : DB) {k k' : String} (v : Bytes) (h : k' ≠ k) :
    (db.put k v).lookup k' = db.lookup k' :=
  lookup_cons_filter_ne db v h

/-- A successful `getRoundOperationLog` returns the log that the store
holds. -/
theorem getRoundOperationLog_ok {env : AirEnv} {am : Machine env} {log : RoundOperationLog}
    (h : getRoundOperationLog am = .ok log) : storedLog env am.db = some log := by
  unfold getRoundOperationLog dbGet at h
  unfold storedLog
  cases hf : env.faults.Get am.db operationsLogDBKey with
  | some e => simp [hf] at h
  | none =>
    cases hl : am.db.lookup operationsLogDBKey with
    | none => simp [hf, hl] at h
    | some bz =>
      cases hu : env.UnmarshalLog bz with
      | error e => simp [hf, hl, hu, wrapExcept] at h
      | ok l =>
        simp only [hf, hl, hu, wrapExcept, Except.ok.injEq] at h
        subst h
        simp [hu]

/-- When `Get` does not fail, `getRoundOperationLog` returns the log that the
store holds. -/
theorem getRoundOperationLog_of_stored {env : AirEnv} {am : Machine env}
    {log : RoundOperationLog} (hg : env.faults.Get am.db operationsLogDBKey = none)
    (h : storedLog env am.db = some log) : getRoundOperationLog am = .ok log := by
  unfold storedLog at h
  unfold getRoundOperationLog dbGet
  cases hl : am.db.lookup operationsLogDBKey with
  | none => simp [hl] at h
  | some bz =>
    cases hu : env.UnmarshalLog bz with
    | error e => simp [hl, hu] at h
    | ok l =>
      simp only [hl, hu, Option.some.injEq] at h
      simp [hg, hu, wrapExcept, h]

/-- A successful `putRoundOperationLog` leaves a stored log with the values
of the log that was put; the rest of the machine and the other keys of the
store are as they were. -/
theorem putRoundOperationLog_ok {env : AirEnv} {am : Machine env} {log : RoundOperationLog}
    (hrt : env.logCodecRoundTrips) (h : (putRoundOperationLog am log).1 = .ok ()) :
    (∃ decoded, storedLog env (putRoundOperationLog am log).2.db = some decoded ∧
      ∀ id, decoded.lookup id = log.lookup id) ∧
    (∀ key, key ≠ operationsLogDBKey →
      (putRoundOperationLog am log).2.db.lookup key = am.db.lookup key) := by
  unfold putRoundOperationLog dbPut at h ⊢
  cases hm : env.MarshalLog log with
  | error e => simp [hm] at h
  | ok bz =>
    cases hp : env.faults.Put am.db operationsLogDBKey bz with
    | some e => simp [hm, hp] at h
    | none =>
      obtain ⟨decoded, hd, hl⟩ := hrt log bz hm
      simp only [hm, hp]
      refine ⟨⟨decoded, ?_, hl⟩, fun key hk => DB.lookup_put_ne _ _ hk⟩
      simp [storedLog, DB.lookup_put_self, hd]

/-- A failed `putRoundOperationLog` leaves the machine as it was. -/
theorem putRoundOperationLog_error {env : AirEnv} {am : Machine env} {log : RoundOperationLog}
    {e : Err} (h : (putRoundOperationLog am log).1 = .error e) :
    (putRoundOperationLog am log).2 = am := by
  unfold putRoundOperationLog dbPut at h ⊢
  cases hm : env.MarshalLog log with
  | error e => simp
  | ok bz =>
    cases hp : env.faults.Put am.db operationsLogDBKey bz with
    | some e => simp [hp]
    | none => simp [hm, hp] at h

theorem getOperationsLog_of_stored {env : AirEnv} {am : Machine env} {log : RoundOperationLog}
    (hg : env.faults.Get am.db operationsLogDBKey = none)
    (h : storedLog env am.db = some log) (id : String) :
    getOperationsLog am id =
      match log.lookup id with
      | none => .error ["operation log not found for " ++ id]
      | some operationsLog => .ok operationsLog := by
  unfold getOperationsLog
  rw [getRoundOperationLog_of_stored hg h]

theorem get?_logIndex (log : RoundOperationLog) (ls : List RoundOperationLog)
    (h : log ∈ ls) : ls.get? (logIndex log ls) = some log := by
  induction ls with
  | nil => cases h
  | cons l ls ih =>
    by_cases hl : l = log
    · simp [logIndex, hl]
    · have hmem : log ∈ ls := by
        rcases List.mem_cons.1 h with h1 | h1
        · exact absurd h1.symm hl
        · exact h1
      have := ih hmem
      simp only [List.get?_eq_getElem?] at this
      simp [logIndex, hl, this]

/-- The codec of the test environment gives back the log it encoded. -/
theorem testAirEnv_roundTrips : testAirEnv.logCodecRoundTrips := by
  intro log bz h
  have hm : testAirEnv.MarshalLog log =
      if log ∈ testLogs then .ok [logIndex log testLogs] else .error ["unsupported value"] := rfl
  rw [hm] at h
  by_cases hin : log ∈ testLogs
  · rw [if_pos hin] at h
    cases h
    refine ⟨log, ?_, fun _ => rfl⟩
    have hu : testAirEnv.UnmarshalLog [logIndex log testLogs] =
        match testLogs.get? (logIndex log testLogs) with
        | some l => .ok l
        | none => .error ["invalid character"] := rfl
    rw [hu, get?_logIndex log testLogs hin]
  · rw [if_neg hin] at h
    cases h

/-- Claim C13 (`storeOperation` appends). On a store holding the operations
log `log`, a successful `storeOperation(o)` leaves a stored log that maps
`o.DKGIdentifier` to the list `log` had for it with `o` appended at the end,
the one-element list `[o]` when the round had no entry, and maps every other
round id to what `log` maps it to; `getOperationsLog` reads that list back
when the store's `Get` does not fail. The JSON codec of the log is taken to
return, on decoding, the values that were encoded. -/
theorem storeOperation_appends (env : AirEnv) (am : Machine env) (o : Operation)
    (log : RoundOperationLog)
    (hrt : env.logCodecRoundTrips)
    (hlog : storedLog env am.db = some log)
    (hok : (storeOperation am o).1 = .ok ()) :
    ∃ stored, storedLog env (storeOperation am o).2.db = some stored ∧
      stored.lookup o.DKGIdentifier = some ((log.lookup o.DKGIdentifier).getD [] ++ [o]) ∧
      (log.lookup o.DKGIdentifier = none → stored.lookup o.DKGIdentifier = some [o]) ∧
      (∀ id, id ≠ o.DKGIdentifier → stored.lookup id = log.lookup id) ∧
      (env.faults.Get (storeOperation am o).2.db operationsLogDBKey = none →
        getOperationsLog (storeOperation am o).2 o.DKGIdentifier =
          .ok ((log.lookup o.DKGIdentifier).getD [] ++ [o])) := by
  unfold storeOperation at hok ⊢
  cases hg : getRoundOperationLog am with
  | error e => simp [hg] at hok
  | ok log0 =>
    have h0 := getRoundOperationLog_ok hg
    rw [hlog] at h0
    cases h0
    simp only [hg] at hok ⊢
    obtain ⟨⟨stored, hs, hl⟩, -⟩ := putRoundOperationLog_ok hrt hok
    have hself : stored.lookup o.DKGIdentifier =
        some ((log.lookup o.DKGIdentifier).getD [] ++ [o]) := by
      rw [hl, RoundOperationLog.lookup_set_self]
    refine ⟨stored, hs, hself, ?_, ?_, ?_⟩
    · intro hnone
      rw [hself, hnone]
      rfl
    · intro id hid
      rw [hl, RoundOperationLog.lookup_set_ne _ _ hid]
    · intro hget
      rw [getOperationsLog_of_stored hget hs, hself]

theorem storeOperation_appends_witness :
    (testAirEnv.logCodecRoundTrips ∧
      storedLog testAirEnv (testMachine [("operations_log", [1])]).db
        = some [("r1", [initOperation])] ∧
      (storeOperation (testMachine [("operations_log", [1])]) commitsOperation).1 = .ok ()) ∧
    (∃ stored,
      storedLog testAirEnv
        (storeOperation (testMachine [("operations_log", [1])]) commitsOperation).2.db
        = some stored ∧
      stored.lookup commitsOperation.DKGIdentifier =
        some (((([("r1", [initOperation])] : RoundOperationLog).lookup
          commitsOperation.DKGIdentifier).getD []) ++ [commitsOperation]) ∧
      ((([("r1", [initOperation])] : RoundOperationLog).lookup commitsOperation.DKGIdentifier
          = none) → stored.lookup commitsOperation.DKGIdentifier = some [commitsOperation]) ∧
      (∀ id, id ≠ commitsOperation.DKGIdentifier →
        stored.lookup id = ([("r1", [initOperation])] : RoundOperationLog).lookup id) ∧
      (testAirEnv.faults.Get
          (storeOperation (testMachine [("operations_log", [1])]) commitsOperation).2.db
          operationsLogDBKey = none →
        getOperationsLog
          (storeOperation (testMachine [("operations_log", [1])]) commitsOperation).2
          commitsOperation.DKGIdentifier =
          .ok (((([("r1", [initOperation])] : RoundOperationLog).lookup
            commitsOperation.DKGIdentifier).getD []) ++ [commitsOperation]))) ∧
    getOperationsLog
      (storeOperation (testMachine [("operations_log", [1])]) commitsOperation).2 "r1"
      = .ok [initOperation, commitsOperation] :=
  ⟨⟨testAirEnv_roundTrips, by decide, by decide⟩,
    storeOperation_appends testAirEnv (testMachine [("operations_log", [1])]) commitsOperation
      [("r1", [initOperation])] testAirEnv_roundTrips (by decide) (by decide),
    by decide⟩


/-- A successful `dropRoundOperationLog` was run on a store that holds a log,
and whose `Get` of the log did not fail. -/
theorem dropRoundOperationLog_ok_inv {env : AirEnv} {am : Machine env} {id : String}
    (hok : (dropRoundOperationLog am id).1 = .ok ()) :
    ∃ log, getRoundOperationLog am = .ok log ∧
      env.faults.Get am.db operationsLogDBKey = none ∧
      (putRoundOperationLog am (log.set id [])).1 = .ok () ∧
      dropRoundOperationLog am id = putRoundOperationLog am (log.set id []) := by
  unfold dropRoundOperationLog at hok ⊢
  cases hg : getRoundOperationLog am with
  | error e => simp [hg] at hok
  | ok log =>
    simp only [hg] at hok
    refine ⟨log, rfl, ?_, hok, rfl⟩
    unfold getRoundOperationLog dbGet at hg
    cases hf : env.faults.Get am.db operationsLogDBKey with
    | none => rfl
    | some e => simp [hf] at hg

/-- Claim C14 (`dropRoundOperationLog` clears exactly one round). After a
successful `dropRoundOperationLog(id)`, on a store whose `Get` of the log
does not fail and with a JSON codec that returns the values it encoded,
`getOperationsLog(id)` returns the empty list, and for every other round id
`getOperationsLog` returns the result it returned before the call. -/
theorem dropRoundOperationLog_clears_one_round (env : AirEnv) (am : Machine env) (id : String)
    (hrt : env.logCodecRoundTrips)
    (hok : (dropRoundOperationLog am id).1 = .ok ())
    (hget : env.faults.Get (dropRoundOperationLog am id).2.db operationsLogDBKey = none) :
    getOperationsLog (dropRoundOperationLog am id).2 id = .ok [] ∧
    ∀ other, other ≠ id →
      getOperationsLog (dropRoundOperationLog am id).2 other = getOperationsLog am other := by
  obtain ⟨log, hg, hf, hput, heq⟩ := dropRoundOperationLog_ok_inv hok
  rw [heq] at hget ⊢
  obtain ⟨⟨stored, hs, hl⟩, -⟩ := putRoundOperationLog_ok hrt hput
  constructor
  · rw [getOperationsLog_of_stored hget hs, hl, RoundOperationLog.lookup_set_self]
  · intro other hne
    rw [getOperationsLog_of_stored hget hs, hl, RoundOperationLog.lookup_set_ne _ _ hne,
      getOperationsLog_of_stored hf (getRoundOperationLog_ok hg)]

theorem dropRoundOperationLog_clears_one_round_witness :
    (testAirEnv.logCodecRoundTrips ∧
      (dropRoundOperationLog (testMachine [("operations_log", [3])]) "r1").1 = .ok () ∧
      testAirEnv.faults.Get
        (dropRoundOperationLog (testMachine [("operations_log", [3])]) "r1").2.db
        operationsLogDBKey = none) ∧
    (getOperationsLog (dropRoundOperationLog (testMachine [("operations_log", [3])]) "r1").2 "r1"
        = .ok [] ∧
      ∀ other, other ≠ "r1" →
        getOperationsLog (dropRoundOperationLog (testMachine [("operations_log", [3])]) "r1").2
          other = getOperationsLog (testMachine [("operations_log", [3])]) other) ∧
    getOperationsLog (testMachine [("operations_log", [3])]) "r1" = .ok [initOperation] ∧
    getOperationsLog (dropRoundOperationLog (testMachine [("operations_log", [3])]) "r1").2 "r2"
      = .ok [initOperation] :=
  ⟨⟨testAirEnv_roundTrips, by decide, by decide⟩,
    dropRoundOperationLog_clears_one_round testAirEnv (testMachine [("operations_log", [3])])
      "r1" testAirEnv_roundTrips (by decide) (by decide),
    by decide, by decide⟩

/-- Claim C15, the counterexample. On the store without an `operations_log`
entry `storeOperation` does not succeed: it returns `leveldb.ErrNotFound` and
the store stays empty. -/
theorem storeOperation_without_log_fails :
    (testMachine []).db.lookup operationsLogDBKey = none ∧
    (storeOperation (testMachine []) commitsOperation).1 = .error ErrNotFound ∧
    (storeOperation (testMachine []) commitsOperation).1 ≠ .ok () ∧
    (storeOperation (testMachine []) commitsOperation).2.db = [] ∧
    storedLog testAirEnv (storeOperation (testMachine []) commitsOperation).2.db = none := by
  decide

/-- Claim C15, amended (a missing operations log is an error). On a store
with no `operations_log` entry `storeOperation(o)` fails and leaves the
machine and its store as they were; when the store's `Get` itself does not
fail the error is `leveldb.ErrNotFound`, returned as it is. -/
theorem storeOperation_missing_log (env : AirEnv) (am : Machine env) (o : Operation)
    (hmiss : am.db.lookup operationsLogDBKey = none) :
    (∃ e, (storeOperation am o).1 = .error e) ∧
    (storeOperation am o).2 = am ∧
    (env.faults.Get am.db operationsLogDBKey = none →
      (storeOperation am o).1 = .error ErrNotFound) := by
  unfold storeOperation getRoundOperationLog dbGet
  cases hf : env.faults.Get am.db operationsLogDBKey with
  | some e => simp [hmiss]
  | none => simp [hmiss, logError]

theorem storeOperation_missing_log_witness :
    (testMachine []).db.lookup operationsLogDBKey = none ∧
    ((∃ e, (storeOperation (testMachine []) initOperation).1 = .error e) ∧
      (storeOperation (testMachine []) initOperation).2 = testMachine [] ∧
      (testAirEnv.faults.Get (testMachine []).db operationsLogDBKey = none →
        (storeOperation (testMachine []) initOperation).1 = .error ErrNotFound)) :=
  ⟨by decide, storeOperation_missing_log testAirEnv (testMachine []) initOperation (by decide)⟩


/-- A committed transaction of the three key writes: each of the three keys
holds the value written for it, every other key holds what it held. -/
theorem DB.commit_keys (db : DB) (encPub encPriv salt : Bytes) :
    (db.commit [(pubKeyDBKey, encPub), (privateKeyDBKey, encPriv), (saltDBKey, salt)]).lookup
        pubKeyDBKey = some encPub ∧
    (db.commit [(pubKeyDBKey, encPub), (privateKeyDBKey, encPriv), (saltDBKey, salt)]).lookup
        privateKeyDBKey = some encPriv ∧
    (db.commit [(pubKeyDBKey, encPub), (privateKeyDBKey, encPriv), (saltDBKey, salt)]).lookup
        saltDBKey = some salt ∧
    ∀ key, key ≠ pubKeyDBKey → key ≠ privateKeyDBKey → key ≠ saltDBKey →
      (db.commit [(pubKeyDBKey, encPub), (privateKeyDBKey, encPriv), (saltDBKey, salt)]).lookup
        key = db.lookup key := by
  have hc : db.commit [(pubKeyDBKey, encPub), (privateKeyDBKey, encPriv), (saltDBKey, salt)] =
      ((db.put pubKeyDBKey encPub).put privateKeyDBKey encPriv).put saltDBKey salt := rfl
  rw [hc]
  refine ⟨?_, ?_, ?_, ?_⟩
  · rw [DB.lookup_put_ne _ _ (by decide), DB.lookup_put_ne _ _ (by decide), DB.lookup_put_self]
  · rw [DB.lookup_put_ne _ _ (by decide), DB.lookup_put_self]
  · rw [DB.lookup_put_self]
  · intro key h1 h2 h3
    rw [DB.lookup_put_ne _ _ h3, DB.lookup_put_ne _ _ h2, DB.lookup_put_ne _ _ h1]

/-- A successful `saveKeysTx` is the commit of one transaction that holds
the three writes. -/
theorem saveKeysTx_ok {env : AirEnv} {db db1 : DB} {encPub encPriv salt : Bytes}
    (h : saveKeysTx env db encPub encPriv salt = .ok db1) :
    txCommit env db [(pubKeyDBKey, encPub), (privateKeyDBKey, encPriv), (saltDBKey, salt)]
      = .ok db1 ∧
    db1 = db.commit [(pubKeyDBKey, encPub), (privateKeyDBKey, encPriv), (saltDBKey, salt)] := by
  unfold saveKeysTx openTransaction at h
  cases ho : env.faults.OpenTransaction db with
  | some e => simp [ho, wrapExcept, bind, Except.bind] at h
  | none =>
    simp only [ho, wrapExcept, bind, Except.bind, txPut, List.nil_append] at h
    cases h1 : env.faults.TxPut db [] pubKeyDBKey encPub with
    | some e => simp [h1] at h
    | none =>
      simp only [h1, List.singleton_append] at h
      cases h2 : env.faults.TxPut db [(pubKeyDBKey, encPub)] privateKeyDBKey encPriv with
      | some e => simp [h2] at h
      | none =>
        simp only [h2, List.cons_append, List.nil_append] at h
        cases h3 : env.faults.TxPut db [(pubKeyDBKey, encPub), (privateKeyDBKey, encPriv)]
            saltDBKey salt with
        | some e => simp [h3] at h
        | none =>
          simp only [h3, List.cons_append, List.nil_append] at h
          unfold txCommit at h ⊢
          cases h4 : env.faults.Commit db
              [(pubKeyDBKey, encPub), (privateKeyDBKey, encPriv), (saltDBKey, salt)] with
          | some e => simp [h4] at h
          | none =>
            simp only [h4, Except.ok.injEq] at h
            exact ⟨by rw [h], h.symm⟩

/-- A successful `encryptKeys` encrypted both encoded keys under one salt of
32 bytes read from the random source. -/
theorem encryptKeys_ok {env : AirEnv} {entropy : Entropy} {am : Machine env}
    {encPub encPriv salt : Bytes} (h : encryptKeys entropy am = .ok (encPub, encPriv, salt)) :
    ∃ pubKeyBz privateKeyBz,
      env.MarshalPoint am.pubKey = .ok pubKeyBz ∧
      env.MarshalScalar am.secKey = .ok privateKeyBz ∧
      entropy.read 32 = .ok salt ∧ salt.length = 32 ∧
      env.encrypt am.encryptionKey salt pubKeyBz = .ok encPub ∧
      env.encrypt am.encryptionKey salt privateKeyBz = .ok encPriv := by
  unfold encryptKeys at h
  cases hp : env.MarshalPoint am.pubKey with
  | error e => simp [hp, wrapExcept, bind, Except.bind] at h
  | ok pubKeyBz =>
    cases hs : env.MarshalScalar am.secKey with
    | error e => simp [hp, hs, wrapExcept, bind, Except.bind] at h
    | ok privateKeyBz =>
      cases hr : entropy.read 32 with
      | error e => simp [hp, hs, hr, wrapExcept, bind, Except.bind] at h
      | ok salt0 =>
        cases h1 : env.encrypt am.encryptionKey salt0 pubKeyBz with
        | error e => simp [hp, hs, hr, h1, wrapExcept, bind, Except.bind] at h
        | ok encPub0 =>
          cases h2 : env.encrypt am.encryptionKey salt0 privateKeyBz with
          | error e => simp [hp, hs, hr, h1, h2, wrapExcept, bind, Except.bind] at h
          | ok encPriv0 =>
            simp only [hp, hs, hr, h1, h2, wrapExcept, bind, Except.bind, pure, Except.pure,
              Except.ok.injEq, Prod.mk.injEq] at h
            obtain ⟨rfl, rfl, rfl⟩ := h
            refine ⟨pubKeyBz, privateKeyBz, rfl, rfl, rfl, ?_, h1, h2⟩
            unfold Entropy.read at hr
            cases hf : entropy.failure with
            | some e => simp [hf] at hr
            | none =>
              simp only [hf, Except.ok.injEq] at hr
              rw [← hr]
              simp

/-- Claim C16 (`SaveKeysToDB` is all-or-nothing). A successful call encoded
both keys, read one salt of 32 random bytes, encrypted both encodings under
that salt and committed one transaction holding the three writes, after which
`public_key`, `private_key` and `salt_key` hold the encrypted public key, the
encrypted private key and the salt, and every other key holds what it held;
a failing call, whatever failed, leaves the machine and so each of the three
stored values as it was. -/
theorem SaveKeysToDB_all_or_nothing (env : AirEnv) (entropy : Entropy) (am : Machine env) :
    ((SaveKeysToDB entropy am).1 = .ok () →
      ∃ pubKeyBz privateKeyBz salt encPub encPriv,
        env.MarshalPoint am.pubKey = .ok pubKeyBz ∧
        env.MarshalScalar am.secKey = .ok privateKeyBz ∧
        entropy.read 32 = .ok salt ∧ salt.length = 32 ∧
        env.encrypt am.encryptionKey salt pubKeyBz = .ok encPub ∧
        env.encrypt am.encryptionKey salt privateKeyBz = .ok encPriv ∧
        txCommit env am.db
          [(pubKeyDBKey, encPub), (privateKeyDBKey, encPriv), (saltDBKey, salt)]
          = .ok (SaveKeysToDB entropy am).2.db ∧
        (SaveKeysToDB entropy am).2.db.lookup pubKeyDBKey = some encPub ∧
        (SaveKeysToDB entropy am).2.db.lookup privateKeyDBKey = some encPriv ∧
        (SaveKeysToDB entropy am).2.db.lookup saltDBKey = some salt ∧
        ∀ key, key ≠ pubKeyDBKey → key ≠ privateKeyDBKey → key ≠ saltDBKey →
          (SaveKeysToDB entropy am).2.db.lookup key = am.db.lookup key) ∧
    (∀ e, (SaveKeysToDB entropy am).1 = .error e →
      (SaveKeysToDB entropy am).2 = am ∧
      (SaveKeysToDB entropy am).2.db.lookup pubKeyDBKey = am.db.lookup pubKeyDBKey ∧
      (SaveKeysToDB entropy am).2.db.lookup privateKeyDBKey = am.db.lookup privateKeyDBKey ∧
      (SaveKeysToDB entropy am).2.db.lookup saltDBKey = am.db.lookup saltDBKey) := by
  unfold SaveKeysToDB
  cases he : encryptKeys entropy am with
  | error e0 => simp
  | ok r =>
    obtain ⟨encPub, encPriv, salt⟩ := r
    cases ht : saveKeysTx env am.db encPub encPriv salt with
    | error e0 => simp [ht]
    | ok db1 =>
      simp only [ht]
      obtain ⟨pubKeyBz, privateKeyBz, hp, hs, hr, hlen, h1, h2⟩ := encryptKeys_ok he
      obtain ⟨hcommit, hdb⟩ := saveKeysTx_ok ht
      obtain ⟨k1, k2, k3, k4⟩ := DB.commit_keys am.db encPub encPriv salt
      rw [← hdb] at k1 k2 k3 k4
      refine ⟨fun _ => ⟨pubKeyBz, privateKeyBz, salt, encPub, encPriv, hp, hs, hr, hlen, h1, h2,
        hcommit, k1, k2, k3, k4⟩, ?_⟩
      intro e h
      simp at h

/-- Claim C16 on concrete runs: a successful save on a store that holds old
keys, and a save whose commit fails on the same store. -/
theorem SaveKeysToDB_all_or_nothing_witness :
    (SaveKeysToDB testEntropy (testMachine [("public_key", [1]), ("salt_key", [2])])).1 = .ok () ∧
    (SaveKeysToDB testEntropy (testMachine [("public_key", [1]), ("salt_key", [2])])).2.db.lookup
      saltDBKey = some ((List.range 32).map (fun i => 7 + i)) ∧
    (SaveKeysToDB testEntropy (commitDownMachine [("public_key", [1]), ("salt_key", [2])])).1
      = .error ["failed to commit tx for saving keys into db", "disk full"] ∧
    (SaveKeysToDB testEntropy (commitDownMachine [("public_key", [1]), ("salt_key", [2])])).2.db
      = [("public_key", [1]), ("salt_key", [2])] :=
  ⟨by decide,
    by
      obtain ⟨_, _, salt, _, _, _, _, hr, _, _, _, _, _, _, hs, _⟩ :=
        (SaveKeysToDB_all_or_nothing testAirEnv testEntropy
          (testMachine [("public_key", [1]), ("salt_key", [2])])).1 (by decide)
      rw [hs]
      have hread : testEntropy.read 32 = .ok ((List.range 32).map (fun i => 7 + i)) := rfl
      rw [hread] at hr
      cases hr
      rfl,
    by decide, by decide⟩


/-- `putRoundOperationLog` writes under `operations_log` only. -/
theorem putRoundOperationLog_frame {env : AirEnv} (am : Machine env) (log : RoundOperationLog)
    {key : String} (hk : key ≠ operationsLogDBKey) :
    (putRoundOperationLog am log).2.db.lookup key = am.db.lookup key := by
  unfold putRoundOperationLog dbPut
  cases hm : env.MarshalLog log with
  | error e => simp
  | ok bz =>
    cases hp : env.faults.Put am.db operationsLogDBKey bz with
    | some e => simp [hp]
    | none =>
      simp only [hp]
      exact DB.lookup_put_ne _ _ hk

theorem storeOperation_frame {env : AirEnv} (am : Machine env) (o : Operation)
    {key : String} (hk : key ≠ operationsLogDBKey) :
    (storeOperation am o).2.db.lookup key = am.db.lookup key := by
  unfold storeOperation
  cases hg : getRoundOperationLog am with
  | error e => simp
  | ok log => exact putRoundOperationLog_frame am _ hk

theorem dropRoundOperationLog_frame {env : AirEnv} (am : Machine env) (id : String)
    {key : String} (hk : key ≠ operationsLogDBKey) :
    (dropRoundOperationLog am id).2.db.lookup key = am.db.lookup key := by
  unfold dropRoundOperationLog
  cases hg : getRoundOperationLog am with
  | error e => simp
  | ok log => exact putRoundOperationLog_frame am _ hk

theorem SaveKeysToDB_frame {env : AirEnv} (entropy : Entropy) (am : Machine env)
    {key : String} (h1 : key ≠ pubKeyDBKey) (h2 : key ≠ privateKeyDBKey)
    (h3 : key ≠ saltDBKey) :
    (SaveKeysToDB entropy am).2.db.lookup key = am.db.lookup key := by
  unfold SaveKeysToDB
  cases he : encryptKeys entropy am with
  | error e0 => simp
  | ok r =>
    obtain ⟨encPub, encPriv, salt⟩ := r
    cases ht : saveKeysTx env am.db encPub encPriv salt with
    | error e0 => simp [ht]
    | ok db1 =>
      simp only [ht]
      rw [(saveKeysTx_ok ht).2]
      exact (DB.commit_keys am.db encPub encPriv salt).2.2.2 key h1 h2 h3

/-- `storeBaseSeed` puts the seed under `base_seed_key`, or fails and leaves
the machine as it was. -/
theorem storeBaseSeed_cases {env : AirEnv} (am : Machine env) (seed : Bytes) :
    (env.faults.Put am.db baseSeedKey seed = none ∧
      storeBaseSeed am seed = (.ok (), { am with db := am.db.put baseSeedKey seed })) ∨
    (∃ e, env.faults.Put am.db baseSeedKey seed = some e ∧
      storeBaseSeed am seed = (.error (wrap "failed to put baseSeed" e), am)) := by
  unfold storeBaseSeed dbPut
  cases hp : env.faults.Put am.db baseSeedKey seed with
  | none => exact Or.inl ⟨rfl, rfl⟩
  | some e => exact Or.inr ⟨e, rfl, rfl⟩

/-- `generateBaseSeed` ends in one of three ways: the read of the random
source fails, the put fails, or the seed read is stored. -/
theorem generateBaseSeed_cases {env : AirEnv} (entropy : Entropy) (am : Machine env) :
    (∃ e, (generateBaseSeed entropy am) = (.error e, am)) ∨
    (∃ seed, entropy.read env.seedSize = .ok seed ∧
      env.faults.Put am.db baseSeedKey seed = none ∧
      generateBaseSeed entropy am = (.ok seed, { am with db := am.db.put baseSeedKey seed })) := by
  unfold generateBaseSeed
  cases hr : entropy.read env.seedSize with
  | error e => exact Or.inl ⟨_, rfl⟩
  | ok seed =>
    rcases storeBaseSeed_cases am seed with ⟨hp, hs⟩ | ⟨e, hp, hs⟩
    · exact Or.inr ⟨seed, rfl, hp, by simp [hs]⟩
    · exact Or.inl ⟨wrap "failed to storeBaseSeed" (wrap "failed to put baseSeed" e),
        by simp [hs]⟩

/-- `loadBaseSeed` ends in one of three ways: it fails and leaves the machine
as it was; it sets the seed that the store holds and leaves the store as it
was; it generates a seed, puts it under `base_seed_key` and sets it. -/
theorem loadBaseSeed_cases {env : AirEnv} (entropy : Entropy) (am : Machine env) :
    (∃ e, loadBaseSeed entropy am = (.error e, am)) ∨
    (∃ seed, am.db.lookup baseSeedKey = some seed ∧
      env.faults.Get am.db baseSeedKey = none ∧
      loadBaseSeed entropy am = (.ok (), setBaseSeed am seed)) ∨
    (∃ seed, entropy.read env.seedSize = .ok seed ∧
      loadBaseSeed entropy am =
        (.ok (), setBaseSeed { am with db := am.db.put baseSeedKey seed } seed)) := by
  unfold loadBaseSeed getBaseSeed dbGet
  cases hf : env.faults.Get am.db baseSeedKey with
  | some e0 =>
    simp only [wrapExcept]
    split
    · rcases generateBaseSeed_cases entropy am with ⟨e, hg⟩ | ⟨seed, hr, -, hg⟩
      · exact Or.inl ⟨e, by simp [hg]⟩
      · exact Or.inr (Or.inr ⟨seed, hr, by simp [hg]⟩)
    · exact Or.inl ⟨_, rfl⟩
  | none =>
    cases hl : am.db.lookup baseSeedKey with
    | some seed => exact Or.inr (Or.inl ⟨seed, rfl, rfl, by simp [wrapExcept]⟩)
    | none =>
      simp only [wrapExcept]
      split
      · rcases generateBaseSeed_cases entropy am with ⟨e, hg⟩ | ⟨seed, hr, -, hg⟩
        · exact Or.inl ⟨e, by simp [hg]⟩
        · exact Or.inr (Or.inr ⟨seed, hr, by simp [hg]⟩)
      · exact Or.inl ⟨_, rfl⟩

theorem loadBaseSeed_frame {env : AirEnv} (entropy : Entropy) (am : Machine env)
    {key : String} (hk : key ≠ baseSeedKey) :
    (loadBaseSeed entropy am).2.db.lookup key = am.db.lookup key := by
  rcases loadBaseSeed_cases entropy am with ⟨e, h⟩ | ⟨seed, -, -, h⟩ | ⟨seed, -, h⟩
  · rw [h]
  · rw [h]
    rfl
  · rw [h]
    exact DB.lookup_put_ne _ _ hk

/-- Claim C17, the counterexample. The string `base_seed` is not a key of the
store: the constant `baseSeedKey` is another string, and a generated base
seed is found under `base_seed_key`, nothing under `base_seed`. -/
theorem base_seed_is_not_a_store_key :
    baseSeedKey ≠ "base_seed" ∧ "base_seed" ∉ storeKeys ∧
    (loadBaseSeed testEntropy (testMachine [])).1 = .ok () ∧
    (loadBaseSeed testEntropy (testMachine [])).2.db.lookup "base_seed" = none ∧
    (loadBaseSeed testEntropy (testMachine [])).2.db.lookup "base_seed_key"
      = some [7, 8, 9, 10] := by
  decide

/-- Claim C17, amended (persisted key layout). The byte keys of the offline
store are exactly the strings `base_seed_key`, `public_key`, `private_key`,
`salt_key` and `operations_log`: these are the five key constants, they
differ from one another, and the writing methods `loadBaseSeed`,
`storeOperation`, `dropRoundOperationLog` and `SaveKeysToDB` leave the value
of every other key as it was. -/
theorem store_key_layout (env : AirEnv) (entropy : Entropy) (am : Machine env) (o : Operation)
    (id : String) :
    (baseSeedKey = "base_seed_key" ∧ pubKeyDBKey = "public_key" ∧
      privateKeyDBKey = "private_key" ∧ saltDBKey = "salt_key" ∧
      operationsLogDBKey = "operations_log") ∧
    (∀ key, key ∈ storeKeys ↔ key = "base_seed_key" ∨ key = "public_key" ∨
      key = "private_key" ∨ key = "salt_key" ∨ key = "operations_log") ∧
    storeKeys.Nodup ∧
    (∀ key, key ∉ storeKeys →
      (loadBaseSeed entropy am).2.db.lookup key = am.db.lookup key ∧
      (storeOperation am o).2.db.lookup key = am.db.lookup key ∧
      (dropRoundOperationLog am id).2.db.lookup key = am.db.lookup key ∧
      (SaveKeysToDB entropy am).2.db.lookup key = am.db.lookup key) := by
  refine ⟨⟨rfl, rfl, rfl, rfl, rfl⟩, ?_, by decide, ?_⟩
  · intro key
    simp only [storeKeys, pubKeyDBKey, privateKeyDBKey, saltDBKey, baseSeedKey,
      operationsLogDBKey, List.mem_cons, List.mem_singleton, List.not_mem_nil, or_false]
    tauto
  · intro key hk
    simp only [storeKeys, List.mem_cons, List.not_mem_nil, or_false, not_or] at hk
    obtain ⟨h1, h2, h3, h4, h5⟩ := hk
    exact ⟨loadBaseSeed_frame entropy am h4, storeOperation_frame am o h5,
      dropRoundOperationLog_frame am id h5, SaveKeysToDB_frame entropy am h1 h2 h3⟩

/-- A successful `loadBaseSeed` leaves a machine whose seed is the one the
store holds, with the suite built from it. -/
theorem loadBaseSeed_ok_stored {env : AirEnv} {entropy : Entropy} {am : Machine env}
    (h : (loadBaseSeed entropy am).1 = .ok ()) :
    (loadBaseSeed entropy am).2.db.lookup baseSeedKey = some (loadBaseSeed entropy am).2.baseSeed ∧
    (loadBaseSeed entropy am).2.baseSuite =
      env.NewBLS12381Suite (loadBaseSeed entropy am).2.baseSeed := by
  rcases loadBaseSeed_cases entropy am with ⟨e, h1⟩ | ⟨seed, hl, -, h1⟩ | ⟨seed, -, h1⟩
  · rw [h1] at h
    cases h
  · rw [h1]
    exact ⟨hl, rfl⟩
  · rw [h1]
    exact ⟨DB.lookup_put_self _ _ _, rfl⟩

/-- With a `Get` that does not fail, `loadBaseSeed` on a store that holds a
seed sets that seed and leaves the store as it was. -/
theorem loadBaseSeed_of_stored {env : AirEnv} (entropy : Entropy) {am : Machine env}
    {seed : Bytes} (hget : env.faults.Get am.db baseSeedKey = none)
    (hl : am.db.lookup baseSeedKey = some seed) :
    loadBaseSeed entropy am = (.ok (), setBaseSeed am seed) := by
  unfold loadBaseSeed getBaseSeed dbGet
  simp [hget, hl, wrapExcept]

/-- The length of what `rand.Read` filled is the length asked for. -/
theorem Entropy.read_length {entropy : Entropy} {n : Nat} {bz : Bytes}
    (h : entropy.read n = .ok bz) : bz.length = n := by
  unfold Entropy.read at h
  cases hf : entropy.failure with
  | some e => simp [hf] at h
  | none =>
    simp only [hf, Except.ok.injEq] at h
    rw [← h]
    simp

/-- Claim C18 (load-or-generate base seed). On a store whose `Get` of the
seed does not fail: if the store holds a base seed, `loadBaseSeed` sets the
machine's `baseSeed` to it and leaves the store as it was; if the store holds
none, `getBaseSeed` returns the wrapped `leveldb.ErrNotFound`, and
`loadBaseSeed` reads `seedSize` random bytes, puts them under
`base_seed_key` and sets `baseSeed` to them; and after a successful
`loadBaseSeed` a second one, whatever the random source, succeeds, writes
nothing and yields the same `baseSeed`. -/
theorem loadBaseSeed_load_or_generate (env : AirEnv) (entropy : Entropy) (am : Machine env)
    (hget : env.faults.Get am.db baseSeedKey = none) :
    (∀ seed, am.db.lookup baseSeedKey = some seed →
      (loadBaseSeed entropy am).1 = .ok () ∧
      (loadBaseSeed entropy am).2.baseSeed = seed ∧
      (loadBaseSeed entropy am).2.baseSuite = env.NewBLS12381Suite seed ∧
      (loadBaseSeed entropy am).2.db = am.db) ∧
    (am.db.lookup baseSeedKey = none →
      getBaseSeed am = .error (wrap "failed to get baseSeed" ErrNotFound) ∧
      errorsIs (wrap "failed to get baseSeed" ErrNotFound) ErrNotFound = true ∧
      ∀ seed, entropy.read env.seedSize = .ok seed →
        env.faults.Put am.db baseSeedKey seed = none →
          seed.length = env.seedSize ∧
          (loadBaseSeed entropy am).1 = .ok () ∧
          (loadBaseSeed entropy am).2.baseSeed = seed ∧
          (loadBaseSeed entropy am).2.baseSuite = env.NewBLS12381Suite seed ∧
          (loadBaseSeed entropy am).2.db = am.db.put baseSeedKey seed ∧
          (loadBaseSeed entropy am).2.db.lookup baseSeedKey = some seed) ∧
    (∀ second : Entropy, (loadBaseSeed entropy am).1 = .ok () →
      env.faults.Get (loadBaseSeed entropy am).2.db baseSeedKey = none →
        (loadBaseSeed second (loadBaseSeed entropy am).2).1 = .ok () ∧
        (loadBaseSeed second (loadBaseSeed entropy am).2).2.baseSeed
          = (loadBaseSeed entropy am).2.baseSeed ∧
        (loadBaseSeed second (loadBaseSeed entropy am).2).2.db
          = (loadBaseSeed entropy am).2.db) := by
  refine ⟨?_, ?_, ?_⟩
  · intro seed hl
    rw [loadBaseSeed_of_stored entropy hget hl]
    exact ⟨rfl, rfl, rfl, rfl⟩
  · intro hl
    have hgb : getBaseSeed am = .error (wrap "failed to get baseSeed" ErrNotFound) := by
      unfold getBaseSeed dbGet
      simp [hget, hl, wrapExcept]
    refine ⟨hgb, by decide, ?_⟩
    intro seed hr hp
    have hload : loadBaseSeed entropy am =
        (.ok (), setBaseSeed { am with db := am.db.put baseSeedKey seed } seed) := by
      unfold loadBaseSeed
      rw [hgb]
      have hgen : generateBaseSeed entropy am =
          (.ok seed, { am with db := am.db.put baseSeedKey seed }) := by
        unfold generateBaseSeed storeBaseSeed dbPut
        simp [hr, hp]
      simp only [show errorsIs (wrap "failed to get baseSeed" ErrNotFound) ErrNotFound = true
        from by decide, if_true, hgen]
    rw [hload]
    exact ⟨Entropy.read_length hr, rfl, rfl, rfl, rfl, DB.lookup_put_self _ _ _⟩
  · intro second hok hget1
    rw [loadBaseSeed_of_stored second hget1 (loadBaseSeed_ok_stored hok).1]
    exact ⟨rfl, rfl, rfl⟩

theorem loadBaseSeed_load_or_generate_witness :
    testAirEnv.faults.Get (testMachine []).db baseSeedKey = none ∧
    ((∀ seed, (testMachine []).db.lookup baseSeedKey = some seed →
        (loadBaseSeed testEntropy (testMachine [])).1 = .ok () ∧
        (loadBaseSeed testEntropy (testMachine [])).2.baseSeed = seed ∧
        (loadBaseSeed testEntropy (testMachine [])).2.baseSuite
          = testAirEnv.NewBLS12381Suite seed ∧
        (loadBaseSeed testEntropy (testMachine [])).2.db = (testMachine []).db) ∧
      ((testMachine []).db.lookup baseSeedKey = none →
        getBaseSeed (testMachine []) = .error (wrap "failed to get baseSeed" ErrNotFound) ∧
        errorsIs (wrap "failed to get baseSeed" ErrNotFound) ErrNotFound = true ∧
        ∀ seed, testEntropy.read testAirEnv.seedSize = .ok seed →
          testAirEnv.faults.Put (testMachine []).db baseSeedKey seed = none →
            seed.length = testAirEnv.seedSize ∧
            (loadBaseSeed testEntropy (testMachine [])).1 = .ok () ∧
            (loadBaseSeed testEntropy (testMachine [])).2.baseSeed = seed ∧
            (loadBaseSeed testEntropy (testMachine [])).2.baseSuite
              = testAirEnv.NewBLS12381Suite seed ∧
            (loadBaseSeed testEntropy (testMachine [])).2.db
              = (testMachine []).db.put baseSeedKey seed ∧
            (loadBaseSeed testEntropy (testMachine [])).2.db.lookup baseSeedKey = some seed) ∧
      (∀ second : Entropy, (loadBaseSeed testEntropy (testMachine [])).1 = .ok () →
        testAirEnv.faults.Get (loadBaseSeed testEntropy (testMachine [])).2.db baseSeedKey
          = none →
          (loadBaseSeed second (loadBaseSeed testEntropy (testMachine [])).2).1 = .ok () ∧
          (loadBaseSeed second (loadBaseSeed testEntropy (testMachine [])).2).2.baseSeed
            = (loadBaseSeed testEntropy (testMachine [])).2.baseSeed ∧
          (loadBaseSeed second (loadBaseSeed testEntropy (testMachine [])).2).2.db
            = (loadBaseSeed testEntropy (testMachine [])).2.db)) ∧
    (loadBaseSeed testEntropy (testMachine [])).2.baseSeed = [7, 8, 9, 10] ∧
    (loadBaseSeed otherEntropy (loadBaseSeed testEntropy (testMachine [])).2).2.baseSeed
      = [7, 8, 9, 10] ∧
    (loadBaseSeed otherEntropy (testMachine [])).2.baseSeed = [20, 21, 22, 23] :=
  ⟨by decide, loadBaseSeed_load_or_generate testAirEnv testEntropy (testMachine []) (by decide),
    by decide, by decide, by decide⟩


/-- Claim C19 (timeout cancellation in the DKG-proposal transition table).
In the PubKeys, Commits, Responses and MasterKey phases the internal
cancel-by-timeout event has the phase's `AwaitConfirmations` state as its
only source and the phase's `AwaitCanceledByTimeout` state as its
destination. In the Deals phase it does not: the one entry for
`eventDKGDealsConfirmationCancelByTimeoutInternal` has
`StateDkgDealsAwaitConfirmations` as source and as destination, and no entry
of the table leads to `StateDkgDealsAwaitCanceledByTimeout` unless that is the
library's done state. -/
theorem deals_timeout_event_keeps_state (StateGlobalDone : String) :
    timeoutCancels (DKGProposalFSM.events StateGlobalDone) StateDkgPubKeysAwaitConfirmations
      eventDKGSetPubKeysConfirmationCanceledByTimeoutInternal
      StateDkgPubKeysAwaitCanceledByTimeout = true ∧
    timeoutCancels (DKGProposalFSM.events StateGlobalDone) StateDkgCommitsAwaitConfirmations
      eventDKGCommitsConfirmationCancelByTimeoutInternal
      StateDkgCommitsAwaitCanceledByTimeout = true ∧
    timeoutCancels (DKGProposalFSM.events StateGlobalDone) StateDkgResponsesAwaitConfirmations
      eventDKGResponseConfirmationCancelByTimeoutInternal
      StateDkgResponsesAwaitCanceledByTimeout = true ∧
    timeoutCancels (DKGProposalFSM.events StateGlobalDone) StateDkgMasterKeyAwaitConfirmations
      eventDKGMasterKeyConfirmationCancelByTimeoutInternal
      StateDkgMasterKeyAwaitCanceledByTimeout = true ∧
    timeoutCancels (DKGProposalFSM.events StateGlobalDone) StateDkgDealsAwaitConfirmations
      eventDKGDealsConfirmationCancelByTimeoutInternal
      StateDkgDealsAwaitCanceledByTimeout = false ∧
    eventsNamed (DKGProposalFSM.events StateGlobalDone)
      eventDKGDealsConfirmationCancelByTimeoutInternal =
      [{ Name := eventDKGDealsConfirmationCancelByTimeoutInternal,
         SrcState := [StateDkgDealsAwaitConfirmations],
         DstState := StateDkgDealsAwaitConfirmations, IsInternal := true }] ∧
    StateDkgDealsAwaitConfirmations ≠ StateDkgDealsAwaitCanceledByTimeout ∧
    (∀ e ∈ DKGProposalFSM.events StateGlobalDone,
      e.DstState = StateDkgDealsAwaitCanceledByTimeout →
        e.Name = eventDKGMasterKeyConfirmedInternal ∧
        StateGlobalDone = StateDkgDealsAwaitCanceledByTimeout) := by
  refine ⟨rfl, rfl, rfl, rfl, rfl, rfl, by decide, ?_⟩
  intro e he hd
  simp only [DKGProposalFSM.events, List.mem_cons, List.mem_singleton, List.not_mem_nil,
    or_false] at he
  rcases he with h | h | h | h | h | h | h | h | h | h | h | h | h | h | h | h | h | h | h | h |
    h | h | h | h | h
  all_goals subst h
  all_goals first
    | exact ⟨rfl, hd⟩
    | exact absurd hd (by decide)


/-! ## Processing of deals -/

theorem commitsMatch_nil_left {Point : Type} (Equal : Point → Point → Bool)
    (commitments : List Point) : commitsMatch Equal [] commitments ↔ commitments = [] := by
  unfold commitsMatch
  constructor
  · rintro ⟨hlen, -⟩
    exact List.length_eq_zero.1 hlen.symm
  · rintro rfl
    exact ⟨rfl, fun i hi => absurd hi (Nat.not_lt_zero i)⟩

theorem commitsMatch_cons_nil {Point : Type} (Equal : Point → Point → Bool)
    (s : Option Point) (stored : List (Option Point)) :
    ¬ commitsMatch Equal (s :: stored) [] := by
  rintro ⟨hlen, -⟩
  simp at hlen

theorem commitsMatch_cons {Point : Type} (Equal : Point → Point → Bool)
    (s : Option Point) (stored : List (Option Point)) (c : Point) (commitments : List Point) :
    commitsMatch Equal (s :: stored) (c :: commitments) ↔
      (∃ p, s = some p ∧ Equal p c = true) ∧ commitsMatch Equal stored commitments := by
  unfold commitsMatch
  constructor
  · rintro ⟨hlen, hall⟩
    refine ⟨?_, ?_, ?_⟩
    · obtain ⟨p, c0, hp, hc, he⟩ := hall 0 (by simp)
      simp only [List.get?_cons_zero, Option.some.injEq] at hp hc
      subst hc
      exact ⟨p, hp, he⟩
    · simpa using hlen
    · intro i hi
      obtain ⟨p, c0, hp, hc, he⟩ := hall (i + 1) (by simpa using hi)
      simp only [List.get?_cons_succ] at hp hc
      exact ⟨p, c0, hp, hc, he⟩
  · rintro ⟨⟨p, hs, he⟩, hlen, hall⟩
    refine ⟨by simpa using hlen, ?_⟩
    intro i hi
    cases i with
    | zero => exact ⟨p, c, by simp [hs], by simp, he⟩
    | succ i =>
      obtain ⟨p0, c0, hp, hc, he0⟩ := hall i (by simpa using hi)
      exact ⟨p0, c0, by simpa using hp, by simpa using hc, he0⟩

/-- The three checks of `processDealCommits` after the look-up, all casts,
the lengths and the comparison, pass exactly for commitments that match the
stored commits. -/
theorem checks_pass_iff {Point : Type} (Equal : Point → Point → Bool) :
    ∀ (stored : List (Option Point)) (commitments : List Point),
      (∃ originalCommits, castCommits stored = some originalCommits ∧
        originalCommits.length = commitments.length ∧
        commitsEqual Equal originalCommits commitments = true) ↔
      commitsMatch Equal stored commitments := by
  intro stored
  induction stored with
  | nil =>
    intro commitments
    rw [commitsMatch_nil_left]
    constructor
    · rintro ⟨orig, hc, hlen, -⟩
      simp only [castCommits, Option.some.injEq] at hc
      subst hc
      exact List.length_eq_zero.1 hlen.symm
    · rintro rfl
      exact ⟨[], rfl, rfl, rfl⟩
  | cons s stored ih =>
    intro commitments
    cases commitments with
    | nil =>
      constructor
      · rintro ⟨orig, hc, hlen, -⟩
        have horig : orig = [] := List.length_eq_zero.1 hlen
        subst horig
        cases s with
        | none => simp [castCommits] at hc
        | some p =>
          cases hr : castCommits stored with
          | none => simp [castCommits, hr] at hc
          | some l => simp [castCommits, hr] at hc
      · intro h
        exact absurd h (commitsMatch_cons_nil Equal s stored)
    | cons c commitments =>
      rw [commitsMatch_cons, ← ih commitments]
      cases s with
      | none =>
        constructor
        · rintro ⟨orig, hc, -⟩
          simp [castCommits] at hc
        · rintro ⟨⟨p, hp, -⟩, -⟩
          cases hp
      | some p =>
        constructor
        · rintro ⟨orig, hc, hlen, heq⟩
          cases hr : castCommits stored with
          | none => simp [castCommits, hr] at hc
          | some l =>
            simp only [castCommits, hr, Option.some.injEq] at hc
            subst hc
            simp only [commitsEqual] at heq
            cases he : Equal p c with
            | false => simp [he] at heq
            | true =>
              simp only [he, Bool.not_true, Bool.false_eq_true, if_false] at heq
              exact ⟨⟨p, rfl, he⟩, l, rfl, by simpa using hlen, heq⟩
        · rintro ⟨⟨p0, hp, he⟩, l, hr, hlen, heq⟩
          cases hp
          refine ⟨p :: l, by simp [castCommits, hr], by simpa using hlen, ?_⟩
          simp [commitsEqual, he, heq]

/-- For a deal that decrypts, `processDealCommits` returns true and no error
exactly when commits are stored for the dealer and the decrypted commitments
match them. -/
theorem processDealCommits_accepts_iff {env : DKGEnv} (d : DKG env) (verifier : env.Verifier)
    (deal : env.Deal) (commitments : List env.Point)
    (hdec : env.DecryptDeal verifier deal = .ok commitments) :
    processDealCommits d verifier deal = (true, none) ↔
      ∃ stored, d.commits.lookup (env.Index deal) = some stored ∧
        commitsMatch env.Equal stored commitments := by
  unfold processDealCommits
  rw [hdec]
  cases hl : d.commits.lookup (env.Index deal) with
  | none => simp
  | some stored =>
    simp only [Option.some.injEq, exists_eq_left']
    rw [← checks_pass_iff]
    cases hc : castCommits stored with
    | none => simp
    | some orig =>
      simp only [Option.some.injEq, exists_eq_left']
      by_cases hlen : orig.length = commitments.length
      · cases he : commitsEqual env.Equal orig commitments with
        | true => simp [hlen]
        | false => simp [hlen]
      · simp [hlen]

/-- Whatever `processDealCommits` returns other than true without an error
has the value false. -/
theorem processDealCommits_rejects {env : DKGEnv} (d : DKG env) (verifier : env.Verifier)
    (deal : env.Deal) (h : processDealCommits d verifier deal ≠ (true, none)) :
    (processDealCommits d verifier deal).1 = false := by
  unfold processDealCommits at h ⊢
  cases hdec : env.DecryptDeal verifier deal with
  | error e => rfl
  | ok commitments =>
    cases hl : d.commits.lookup (env.Index deal) with
    | none => rfl
    | some stored =>
      cases hc : castCommits stored with
      | none => simp [hc]
      | some orig =>
        simp only [hdec, hl, hc] at h ⊢
        by_cases hlen : orig.length = commitments.length
        · cases he : commitsEqual env.Equal orig commitments with
          | true => simp [hlen, he] at h
          | false => simp [hlen]
        · simp [hlen]

/-- `processDealCommits` reads the stored commits only. -/
theorem processDealCommits_instance {env : DKGEnv} (d : DKG env) (inst : env.Instance)
    (verifier : env.Verifier) (deal : env.Deal) :
    processDealCommits { d with instance_ := inst } verifier deal
      = processDealCommits d verifier deal := rfl

/-- A deal that the loop visits and does not skip, and that
`processDealCommits` does not accept, ends the loop with an error. -/
theorem processDealsLoop_rejected {env : DKGEnv} (d : DKG env) (key : String) (deal : env.Deal)
    (rest : List (String × env.Deal))
    (hidx : env.Index deal ≠ uint32 d.participantID)
    (hrej : processDealCommits d
      (env.Verifiers (env.ProcessDeal d.instance_ deal).2 (env.Index deal)) deal ≠ (true, none)) :
    ∃ err, (processDealsLoop d ((key, deal) :: rest)).1 = some err := by
  have hfst := processDealCommits_rejects d _ deal hrej
  rw [processDealsLoop, if_neg hidx]
  rcases hp : env.ProcessDeal d.instance_ deal with ⟨r, inst⟩
  rw [hp] at hfst
  cases r with
  | error e => exact ⟨e, rfl⟩
  | ok status =>
    simp only [processDealCommits_instance]
    rcases hc : processDealCommits d (env.Verifiers inst (env.Index deal)) deal with ⟨ok, err⟩
    rw [hc] at hfst
    simp only at hfst
    subst hfst
    cases err with
    | some e => exact ⟨e, rfl⟩
    | none => exact ⟨["failed to process deals"], by simp⟩

/-- A loop that ends without an error accepted every deal it did not
skip, under the verifier it used. -/
theorem processDealsLoop_ok {env : DKGEnv} :
    ∀ (deals : List (String × env.Deal)) (d : DKG env),
      (processDealsLoop d deals).1 = none →
      ∀ p ∈ deals, env.Index p.2 ≠ uint32 d.participantID →
        ∃ inst, processDealCommits d (env.Verifiers inst (env.Index p.2)) p.2 = (true, none) := by
  intro deals
  induction deals with
  | nil =>
    intro d _ p hp
    cases hp
  | cons entry rest ih =>
    intro d hok p hp hidx
    obtain ⟨key, deal⟩ := entry
    by_cases hskip : env.Index deal = uint32 d.participantID
    · rw [processDealsLoop, if_pos hskip] at hok
      rcases List.mem_cons.1 hp with rfl | hmem
      · exact absurd hskip hidx
      · exact ih d hok p hmem hidx
    · by_cases hacc : processDealCommits d
          (env.Verifiers (env.ProcessDeal d.instance_ deal).2 (env.Index deal)) deal = (true, none)
      · rcases List.mem_cons.1 hp with rfl | hmem
        · exact ⟨_, hacc⟩
        · rw [processDealsLoop, if_neg hskip] at hok
          rcases hpd : env.ProcessDeal d.instance_ deal with ⟨r, inst⟩
          rw [hpd] at hok hacc
          cases r with
          | error e => simp at hok
          | ok status =>
            simp only [processDealCommits_instance, hacc] at hok
            cases status with
            | false => simp at hok
            | true =>
              simp only [Bool.not_true, Bool.or_self, Bool.false_eq_true, if_false] at hok
              exact ih { d with instance_ := inst } hok p hmem hidx
      · obtain ⟨err, herr⟩ := processDealsLoop_rejected d key deal rest hskip hacc
        rw [herr] at hok
        cases hok

/-- Claim C20 (commit consistency). For every deal that decrypts,
`processDealCommits` returns true with no error if and only if commits are
stored for the dealer's index and the decrypted `Commitments` have the length
of the stored commits and are element-wise `Equal` to them; whatever else it
returns has the value false; a deal that `processDeals` visits, does not
skip as its own, and that `processDealCommits` does not accept makes
`processDeals` return an error; so a `processDeals` that returns no error
accepted every deal of another dealer. -/
theorem commit_consistency (env : DKGEnv) :
    (∀ (d : DKG env) (verifier : env.Verifier) (deal : env.Deal) (commitments : List env.Point),
      env.DecryptDeal verifier deal = .ok commitments →
        (processDealCommits d verifier deal = (true, none) ↔
          ∃ stored, d.commits.lookup (env.Index deal) = some stored ∧
            commitsMatch env.Equal stored commitments)) ∧
    (∀ (d : DKG env) (verifier : env.Verifier) (deal : env.Deal),
      processDealCommits d verifier deal ≠ (true, none) →
        (processDealCommits d verifier deal).1 = false) ∧
    (∀ (d : DKG env) (key : String) (deal : env.Deal) (rest : List (String × env.Deal)),
      env.Index deal ≠ uint32 d.participantID →
      processDealCommits d
        (env.Verifiers (env.ProcessDeal d.instance_ deal).2 (env.Index deal)) deal
          ≠ (true, none) →
        ∃ err, (processDealsLoop d ((key, deal) :: rest)).1 = some err) ∧
    (∀ (d : DKG env), (processDeals d).1 = none →
      ∀ p ∈ d.deals, env.Index p.2 ≠ uint32 d.participantID →
        ∃ inst, processDealCommits d (env.Verifiers inst (env.Index p.2)) p.2 = (true, none)) :=
  ⟨processDealCommits_accepts_iff, processDealCommits_rejects, processDealsLoop_rejected,
    fun d h => processDealsLoop_ok d.deals d h⟩

/-- Claim C20 on concrete runs: matching deals pass, a deal whose second
commitment differs, a deal of a dealer without stored commits and a deal that
is too short make `processDeals` fail, and the participant's own deal is
skipped. -/
theorem commit_consistency_witness :
    (processDeals (testDKG [("a", (1, [5, 6])), ("b", (2, [8]))])).1 = none ∧
    (processDeals (testDKG [("a", (1, [5, 7])), ("b", (2, [8]))])).1
      = some ["commits are different"] ∧
    (processDeals (testDKG [("b", (2, [8])), ("c", (3, [1]))])).1
      = some ["failed to process deals"] ∧
    (processDeals (testDKG [("a", (1, [5]))])).1
      = some ["number of original commitments and number of commitments in the deal are not met"] ∧
    (processDeals (testDKG [("self", (0, [9]))])).1 = none ∧
    (processDealCommits (testDKG []) (1 : Nat) ((1, [5, 6]) : Nat × List Nat) = (true, none) ↔
      ∃ stored, (testDKG []).commits.lookup (testDKGEnv.Index ((1, [5, 6]) : Nat × List Nat))
          = some stored ∧
        commitsMatch testDKGEnv.Equal stored ([5, 6] : List Nat)) :=
  ⟨by decide, by decide, by decide, by decide, by decide,
    (commit_consistency testDKGEnv).1 (testDKG []) (1 : Nat) ((1, [5, 6]) : Nat × List Nat)
      ([5, 6] : List Nat) rfl⟩


/-- Claim C21 (linear phases of the DKG-proposal FSM). The initial state is
`StateDkgPubKeysAwaitConfirmations`; the five internal phase-confirmed events
lead from the `AwaitConfirmations` state of PubKeys to that of Commits, of
Commits to Deals, of Deals to Responses, of Responses to MasterKey, and from
`StateDkgMasterKeyAwaitConfirmations` to the library's done state; each
external `ConfirmationReceived` event is a self-loop on its phase's
`AwaitConfirmations` state, and each external `ConfirmationError` event leads
from that state to the phase's `AwaitCanceled` state. -/
theorem linear_phases (StateGlobalDone : String) :
    DKGProposalFSM.initialState = StateDkgPubKeysAwaitConfirmations ∧
    (transitionIs (DKGProposalFSM.events StateGlobalDone) eventDKGSetPubKeysConfirmedInternal
        StateDkgPubKeysAwaitConfirmations StateDkgCommitsAwaitConfirmations true = true ∧
      transitionIs (DKGProposalFSM.events StateGlobalDone) eventDKGCommitsConfirmedInternal
        StateDkgCommitsAwaitConfirmations StateDkgDealsAwaitConfirmations true = true ∧
      transitionIs (DKGProposalFSM.events StateGlobalDone) eventDKGDealsConfirmedInternal
        StateDkgDealsAwaitConfirmations StateDkgResponsesAwaitConfirmations true = true ∧
      transitionIs (DKGProposalFSM.events StateGlobalDone) eventDKGResponsesConfirmedInternal
        StateDkgResponsesAwaitConfirmations StateDkgMasterKeyAwaitConfirmations true = true ∧
      transitionIs (DKGProposalFSM.events StateGlobalDone) eventDKGMasterKeyConfirmedInternal
        StateDkgMasterKeyAwaitConfirmations StateGlobalDone true = true) ∧
    (transitionIs (DKGProposalFSM.events StateGlobalDone) EventDKGPubKeyConfirmationReceived
        StateDkgPubKeysAwaitConfirmations StateDkgPubKeysAwaitConfirmations false = true ∧
      transitionIs (DKGProposalFSM.events StateGlobalDone) EventDKGCommitConfirmationReceived
        StateDkgCommitsAwaitConfirmations StateDkgCommitsAwaitConfirmations false = true ∧
      transitionIs (DKGProposalFSM.events StateGlobalDone) EventDKGDealConfirmationReceived
        StateDkgDealsAwaitConfirmations StateDkgDealsAwaitConfirmations false = true ∧
      transitionIs (DKGProposalFSM.events StateGlobalDone) EventDKGResponseConfirmationReceived
        StateDkgResponsesAwaitConfirmations StateDkgResponsesAwaitConfirmations false = true ∧
      transitionIs (DKGProposalFSM.events StateGlobalDone) EventDKGMasterKeyConfirmationReceived
        StateDkgMasterKeyAwaitConfirmations StateDkgMasterKeyAwaitConfirmations false = true) ∧
    (transitionIs (DKGProposalFSM.events StateGlobalDone) EventDKGPubKeyConfirmationError
        StateDkgPubKeysAwaitConfirmations StateDkgPubKeysAwaitCanceled false = true ∧
      transitionIs (DKGProposalFSM.events StateGlobalDone) EventDKGCommitConfirmationError
        StateDkgCommitsAwaitConfirmations StateDkgCommitsAwaitCanceled false = true ∧
      transitionIs (DKGProposalFSM.events StateGlobalDone) EventDKGDealConfirmationError
        StateDkgDealsAwaitConfirmations StateDkgDealsAwaitCanceled false = true ∧
      transitionIs (DKGProposalFSM.events StateGlobalDone) EventDKGResponseConfirmationError
        StateDkgResponsesAwaitConfirmations StateDkgResponsesAwaitCanceled false = true ∧
      transitionIs (DKGProposalFSM.events StateGlobalDone) EventDKGMasterKeyConfirmationError
        StateDkgMasterKeyAwaitConfirmations StateDkgMasterKeyAwaitCanceled false = true) := by
  refine ⟨rfl, ⟨rfl, rfl, rfl, rfl, ?_⟩, ⟨rfl, rfl, rfl, rfl, rfl⟩, ⟨rfl, rfl, rfl, rfl, rfl⟩⟩
  have hentry : eventsNamed (DKGProposalFSM.events StateGlobalDone)
      eventDKGMasterKeyConfirmedInternal =
      [{ Name := eventDKGMasterKeyConfirmedInternal,
         SrcState := [StateDkgMasterKeyAwaitConfirmations],
         DstState := StateGlobalDone, IsInternal := true }] := rfl
  simp [transitionIs, hentry]


/-! ## The types of the FSM payload -/

/-- Claim C24 (expiry predicate). For each of `SignatureConfirmation`,
`DKGConfirmation` and `SigningConfirmation`, `IsExpired` returns true exactly
when `ExpiresAt` is strictly earlier than `UpdatedAt`, so false when the two
instants are equal or `ExpiresAt` is later; and two values that agree on
`ExpiresAt` and `UpdatedAt` have the same result, whatever their other
fields. -/
theorem IsExpired_iff_expires_before_updated :
    (∀ c : internal.SignatureConfirmation,
      (c.IsExpired = true ↔ c.ExpiresAt < c.UpdatedAt) ∧
      (c.UpdatedAt ≤ c.ExpiresAt → c.IsExpired = false)) ∧
    (∀ c : internal.DKGConfirmation,
      (c.IsExpired = true ↔ c.ExpiresAt < c.UpdatedAt) ∧
      (c.UpdatedAt ≤ c.ExpiresAt → c.IsExpired = false)) ∧
    (∀ c : internal.SigningConfirmation,
      (c.IsExpired = true ↔ c.ExpiresAt < c.UpdatedAt) ∧
      (c.UpdatedAt ≤ c.ExpiresAt → c.IsExpired = false)) ∧
    (∀ c d : internal.SignatureConfirmation,
      c.ExpiresAt = d.ExpiresAt → c.UpdatedAt = d.UpdatedAt → c.IsExpired = d.IsExpired) ∧
    (∀ c d : internal.DKGConfirmation,
      c.ExpiresAt = d.ExpiresAt → c.UpdatedAt = d.UpdatedAt → c.IsExpired = d.IsExpired) ∧
    (∀ c d : internal.SigningConfirmation,
      c.ExpiresAt = d.ExpiresAt → c.UpdatedAt = d.UpdatedAt → c.IsExpired = d.IsExpired) := by
  refine ⟨?_, ?_, ?_, ?_, ?_, ?_⟩
  · intro c
    simp only [internal.SignatureConfirmation.IsExpired, internal.Time.Before, decide_eq_true_eq,
      decide_eq_false_iff_not, not_lt]
    exact ⟨trivial, id⟩
  · intro c
    simp only [internal.DKGConfirmation.IsExpired, internal.Time.Before, decide_eq_true_eq,
      decide_eq_false_iff_not, not_lt]
    exact ⟨trivial, id⟩
  · intro c
    simp only [internal.SigningConfirmation.IsExpired, internal.Time.Before, decide_eq_true_eq,
      decide_eq_false_iff_not, not_lt]
    exact ⟨trivial, id⟩
  · intro c d he hu
    simp only [internal.SignatureConfirmation.IsExpired, he, hu]
  · intro c d he hu
    simp only [internal.DKGConfirmation.IsExpired, he, hu]
  · intro c d he hu
    simp only [internal.SigningConfirmation.IsExpired, he, hu]

/-- Every value outside the four constants has the name `undefined`. -/
theorem ConfirmationParticipantStatus_other (s : Nat)
    (h : s ∉ internal.confirmationStatuses.map Prod.fst) :
    internal.ConfirmationParticipantStatus.String s = "undefined" := by
  simp only [internal.confirmationStatuses, List.map, List.mem_cons, List.not_mem_nil, or_false,
    not_or] at h
  obtain ⟨h0, h1, h2, h3⟩ := h
  simp [internal.ConfirmationParticipantStatus.String, h0, h1, h2, h3]

/-- Every value outside the twelve constants has the name `undefined`. -/
theorem DKGParticipantStatus_other (s : Nat)
    (h : s ∉ internal.dkgStatuses.map Prod.fst) :
    internal.DKGParticipantStatus.String s = "undefined" := by
  simp only [internal.dkgStatuses, List.map, List.mem_cons, List.not_mem_nil, or_false,
    not_or] at h
  obtain ⟨h0, h1, h2, h3, h4, h5, h6, h7, h8, h9, h10, h11⟩ := h
  simp [internal.DKGParticipantStatus.String, h0, h1, h2, h3, h4, h5, h6, h7, h8, h9, h10, h11]

/-- Every value outside the seven constants has the name `undefined`. -/
theorem SigningParticipantStatus_other (s : Nat)
    (h : s ∉ internal.signingStatuses.map Prod.fst) :
    internal.SigningParticipantStatus.String s = "undefined" := by
  simp only [internal.signingStatuses, List.map, List.mem_cons, List.not_mem_nil, or_false,
    not_or] at h
  obtain ⟨h0, h1, h2, h3, h4, h5, h6⟩ := h
  simp [internal.SigningParticipantStatus.String, h0, h1, h3, h4, h5, h6]

/-- Claim C25 (status names are total on the declared constants). The
`String` methods of `ConfirmationParticipantStatus` and `DKGParticipantStatus`
give every declared constant its own identifier, distinct and never
`undefined`, and every other value `undefined`. The `String` method of
`SigningParticipantStatus` does not: the declared constant `SigningDeclined`
has the name `undefined`; the six other constants have their identifiers and
every value that is not declared has the name `undefined`. -/
theorem signing_declined_is_undefined :
    (internal.namesItsConstants internal.ConfirmationParticipantStatus.String
        internal.confirmationStatuses = true ∧
      ∀ s, s ∉ internal.confirmationStatuses.map Prod.fst →
        internal.ConfirmationParticipantStatus.String s = "undefined") ∧
    (internal.namesItsConstants internal.DKGParticipantStatus.String
        internal.dkgStatuses = true ∧
      ∀ s, s ∉ internal.dkgStatuses.map Prod.fst →
        internal.DKGParticipantStatus.String s = "undefined") ∧
    (internal.namesItsConstants internal.SigningParticipantStatus.String
        internal.signingStatuses = false ∧
      (internal.SigningDeclined, "SigningDeclined") ∈ internal.signingStatuses ∧
      internal.SigningParticipantStatus.String internal.SigningDeclined = "undefined" ∧
      internal.namesItsConstants internal.SigningParticipantStatus.String
        (internal.signingStatuses.filter (fun p => p.1 ≠ internal.SigningDeclined)) = true ∧
      ∀ s, s ∉ internal.signingStatuses.map Prod.fst →
        internal.SigningParticipantStatus.String s = "undefined") :=
  ⟨⟨by decide, ConfirmationParticipantStatus_other⟩, ⟨by decide, DKGParticipantStatus_other⟩,
    by decide, by decide, by decide, by decide, SigningParticipantStatus_other⟩


/-! ## `getFSMInstance` and `GetFSMDump`, outcome by outcome -/

/-- A stored round: the snapshot is loaded and decoded, nothing is
written. -/
theorem getFSMInstance_run_stored {env : Env} {id : String} {w : World} {bz : Bytes}
    (h : w.fsms.lookup id = some bz) (hl : env.faults.LoadFSM w id = none) :
    getFSMInstance env id w =
      match env.FromDump bz with
      | .ok f => ⟨.ok f, w, [.LoadFSM id]⟩
      | .error e => ⟨.error (wrap "failed to LoadFSM" e), w, [.LoadFSM id]⟩ := by
  cases hf : env.FromDump bz <;>
    simp [getFSMInstance, M.bind, M.wrapErr, M.pure, LoadFSM, wrapExcept, h, hl, hf]

/-- A failing `LoadFSM` ends `getFSMInstance`; nothing is written. -/
theorem getFSMInstance_run_load_error {env : Env} {id : String} {w : World} {e : Err}
    (hl : env.faults.LoadFSM w id = some e) :
    getFSMInstance env id w = ⟨.error (wrap "failed to LoadFSM" e), w, [.LoadFSM id]⟩ := by
  simp [getFSMInstance, M.bind, M.wrapErr, LoadFSM, wrapExcept, hl]

/-- A round that is not stored: the FSM is created, dumped and saved, and an
error of one of the three steps ends `getFSMInstance` without an FSM and
with the persisted state as it was. -/
theorem getFSMInstance_run_unknown {env : Env} {id : String} {w : World}
    (h : w.fsms.lookup id = none) (hl : env.faults.LoadFSM w id = none) :
    getFSMInstance env id w =
      match env.Create id with
      | .error e => ⟨.error (wrap "failed to create FSM instance" e), w, [.LoadFSM id]⟩
      | .ok f =>
        match env.Dump f with
        | .error e => ⟨.error (wrap "failed to Dump FSM instance" e), w, [.LoadFSM id]⟩
        | .ok bz =>
          match env.faults.SaveFSM w id bz with
          | some e => ⟨.error (wrap "failed to SaveFSM" e), w, [.LoadFSM id, .SaveFSM id bz]⟩
          | none => ⟨.ok f, w.withSnapshot id bz, [.LoadFSM id, .SaveFSM id bz]⟩ := by
  cases hc : env.Create id with
  | error e =>
    simp [getFSMInstance, M.bind, M.wrapErr, M.lift, LoadFSM, wrapExcept, h, hl, hc]
  | ok f =>
    cases hd : env.Dump f with
    | error e =>
      simp [getFSMInstance, M.bind, M.wrapErr, M.lift, LoadFSM, wrapExcept, h, hl, hc, hd]
    | ok bz =>
      cases hs : env.faults.SaveFSM w id bz with
      | some e =>
        simp [getFSMInstance, M.bind, M.wrapErr, M.lift, M.pure, LoadFSM, SaveFSM, wrapExcept, h,
          hl, hc, hd, hs]
      | none =>
        simp [getFSMInstance, M.bind, M.wrapErr, M.lift, M.pure, LoadFSM, SaveFSM, wrapExcept, h,
          hl, hc, hd, hs, World.withSnapshot]

/-- The round saved last is the round found. -/
theorem World.withSnapshot_lookup (w : World) (id : String) (bz : Bytes) :
    (w.withSnapshot id bz).fsms.lookup id = some bz :=
  lookup_cons_filter_self w.fsms id bz

theorem GetFSMDump_run (env : Env) {R : Type} (FSMDump : env.F → R) (id : String) (w : World) :
    GetFSMDump env FSMDump id w =
      ⟨match (getFSMInstance env id w).result with
        | .ok f => .ok (FSMDump f)
        | .error e => .error (wrap ("failed to get FSM instance for DKG round ID " ++ id) e),
       (getFSMInstance env id w).world, (getFSMInstance env id w).calls⟩ := by
  unfold GetFSMDump
  cases hr : (getFSMInstance env id w).result <;>
    simp [M.bind, M.wrapErr, M.pure, wrapExcept, hr]

/-- Claim C26, the counterexample. `GetFSMDump` for the round `r9`, of which
the empty state holds no snapshot, returns the dump of a fresh FSM and leaves
a snapshot for `r9` persisted: the FSM snapshots are not what they were. -/
theorem GetFSMDump_unknown_round_writes :
    emptyWorld.fsms.lookup "r9" = none ∧
    (GetFSMDump testEnv TestFSM.dump "r9" emptyWorld).result = .ok [0] ∧
    (GetFSMDump testEnv TestFSM.dump "r9" emptyWorld).calls = [.LoadFSM "r9", .SaveFSM "r9" [0]] ∧
    (GetFSMDump testEnv TestFSM.dump "r9" emptyWorld).world.fsms = [("r9", [0])] ∧
    (GetFSMDump testEnv TestFSM.dump "r9" emptyWorld).world.fsms ≠ emptyWorld.fsms := by
  decide

/-- Claim C26, amended (`GetFSMDump` reads a known round and creates an
unknown one). For every round id `GetFSMDump` leaves the offset, the
operation pool, the signature records and the log as they were. For a round
whose snapshot is stored it calls `LoadFSM` only and leaves the whole
persisted state unchanged. For a round that is not stored it saves the
initial dump of a fresh FSM for the round when creation, dump and save
succeed, and that snapshot is then the persisted one; when one of them fails
it returns the error and the persisted state is unchanged. -/
theorem GetFSMDump_frame (env : Env) {R : Type} (FSMDump : env.F → R) (id : String) (w : World) :
    ((GetFSMDump env FSMDump id w).world.offset = w.offset ∧
      (GetFSMDump env FSMDump id w).world.operations = w.operations ∧
      (GetFSMDump env FSMDump id w).world.signatures = w.signatures ∧
      (GetFSMDump env FSMDump id w).world.sent = w.sent) ∧
    (∀ bz, w.fsms.lookup id = some bz →
      (GetFSMDump env FSMDump id w).world = w ∧
      (GetFSMDump env FSMDump id w).calls = [.LoadFSM id]) ∧
    (w.fsms.lookup id = none → env.faults.LoadFSM w id = none →
      ∀ f bz, env.Create id = .ok f → env.Dump f = .ok bz → env.faults.SaveFSM w id bz = none →
        (GetFSMDump env FSMDump id w).result = .ok (FSMDump f) ∧
        (GetFSMDump env FSMDump id w).calls = [.LoadFSM id, .SaveFSM id bz] ∧
        (GetFSMDump env FSMDump id w).world = w.withSnapshot id bz ∧
        (GetFSMDump env FSMDump id w).world.fsms.lookup id = some bz) ∧
    (∀ e, (GetFSMDump env FSMDump id w).result = .error e →
      (GetFSMDump env FSMDump id w).world = w) := by
  rw [GetFSMDump_run]
  refine ⟨getFSMInstance_frame env id w, ?_, ?_, ?_⟩
  · intro bz h
    exact ⟨(getFSMInstance_stored h).2, (getFSMInstance_stored h).1⟩
  · intro h hl f bz hc hd hs
    rw [getFSMInstance_run_unknown h hl, hc]
    simp only [hd, hs]
    exact ⟨trivial, trivial, trivial, World.withSnapshot_lookup w id bz⟩
  · intro e he
    simp only at he ⊢
    cases hs : w.fsms.lookup id with
    | some bz => exact (getFSMInstance_stored hs).2
    | none =>
      cases hl : env.faults.LoadFSM w id with
      | some e0 => rw [getFSMInstance_run_load_error hl]
      | none =>
        rw [getFSMInstance_run_unknown hs hl] at he ⊢
        cases hc : env.Create id with
        | error e0 => simp
        | ok f =>
          cases hd : env.Dump f with
          | error e0 => simp [hd]
          | ok bz =>
            cases hsv : env.faults.SaveFSM w id bz with
            | some e0 => simp [hd, hsv]
            | none => simp [hc, hd, hsv] at he

/-- Claim C26 on the two kinds of round: a known round is read, an unknown
round is created and saved. -/
theorem GetFSMDump_frame_witness :
    (GetFSMDump testEnv TestFSM.dump "r1" worldAfterInit).result = .ok [1] ∧
    (GetFSMDump testEnv TestFSM.dump "r1" worldAfterInit).world = worldAfterInit ∧
    (GetFSMDump testEnv TestFSM.dump "r1" worldAfterInit).calls = [.LoadFSM "r1"] ∧
    (GetFSMDump testEnv TestFSM.dump "r9" worldAfterInit).world
      = worldAfterInit.withSnapshot "r9" [0] :=
  ⟨by decide,
    ((GetFSMDump_frame testEnv TestFSM.dump "r1" worldAfterInit).2.1 [1] (by decide)).1,
    by decide, by decide⟩


/-! ## Resolving a round that is not stored -/

/-- Resolving the FSM of a round that is not stored succeeds only by creating
the FSM, dumping it and saving the dump, which is then the one snapshot saved
and the persisted snapshot of the round. -/
theorem resolveFSM_unknown_ok {env : Env} {m : Message} {w : World} {f : env.F}
    (h : w.fsms.lookup m.DkgRoundID = none) (hf : (resolveFSM env m w).result = .ok f) :
    ∃ bz, env.Create m.DkgRoundID = .ok f ∧ env.Dump f = .ok bz ∧
      savedSnapshots (resolveFSM env m w).calls = [(m.DkgRoundID, bz)] ∧
      (resolveFSM env m w).world.fsms.lookup m.DkgRoundID = some bz := by
  have hq := saveSigningData_quiet env m w
  have hs : savedSnapshots (saveSigningData env m w).calls = [] := by
    simp only [savedSnapshots, List.filterMap_eq_nil_iff]
    exact fun c hc => (hq c hc).2
  have hfr := (saveSigningData_frame env m w).2.1
  have h1 : (saveSigningData env m w).world.fsms.lookup m.DkgRoundID = none := by rw [hfr]; exact h
  unfold resolveFSM at hf ⊢
  cases hr : (saveSigningData env m w).result with
  | error e => rw [M.bind_of_error hr] at hf; cases hf
  | ok a =>
    rw [M.bind_of_ok hr] at hf ⊢
    simp only [M.wrapErr_result, M.wrapErr_calls, M.wrapErr_world, savedSnapshots_append, hs,
      List.nil_append] at hf ⊢
    cases hl : env.faults.LoadFSM (saveSigningData env m w).world m.DkgRoundID with
    | some e =>
      rw [getFSMInstance_run_load_error hl] at hf
      simp [wrapExcept] at hf
    | none =>
      rw [getFSMInstance_run_unknown h1 hl] at hf ⊢
      cases hc : env.Create m.DkgRoundID with
      | error e => simp [hc, wrapExcept] at hf
      | ok f0 =>
        cases hd : env.Dump f0 with
        | error e => simp [hc, hd, wrapExcept] at hf
        | ok bz =>
          cases hsv : env.faults.SaveFSM (saveSigningData env m w).world m.DkgRoundID bz with
          | some e => simp [hc, hd, hsv, wrapExcept] at hf
          | none =>
            simp only [hc, hd, hsv, wrapExcept, Except.ok.injEq] at hf
            subst hf
            refine ⟨bz, rfl, hd, ?_, ?_⟩
            · simp [hd, hsv, savedSnapshots, Call.savedSnapshot?]
            · simp only [hd, hsv]
              exact World.withSnapshot_lookup _ _ _

/-- The three writes leave the snapshots as they were unless all of them
succeed. -/
theorem persist_error_fsms {env : Env} {m : Message} {op : Option Operation} {d : Bytes}
    {w : World} {e : Err} (h : (persist env m op d w).result = .error e) :
    (persist env m op d w).world.fsms = w.fsms := by
  unfold persist at h ⊢
  cases hp : (putIfAny env op w).result with
  | error e0 =>
    rw [M.bind_of_error hp]
    cases op with
    | none => simp [putIfAny, M.pure] at hp
    | some o =>
      simp only [putIfAny, M.wrapErr_world]
      exact (PutOperation_frame env o w).2.1
  | ok u =>
    have hpw : (putIfAny env op w).world.fsms = w.fsms := by
      cases op with
      | none => rfl
      | some o =>
        simp only [putIfAny, M.wrapErr_world]
        exact (PutOperation_frame env o w).2.1
    rw [M.bind_of_ok hp] at h ⊢
    simp only at h ⊢
    cases ho : (M.wrapErr "failed to SaveOffset" (SaveOffset env (u64 (m.Offset + 1)))
        (putIfAny env op w).world).result with
    | error e0 =>
      rw [M.bind_of_error ho]
      simp only [M.wrapErr_world]
      rw [(SaveOffset_frame env _ _).1, hpw]
    | ok u2 =>
      rw [M.bind_of_ok ho] at h ⊢
      simp only [M.wrapErr_result, M.wrapErr_world] at h ⊢
      cases hs : (SaveFSM env m.DkgRoundID d
          (SaveOffset env (u64 (m.Offset + 1)) (putIfAny env op w).world).world).result with
      | ok u3 => rw [hs] at h; simp [wrapExcept] at h
      | error e1 =>
        rw [SaveFSM_world_of_error hs, (SaveOffset_frame env _ _).1, hpw]

/-- The shortcut for `SignatureReconstructed` does not resolve the FSM: such
a message for the round `r9` that is not stored is processed without error
and no snapshot is saved, `getFSMInstance` not being called. -/
theorem reconstructed_unknown_round_no_snapshot :
    reconstructedUnknownRound.Event ≠ testEnv.K.EventInitProposal ∧
    emptyWorld.fsms.lookup reconstructedUnknownRound.DkgRoundID = none ∧
    (ProcessMessage testEnv testAmbient reconstructedUnknownRound emptyWorld).result = .ok () ∧
    savedSnapshots (ProcessMessage testEnv testAmbient reconstructedUnknownRound emptyWorld).calls
      = [] ∧
    (ProcessMessage testEnv testAmbient reconstructedUnknownRound emptyWorld).world.fsms = [] := by
  decide

/-- Claim C23 (`getFSMInstance` resolves or creates). If the state
holds a snapshot for the round, `getFSMInstance` calls `LoadFSM` only, writes
nothing and returns the FSM restored from the snapshot. If it holds none, it
creates a fresh FSM, saves its dump with `SaveFSM` and returns that FSM, to
which no event was applied; an error of the creation, of the dump or of the
save is returned wrapped, without an FSM and with the persisted state as it
was. In particular a message that reaches `getFSMInstance` (its event is
not `SignatureReconstructed`, which is saved without an FSM) for a round
that is not stored, and for which the FSM was resolved, has the initial dump
as the first snapshot saved, and that dump is the persisted snapshot of the
round whenever `ProcessMessage` fails, as it does when the event is not
`InitProposal` and the message does not verify on the fresh FSM. -/
theorem getFSMInstance_resolves_or_creates (env : Env) (id : String) (w : World) :
    (∀ bz, w.fsms.lookup id = some bz →
      (getFSMInstance env id w).calls = [.LoadFSM id] ∧
      (getFSMInstance env id w).world = w ∧
      (env.faults.LoadFSM w id = none → ∀ f, env.FromDump bz = .ok f →
        (getFSMInstance env id w).result = .ok f)) ∧
    (w.fsms.lookup id = none → env.faults.LoadFSM w id = none →
      (∀ f bz, env.Create id = .ok f → env.Dump f = .ok bz →
        env.faults.SaveFSM w id bz = none →
          getFSMInstance env id w =
            ⟨.ok f, w.withSnapshot id bz, [.LoadFSM id, .SaveFSM id bz]⟩ ∧
          (w.withSnapshot id bz).fsms.lookup id = some bz) ∧
      (∀ e, env.Create id = .error e →
        getFSMInstance env id w =
          ⟨.error (wrap "failed to create FSM instance" e), w, [.LoadFSM id]⟩) ∧
      (∀ f e, env.Create id = .ok f → env.Dump f = .error e →
        getFSMInstance env id w =
          ⟨.error (wrap "failed to Dump FSM instance" e), w, [.LoadFSM id]⟩) ∧
      (∀ f bz e, env.Create id = .ok f → env.Dump f = .ok bz →
        env.faults.SaveFSM w id bz = some e →
          getFSMInstance env id w =
            ⟨.error (wrap "failed to SaveFSM" e), w, [.LoadFSM id, .SaveFSM id bz]⟩)) ∧
    (∀ (amb : Ambient) (m : Message) (f : env.F),
      m.DkgRoundID = id → m.Event ≠ env.K.SignatureReconstructed →
      w.fsms.lookup id = none → (resolveFSM env m w).result = .ok f →
        ∃ bz, env.Create id = .ok f ∧ env.Dump f = .ok bz ∧
          (∃ rest, savedSnapshots (ProcessMessage env amb m w).calls = (id, bz) :: rest) ∧
          (∀ e, (ProcessMessage env amb m w).result = .error e →
            (ProcessMessage env amb m w).world.fsms.lookup id = some bz) ∧
          (m.Event ≠ env.K.EventInitProposal → ∀ e, verifyMessage env f m = .error e →
            (ProcessMessage env amb m w).result = .error (wrap "failed to verifyMessage" e))) := by
  refine ⟨?_, ?_, ?_⟩
  · intro bz h
    refine ⟨(getFSMInstance_stored h).1, (getFSMInstance_stored h).2, ?_⟩
    intro hl f hf
    rw [getFSMInstance_run_stored h hl, hf]
  · intro h hl
    refine ⟨?_, ?_, ?_, ?_⟩
    · intro f bz hc hd hs
      rw [getFSMInstance_run_unknown h hl, hc]
      simp only [hd, hs]
      exact ⟨trivial, World.withSnapshot_lookup w id bz⟩
    · intro e hc
      rw [getFSMInstance_run_unknown h hl, hc]
    · intro f e hc hd
      rw [getFSMInstance_run_unknown h hl, hc]
      simp only [hd]
    · intro f bz e hc hd hs
      rw [getFSMInstance_run_unknown h hl, hc]
      simp only [hd, hs]
  · intro amb m f hid hsr h hf
    subst hid
    obtain ⟨bz, hc, hd, hsnap, hw⟩ := resolveFSM_unknown_ok h hf
    refine ⟨bz, hc, hd, ?_, ?_, ?_⟩
    · rw [ProcessMessage_byFSM hsr]
      cases hrv : (resolveAndVerify env m w).result with
      | error e => rw [processByFSM_stop_resolve hrv]; exact ⟨[], hsnap⟩
      | ok f1 =>
        cases hrun : runFSM env amb f1 m with
        | error e => rw [processByFSM_stop_run hrv hrun]; exact ⟨[], hsnap⟩
        | ok r =>
          obtain ⟨op, d⟩ := r
          rw [processByFSM_run hrv hrun]
          simp only [savedSnapshots_append, hsnap]
          exact ⟨_, rfl⟩
    · intro e he
      rw [ProcessMessage_byFSM hsr] at he ⊢
      cases hrv : (resolveAndVerify env m w).result with
      | error e1 => rw [processByFSM_stop_resolve hrv]; exact hw
      | ok f1 =>
        cases hrun : runFSM env amb f1 m with
        | error e1 => rw [processByFSM_stop_run hrv hrun]; exact hw
        | ok r =>
          obtain ⟨op, d⟩ := r
          rw [processByFSM_run hrv hrun] at he ⊢
          simp only at he ⊢
          rw [persist_error_fsms he]
          exact hw
    · intro hinit e hv
      have hu : verifyUnlessInit env f m = .error (wrap "failed to verifyMessage" e) := by
        simp [verifyUnlessInit, hinit, hv, wrapExcept]
      rw [ProcessMessage_byFSM hsr, processByFSM_stop_resolve (resolveAndVerify_error hf hu)]

/-- Claim C23 on a confirmation for the round `r9` that is not stored: the
fresh FSM is saved, the message does not verify on it, and the initial
snapshot stays persisted. -/
theorem getFSMInstance_resolves_or_creates_witness :
    (∃ bz, testEnv.Create "r9" = .ok (testFSM "stage_idle" []) ∧
      testEnv.Dump (testFSM "stage_idle" []) = .ok bz ∧
      (∃ rest, savedSnapshots (ProcessMessage testEnv testAmbient forgedUnknownRound
        emptyWorld).calls = ("r9", bz) :: rest) ∧
      (∀ e, (ProcessMessage testEnv testAmbient forgedUnknownRound emptyWorld).result
          = .error e →
        (ProcessMessage testEnv testAmbient forgedUnknownRound emptyWorld).world.fsms.lookup "r9"
          = some bz) ∧
      (forgedUnknownRound.Event ≠ testEnv.K.EventInitProposal → ∀ e,
        verifyMessage testEnv (testFSM "stage_idle" []) forgedUnknownRound = .error e →
          (ProcessMessage testEnv testAmbient forgedUnknownRound emptyWorld).result
            = .error (wrap "failed to verifyMessage" e))) ∧
    (ProcessMessage testEnv testAmbient forgedUnknownRound emptyWorld).world.fsms
      = [("r9", [0])] :=
  ⟨(getFSMInstance_resolves_or_creates testEnv "r9" emptyWorld).2.2 testAmbient
      forgedUnknownRound (testFSM "stage_idle" []) rfl (by decide) (by decide) rfl,
    by decide⟩


/-! ## The chain calls -/

theorem chainCall_ok_iff {env : Env} {state event : String} {now : Nat}
    {cur next : Response env.D × Bytes × env.F} :
    chainCall env state event now cur = .ok next ↔ chainedTo env state event now cur next := by
  unfold chainCall chainedTo
  by_cases hs : cur.1.State = state
  · simp only [hs, if_true, true_and, ne_eq, not_true_eq_false, false_and, or_false]
    cases hf : env.FromDump cur.2.1 with
    | error e0 => simp
    | ok g =>
      cases hd : env.Do g event (env.DefaultRequest now) with
      | error e0 => simp [wrapExcept, hd]
      | ok r => simp [wrapExcept, hd]
  · simp only [hs, if_false, false_and, ne_eq, not_false_eq_true, true_and, false_or,
      Except.ok.injEq]
    exact eq_comm

theorem chainCall_error_iff {env : Env} {state event : String} {now : Nat}
    {cur : Response env.D × Bytes × env.F} {e : Err} :
    chainCall env state event now cur = .error e ↔ chainFailsWith env state event now cur e := by
  unfold chainCall chainFailsWith
  by_cases hs : cur.1.State = state
  · simp only [hs, if_true, true_and]
    cases hf : env.FromDump cur.2.1 with
    | error e0 => simp [eq_comm]
    | ok g =>
      cases hd : env.Do g event (env.DefaultRequest now) with
      | error e0 => simp [wrapExcept, hd, eq_comm]
      | ok r => simp [wrapExcept, hd]
  · simp [hs]

/-- The run of `Do` with its two chain calls, once `Do` on the message's
event has returned. -/
theorem doWithChains_of_do {env : Env} {amb : Ambient} {f : env.F} {m : Message}
    {req : env.Req} {r0 : Response env.D × Bytes × env.F}
    (hdo : env.Do f m.Event req = .ok r0) :
    doWithChains env amb f m req =
      match chainCall env env.K.StateSignatureProposalCollected env.K.EventDKGInitProcess
          amb.nowDKGInitProcess r0 with
      | .error e => .error e
      | .ok r1 =>
        chainCall env env.K.StateDkgMasterKeyCollected env.K.EventSigningInit
          amb.nowSigningInit r1 := by
  unfold doWithChains
  simp only [hdo, wrapExcept, bind, Except.bind]
  cases chainCall env env.K.StateSignatureProposalCollected env.K.EventDKGInitProcess
      amb.nowDKGInitProcess r0 <;> rfl

theorem runFSM_error_do {env : Env} {amb : Ambient} {f : env.F} {m : Message} {req : env.Req}
    {e : Err} (hq : env.FSMRequestFromMessage m = .ok req)
    (hd : doWithChains env amb f m req = .error e) :
    runFSM env amb f m = .error e := by
  simp [runFSM, hq, hd, wrapExcept, bind, Except.bind]

/-- Claim C22 (chain calls). For a message on the FSM path whose `Do`
returned `r0`: a successful `ProcessMessage` dispatched `DKGInitProcess` on the
FSM restored from the returned dump when the response state was
`SignatureProposalCollected`, then `SigningInit` on the FSM restored from the
dump at hand when the response state (of the first chain call, if it was
made) was `DkgMasterKeyCollected`, then materialized the operation for the
response state, then dispatched `SigningRestart` when that state was
`SigningPartialSignsCollected`; the snapshot it passed to `SaveFSM` after the
offset, and so the persisted snapshot of the round, is the dump that the last
of these `Do` calls returned. A chain call that fails makes `ProcessMessage`
return its error, wrapped, and nothing is called after the FSM was resolved:
neither `SaveOffset` nor `PutOperation`, and for a round that was stored no
`SaveFSM`; offset, pool and the stored snapshots are as they were. -/
theorem chain_calls (env : Env) (amb : Ambient) (m : Message) (w : World) (f : env.F)
    (req : env.Req) (r0 : Response env.D × Bytes × env.F)
    (hsr : m.Event ≠ env.K.SignatureReconstructed)
    (hf : (resolveAndVerify env m w).result = .ok f)
    (hq : env.FSMRequestFromMessage m = .ok req)
    (hdo : env.Do f m.Event req = .ok r0) :
    ((ProcessMessage env amb m w).result = .ok () →
      ∃ r1 r2 r3 op,
        chainedTo env env.K.StateSignatureProposalCollected env.K.EventDKGInitProcess
          amb.nowDKGInitProcess r0 r1 ∧
        chainedTo env env.K.StateDkgMasterKeyCollected env.K.EventSigningInit
          amb.nowSigningInit r1 r2 ∧
        materialize env amb r2.2.2 m r2.1 = .ok op ∧
        chainedTo env env.K.StateSigningPartialSignsCollected env.K.EventSigningRestart
          amb.nowSigningRestart r2 r3 ∧
        (ProcessMessage env amb m w).calls =
          (resolveFSM env m w).calls ++
            (op.toList.map Call.PutOperation ++
              [Call.SaveOffset (u64 (m.Offset + 1)), Call.SaveFSM m.DkgRoundID r3.2.1]) ∧
        savedSnapshots (ProcessMessage env amb m w).calls =
          savedSnapshots (resolveFSM env m w).calls ++ [(m.DkgRoundID, r3.2.1)] ∧
        (ProcessMessage env amb m w).world.fsms.lookup m.DkgRoundID = some r3.2.1) ∧
    (∀ e,
      (chainFailsWith env env.K.StateSignatureProposalCollected env.K.EventDKGInitProcess
          amb.nowDKGInitProcess r0 e ∨
        (∃ r1,
          chainedTo env env.K.StateSignatureProposalCollected env.K.EventDKGInitProcess
            amb.nowDKGInitProcess r0 r1 ∧
          chainFailsWith env env.K.StateDkgMasterKeyCollected env.K.EventSigningInit
            amb.nowSigningInit r1 e) ∨
        (∃ r1 r2 op,
          chainedTo env env.K.StateSignatureProposalCollected env.K.EventDKGInitProcess
            amb.nowDKGInitProcess r0 r1 ∧
          chainedTo env env.K.StateDkgMasterKeyCollected env.K.EventSigningInit
            amb.nowSigningInit r1 r2 ∧
          materialize env amb r2.2.2 m r2.1 = .ok op ∧
          chainFailsWith env env.K.StateSigningPartialSignsCollected env.K.EventSigningRestart
            amb.nowSigningRestart r2 e)) →
      (ProcessMessage env amb m w).result = .error e ∧
      (ProcessMessage env amb m w).calls = (resolveFSM env m w).calls ∧
      savedOffsets (ProcessMessage env amb m w).calls = [] ∧
      putOperations (ProcessMessage env amb m w).calls = [] ∧
      (ProcessMessage env amb m w).world.offset = w.offset ∧
      (ProcessMessage env amb m w).world.operations = w.operations ∧
      (∀ bz, w.fsms.lookup m.DkgRoundID = some bz →
        savedSnapshots (ProcessMessage env amb m w).calls = [] ∧
        (ProcessMessage env amb m w).world.fsms = w.fsms)) := by
  rw [ProcessMessage_byFSM hsr]
  constructor
  · intro hok
    obtain ⟨f1, op, d, hf1, hr, hp, hc, hw⟩ := processByFSM_ok hok
    rw [hf] at hf1
    cases hf1
    obtain ⟨req1, r2, r3, hq1, hd, hm, hcc, hd3⟩ := runFSM_ok hr
    rw [hq] at hq1
    cases hq1
    rw [doWithChains_of_do hdo] at hd
    cases h1 : chainCall env env.K.StateSignatureProposalCollected env.K.EventDKGInitProcess
        amb.nowDKGInitProcess r0 with
    | error e => rw [h1] at hd; cases hd
    | ok r1 =>
      rw [h1] at hd
      simp only at hd
      subst hd3
      refine ⟨r1, r2, r3, op, chainCall_ok_iff.1 h1, chainCall_ok_iff.1 hd, hm,
        chainCall_ok_iff.1 hcc, ?_, ?_, ?_⟩
      · rw [hc, (persist_ok hp).1]
      · rw [hc, savedSnapshots_append, (persist_ok hp).1]
        cases op <;> simp [savedSnapshots, Call.savedSnapshot?]
      · rw [hw, (persist_ok hp).2]
        exact lookup_cons_filter_self _ _ _
  · intro e hfail
    have hrun : runFSM env amb f m = .error e := by
      rcases hfail with h | ⟨r1, h1, h⟩ | ⟨r1, r2, op, h1, h2, hm, h⟩
      · refine runFSM_error_do hq ?_
        rw [doWithChains_of_do hdo, chainCall_error_iff.2 h]
      · refine runFSM_error_do hq ?_
        rw [doWithChains_of_do hdo, chainCall_ok_iff.2 h1]
        exact chainCall_error_iff.2 h
      · have hd : doWithChains env amb f m req = .ok r2 := by
          rw [doWithChains_of_do hdo, chainCall_ok_iff.2 h1]
          exact chainCall_ok_iff.2 h2
        exact runFSM_error_restart hq hd hm (chainCall_error_iff.2 h)
    rw [processByFSM_stop_run hf hrun]
    have hqc := quiet_calls (resolveFSM_quiet env m w)
    have hfr := resolveFSM_frame env m w
    exact ⟨rfl, rfl, hqc.1, hqc.2.1, hfr.1, hfr.2.1, fun bz h => resolveFSM_stored h⟩

/-- Claim C22 on the last confirmation of round `r1`, which completes the
proposal: `DKGInitProcess` is chained and the dump of that call is saved;
with an FSM that refuses `DKGInitProcess` the run fails and nothing is
saved. -/
theorem chain_calls_witness :
    (lastConfirm.Event ≠ testEnv.K.SignatureReconstructed ∧
      (resolveAndVerify testEnv lastConfirm worldAfterInit).result
        = .ok (testFSM "state_sig_proposal_await_participants_confirmations" []) ∧
      testEnv.FSMRequestFromMessage lastConfirm = .ok (testReq 1) ∧
      testEnv.Do (testFSM "state_sig_proposal_await_participants_confirmations" [])
        lastConfirm.Event (testReq 1) = .ok (testRun "state_sig_proposal_collected" none [])) ∧
    ((ProcessMessage testEnv testAmbient lastConfirm worldAfterInit).result = .ok () →
      ∃ r1 r2 r3 op,
        chainedTo testEnv testEnv.K.StateSignatureProposalCollected
          testEnv.K.EventDKGInitProcess testAmbient.nowDKGInitProcess
          (testRun "state_sig_proposal_collected" none []) r1 ∧
        chainedTo testEnv testEnv.K.StateDkgMasterKeyCollected testEnv.K.EventSigningInit
          testAmbient.nowSigningInit r1 r2 ∧
        materialize testEnv testAmbient r2.2.2 lastConfirm r2.1 = .ok op ∧
        chainedTo testEnv testEnv.K.StateSigningPartialSignsCollected
          testEnv.K.EventSigningRestart testAmbient.nowSigningRestart r2 r3 ∧
        (ProcessMessage testEnv testAmbient lastConfirm worldAfterInit).calls =
          (resolveFSM testEnv lastConfirm worldAfterInit).calls ++
            (op.toList.map Call.PutOperation ++
              [Call.SaveOffset (u64 (lastConfirm.Offset + 1)),
                Call.SaveFSM lastConfirm.DkgRoundID r3.2.1]) ∧
        savedSnapshots (ProcessMessage testEnv testAmbient lastConfirm worldAfterInit).calls =
          savedSnapshots (resolveFSM testEnv lastConfirm worldAfterInit).calls ++
            [(lastConfirm.DkgRoundID, r3.2.1)] ∧
        (ProcessMessage testEnv testAmbient lastConfirm worldAfterInit).world.fsms.lookup
          lastConfirm.DkgRoundID = some r3.2.1) ∧
    (ProcessMessage testEnv testAmbient lastConfirm worldAfterInit).result = .ok () ∧
    savedSnapshots (ProcessMessage testEnv testAmbient lastConfirm worldAfterInit).calls
      = [("r1", [3, 100])] ∧
    (ProcessMessage chainDownEnv testAmbient lastConfirm worldAfterInit).result
      = .error ["failed to Do operation in FSM", "invalid transition"] ∧
    (ProcessMessage chainDownEnv testAmbient lastConfirm worldAfterInit).world = worldAfterInit ∧
    (ProcessMessage chainDownEnv testAmbient lastConfirm worldAfterInit).calls
      = [.LoadFSM "r1"] :=
  ⟨⟨by decide, rfl, rfl, rfl⟩,
    (chain_calls testEnv testAmbient lastConfirm worldAfterInit
      (testFSM "state_sig_proposal_await_participants_confirmations" []) (testReq 1)
      (testRun "state_sig_proposal_collected" none []) (by decide) rfl rfl rfl).1,
    by decide, by decide, by decide, by decide, by decide⟩


/-! ## Loading the keys -/

/-- Decoding the keys ends in one of three ways: the public key does not
decode and `pubKey` is the point the decoding was called on; the private key
does not decode, `pubKey` is the loaded key and `secKey` the scalar the
decoding was called on; both decode and both are set. -/
theorem unmarshalKeys_cases {env : AirEnv} (dec : KeyDecoders env) (am : Machine env)
    (dp ds : Bytes) :
    (∃ e0, dec.UnmarshalPoint (dec.Point am.baseSuite) dp
        = (some e0, (dec.UnmarshalPoint (dec.Point am.baseSuite) dp).2) ∧
      unmarshalKeys dec am dp ds =
        (.error (wrap "failed to unmarshal public key" e0),
          { am with pubKey := (dec.UnmarshalPoint (dec.Point am.baseSuite) dp).2 })) ∨
    (∃ e0, (dec.UnmarshalPoint (dec.Point am.baseSuite) dp).1 = none ∧
      dec.UnmarshalScalar (dec.Scalar am.baseSuite) ds
        = (some e0, (dec.UnmarshalScalar (dec.Scalar am.baseSuite) ds).2) ∧
      unmarshalKeys dec am dp ds =
        (.error (wrap "failed to unmarshal private key" e0),
          { am with
            pubKey := (dec.UnmarshalPoint (dec.Point am.baseSuite) dp).2
            secKey := (dec.UnmarshalScalar (dec.Scalar am.baseSuite) ds).2 })) ∨
    ((dec.UnmarshalPoint (dec.Point am.baseSuite) dp).1 = none ∧
      (dec.UnmarshalScalar (dec.Scalar am.baseSuite) ds).1 = none ∧
      unmarshalKeys dec am dp ds =
        (.ok (),
          { am with
            pubKey := (dec.UnmarshalPoint (dec.Point am.baseSuite) dp).2
            secKey := (dec.UnmarshalScalar (dec.Scalar am.baseSuite) ds).2 })) := by
  unfold unmarshalKeys
  rcases hp : dec.UnmarshalPoint (dec.Point am.baseSuite) dp with ⟨ep, p⟩
  cases ep with
  | some e0 => exact Or.inl ⟨e0, rfl, rfl⟩
  | none =>
    rcases hs : dec.UnmarshalScalar (dec.Scalar am.baseSuite) ds with ⟨es, s⟩
    cases es with
    | some e0 => exact Or.inr (Or.inl ⟨e0, rfl, rfl, rfl⟩)
    | none => exact Or.inr (Or.inr ⟨rfl, rfl, rfl⟩)

/-- The reading and decrypting of the keys fails when one of the three
entries cannot be read or one of the two keys cannot be decrypted. -/
theorem readKeys_error {env : AirEnv} (dec : KeyDecoders env) (am : Machine env)
    (h : (∃ e, dbGet env am.db pubKeyDBKey = .error e) ∨
      (∃ e, dbGet env am.db privateKeyDBKey = .error e) ∨
      (∃ e, dbGet env am.db saltDBKey = .error e) ∨
      (∃ pubKeyBz privateKeyBz salt, dbGet env am.db pubKeyDBKey = .ok pubKeyBz ∧
        dbGet env am.db privateKeyDBKey = .ok privateKeyBz ∧
        dbGet env am.db saltDBKey = .ok salt ∧
        ((∃ e, dec.decrypt am.encryptionKey salt pubKeyBz = .error e) ∨
          (∃ e, dec.decrypt am.encryptionKey salt privateKeyBz = .error e)))) :
    ∃ e, readKeys dec am = .error e := by
  unfold readKeys
  cases h1 : dbGet env am.db pubKeyDBKey with
  | error e => exact ⟨_, rfl⟩
  | ok pubKeyBz =>
    cases h2 : dbGet env am.db privateKeyDBKey with
    | error e => exact ⟨_, rfl⟩
    | ok privateKeyBz =>
      cases h3 : dbGet env am.db saltDBKey with
      | error e => exact ⟨_, rfl⟩
      | ok salt =>
        cases h4 : dec.decrypt am.encryptionKey salt pubKeyBz with
        | error e => exact ⟨e, by simp [h4]⟩
        | ok dp =>
          cases h5 : dec.decrypt am.encryptionKey salt privateKeyBz with
          | error e => exact ⟨e, by simp [h4, h5]⟩
          | ok ds =>
            exfalso
            rcases h with ⟨e, he⟩ | ⟨e, he⟩ | ⟨e, he⟩ | ⟨a, b, c, ha, hb, hc, hd⟩
            · rw [h1] at he; cases he
            · rw [h2] at he; cases he
            · rw [h3] at he; cases he
            · rw [h1] at ha; rw [h2] at hb; rw [h3] at hc
              cases ha; cases hb; cases hc
              rcases hd with ⟨e, he⟩ | ⟨e, he⟩
              · rw [h4] at he; cases he
              · rw [h5] at he; cases he

/-- Claim C27, the counterexample. On a store whose public key decrypts to
bytes that are no point, `LoadKeysFromDB` returns the unmarshal error and the
machine's `pubKey` is no longer the key it held; on a store whose private key
decrypts to bytes that are no scalar, it returns the unmarshal error and
neither `pubKey` nor `secKey` is what it was. -/
theorem LoadKeysFromDB_unmarshal_failure_changes_keys :
    pubKeyBytes (testMachine badPubKeyDB) = [11, 12] ∧
    (LoadKeysFromDB testDecoders (testMachine badPubKeyDB)).1
      = .error ["failed to unmarshal public key", "invalid point encoding"] ∧
    pubKeyBytes (LoadKeysFromDB testDecoders (testMachine badPubKeyDB)).2 = [] ∧
    pubKeyBytes (LoadKeysFromDB testDecoders (testMachine badPubKeyDB)).2
      ≠ pubKeyBytes (testMachine badPubKeyDB) ∧
    secKeyBytes (testMachine badPrivateKeyDB) = [13] ∧
    (LoadKeysFromDB testDecoders (testMachine badPrivateKeyDB)).1
      = .error ["failed to unmarshal private key", "invalid scalar encoding"] ∧
    pubKeyBytes (LoadKeysFromDB testDecoders (testMachine badPrivateKeyDB)).2 = [21, 22] ∧
    secKeyBytes (LoadKeysFromDB testDecoders (testMachine badPrivateKeyDB)).2 = [] := by
  decide

/-! ## The handlers of the HTTP server -/

theorem withMethod_returnsAfterError (method : String) (r : Request) (body : Handled)
    (h : body.returnsAfterError = true) : (withMethod method r body).returnsAfterError = true := by
  unfold withMethod
  split
  · rfl
  · exact h

/-- Sending a message that was built returns, after the error response, if
there is one, when nothing was written before. -/
theorem sendBuilt_some (henv : HttpEnv) (msg : Message) :
    (sendBuilt henv [] (some msg)).returnsAfterError = true := by
  cases h : henv.SendMessage msg <;>
    simp [sendBuilt, h, Handled.returnsAfterError, Served.isError]

/-- A failing `buildMessage` returns a nil message, a successful one a
message. -/
theorem buildMessage_cases (henv : HttpEnv) (dkgRoundID event : String) (data : Bytes) :
    (∃ err, buildMessage henv dkgRoundID event data = (none, some err)) ∨
    (∃ msg, buildMessage henv dkgRoundID event data = (some msg, none)) := by
  simp only [buildMessage]
  split
  · exact Or.inl ⟨_, rfl⟩
  · exact Or.inr ⟨_, rfl⟩

/-- Claim C28 (`proposeSignDataHandler` and the nil message). Whenever
`buildMessage` returns an error it returns a nil message. On the path of
`proposeSignDataHandler` on which it does, the handler writes the error
response and goes on to `c.SendMessage(*message)`, where it dereferences the
nil message: it does not return after the error response. On that path
`startDKGHandler` returns; and every run of every other handler, and every
run of `proposeSignDataHandler` in which `buildMessage` is not reached or
succeeds, returns, with the error response, if one was written, as its last
step. -/
theorem proposeSignData_dereferences_nil (henv : HttpEnv) (r : Request) :
    (∀ dkgRoundID event data err,
      (buildMessage henv dkgRoundID event data).2 = some err →
        (buildMessage henv dkgRoundID event data).1 = none) ∧
    (∀ reqBody req err, r.Method = MethodPost → r.Body = .ok reqBody →
      henv.UnmarshalSignRequest reqBody = .ok req →
      buildMessage henv (henv.hexEncode ((req.lookup "dkgID").getD [])) henv.EventSigningStart
        ((req.lookup "data").getD []) = (none, some err) →
        proposeSignDataHandler henv r =
          ⟨[.errorResponse StatusInternalServerError (wrap "failed to build message" err)],
            .nilDereference⟩ ∧
        (proposeSignDataHandler henv r).returnsAfterError = false) ∧
    (∀ reqBody err, r.Method = MethodPost → r.Body = .ok reqBody →
      buildMessage henv (henv.hexEncode (henv.md5 reqBody)) henv.EventInitProposal reqBody
        = (none, some err) →
        startDKGHandler henv r =
          ⟨[.errorResponse StatusInternalServerError (wrap "failed to build message" err)],
            .returned⟩) ∧
    ((proposeSignDataHandler henv r).ending = .returned →
      (proposeSignDataHandler henv r).returnsAfterError = true) ∧
    ((getUsernameHandler henv r).returnsAfterError = true ∧
      (getPubkeyHandler henv r).returnsAfterError = true ∧
      (sendMessageHandler henv r).returnsAfterError = true ∧
      (getOperationsHandler henv r).returnsAfterError = true ∧
      (getOperationQRPathHandler henv r).returnsAfterError = true ∧
      (getOperationHandler henv r).returnsAfterError = true ∧
      (getOperationQRToBodyHandler henv r).returnsAfterError = true ∧
      (startDKGHandler henv r).returnsAfterError = true ∧
      (handleJSONOperationHandler henv r).returnsAfterError = true) := by
  refine ⟨?_, ?_, ?_, ?_, ?_, ?_, ?_, ?_, ?_, ?_, ?_, ?_, ?_⟩
  · intro dkgRoundID event data err h
    rcases buildMessage_cases henv dkgRoundID event data with ⟨e, hb⟩ | ⟨msg, hb⟩
    · rw [hb]
    · rw [hb] at h; cases h
  · intro reqBody req err hm hb hu hbuild
    have hrun : proposeSignDataHandler henv r =
        ⟨[.errorResponse StatusInternalServerError (wrap "failed to build message" err)],
          .nilDereference⟩ := by
      simp [proposeSignDataHandler, withMethod, hm, hb, hu, hbuild, sendBuilt]
    rw [hrun]
    exact ⟨rfl, rfl⟩
  · intro reqBody err hm hb hbuild
    simp [startDKGHandler, withMethod, hm, hb, hbuild]
  · intro hend
    unfold proposeSignDataHandler at hend ⊢
    unfold withMethod at hend ⊢
    split
    · rfl
    · rename_i hm
      simp only [hm, if_false] at hend
      cases hb : r.Body with
      | error err => rfl
      | ok reqBody =>
        simp only [hb] at hend ⊢
        cases hu : henv.UnmarshalSignRequest reqBody with
        | error err => rfl
        | ok req =>
          simp only [hu] at hend ⊢
          rcases buildMessage_cases henv (henv.hexEncode ((req.lookup "dkgID").getD []))
            henv.EventSigningStart ((req.lookup "data").getD []) with ⟨e, hbm⟩ | ⟨msg, hbm⟩
          · rw [hbm] at hend
            simp [sendBuilt] at hend
          · rw [hbm]
            exact sendBuilt_some henv msg
  · exact withMethod_returnsAfterError _ _ _ rfl
  · exact withMethod_returnsAfterError _ _ _ rfl
  · refine withMethod_returnsAfterError _ _ _ ?_
    cases hb : r.Body with
    | error err => rfl
    | ok reqBytes =>
      simp only
      cases hu : henv.UnmarshalMessage reqBytes with
      | error err => rfl
      | ok msg =>
        simp only
        cases hx : henv.SendMessage msg <;>
          simp [hx, Handled.returnsAfterError, Served.isError]
  · refine withMethod_returnsAfterError _ _ _ ?_
    cases hx : henv.GetOperations <;>
          simp [hx, Handled.returnsAfterError, Served.isError]
  · refine withMethod_returnsAfterError _ _ _ ?_
    cases hx : henv.GetOperationQRPath r.operationID <;>
          simp [hx, Handled.returnsAfterError, Served.isError]
  · refine withMethod_returnsAfterError _ _ _ ?_
    cases hx : henv.getOperationJSON r.operationID <;>
          simp [hx, Handled.returnsAfterError, Served.isError]
  · refine withMethod_returnsAfterError _ _ _ ?_
    cases hj : henv.getOperationJSON r.operationID with
    | error err => rfl
    | ok operationJSON =>
      simp only
      cases hx : henv.EncodeQR operationJSON <;>
          simp [hx, Handled.returnsAfterError, Served.isError]
  · refine withMethod_returnsAfterError _ _ _ ?_
    cases hb : r.Body with
    | error err => rfl
    | ok reqBody =>
      simp only
      rcases buildMessage_cases henv (henv.hexEncode (henv.md5 reqBody)) henv.EventInitProposal
        reqBody with ⟨e, hbm⟩ | ⟨msg, hbm⟩
      · rw [hbm]; rfl
      · rw [hbm]
        exact sendBuilt_some henv msg
  · refine withMethod_returnsAfterError _ _ _ ?_
    cases hb : r.Body with
    | error err => rfl
    | ok reqBody =>
      simp only
      cases hu : henv.UnmarshalOperation reqBody with
      | error err => rfl
      | ok req =>
        simp only
        cases hx : henv.handleProcessedOperation req <;>
          simp [hx, Handled.returnsAfterError, Served.isError]

/-- Claim C28 on a request to a client whose keys cannot be loaded:
`proposeSignDataHandler` writes the error response and dereferences the nil
message; `startDKGHandler` writes the same response and returns. -/
theorem proposeSignData_dereferences_nil_witness :
    (proposeSignDataHandler keysDownHttpEnv signRequest =
        ⟨[.errorResponse StatusInternalServerError
            (wrap "failed to build message" ["failed to sign message", "failed to LoadKeys",
              "no keys"])],
          .nilDereference⟩ ∧
      (proposeSignDataHandler keysDownHttpEnv signRequest).returnsAfterError = false) ∧
    startDKGHandler keysDownHttpEnv signRequest =
      ⟨[.errorResponse 500
          ["failed to build message", "failed to sign message", "failed to LoadKeys",
            "no keys"]],
        .returned⟩ :=
  ⟨(proposeSignData_dereferences_nil keysDownHttpEnv signRequest).2.1 [1, 7]
      [("dkgID", [1]), ("data", [7])] ["failed to sign message", "failed to LoadKeys", "no keys"]
      rfl rfl rfl rfl,
    by decide⟩


/-! ## `LoadKeysFromDB`, outcome by outcome -/

/-- With the three entries read and both keys decrypted, `LoadKeysFromDB` is
the decoding of the two keys. -/
theorem LoadKeysFromDB_of_read {env : AirEnv} {dec : KeyDecoders env} {am : Machine env}
    {pubKeyBz privateKeyBz salt dp ds : Bytes}
    (h1 : dbGet env am.db pubKeyDBKey = .ok pubKeyBz)
    (h2 : dbGet env am.db privateKeyDBKey = .ok privateKeyBz)
    (h3 : dbGet env am.db saltDBKey = .ok salt)
    (h4 : dec.decrypt am.encryptionKey salt pubKeyBz = .ok dp)
    (h5 : dec.decrypt am.encryptionKey salt privateKeyBz = .ok ds) :
    LoadKeysFromDB dec am = unmarshalKeys dec am dp ds := by
  simp [LoadKeysFromDB, readKeys, h1, h2, h3, h4, h5]

/-- The reading and decrypting of the keys either fails on one of the three
entries or on one of the two keys, or gives both decrypted keys. -/
theorem readKeys_cases {env : AirEnv} (dec : KeyDecoders env) (am : Machine env) :
    ((∃ e, dbGet env am.db pubKeyDBKey = .error e) ∨
      (∃ e, dbGet env am.db privateKeyDBKey = .error e) ∨
      (∃ e, dbGet env am.db saltDBKey = .error e) ∨
      (∃ pubKeyBz privateKeyBz salt, dbGet env am.db pubKeyDBKey = .ok pubKeyBz ∧
        dbGet env am.db privateKeyDBKey = .ok privateKeyBz ∧
        dbGet env am.db saltDBKey = .ok salt ∧
        ((∃ e, dec.decrypt am.encryptionKey salt pubKeyBz = .error e) ∨
          (∃ e, dec.decrypt am.encryptionKey salt privateKeyBz = .error e)))) ∨
    (∃ pubKeyBz privateKeyBz salt dp ds, dbGet env am.db pubKeyDBKey = .ok pubKeyBz ∧
      dbGet env am.db privateKeyDBKey = .ok privateKeyBz ∧
      dbGet env am.db saltDBKey = .ok salt ∧
      dec.decrypt am.encryptionKey salt pubKeyBz = .ok dp ∧
      dec.decrypt am.encryptionKey salt privateKeyBz = .ok ds) := by
  cases h1 : dbGet env am.db pubKeyDBKey with
  | error e => exact Or.inl (Or.inl ⟨e, rfl⟩)
  | ok pubKeyBz =>
    cases h2 : dbGet env am.db privateKeyDBKey with
    | error e => exact Or.inl (Or.inr (Or.inl ⟨e, rfl⟩))
    | ok privateKeyBz =>
      cases h3 : dbGet env am.db saltDBKey with
      | error e => exact Or.inl (Or.inr (Or.inr (Or.inl ⟨e, rfl⟩)))
      | ok salt =>
        cases h4 : dec.decrypt am.encryptionKey salt pubKeyBz with
        | error e =>
          exact Or.inl (Or.inr (Or.inr (Or.inr
            ⟨pubKeyBz, privateKeyBz, salt, rfl, rfl, rfl, Or.inl ⟨e, h4⟩⟩)))
        | ok dp =>
          cases h5 : dec.decrypt am.encryptionKey salt privateKeyBz with
          | error e =>
            exact Or.inl (Or.inr (Or.inr (Or.inr
              ⟨pubKeyBz, privateKeyBz, salt, rfl, rfl, rfl, Or.inr ⟨e, h5⟩⟩)))
          | ok ds => exact Or.inr ⟨pubKeyBz, privateKeyBz, salt, dp, ds, rfl, rfl, rfl, h4, h5⟩

/-- The decoding of the keys when the public key does not decode. -/
theorem unmarshalKeys_pub_error {env : AirEnv} (dec : KeyDecoders env) (am : Machine env)
    (dp ds : Bytes) {e0 : Err}
    (h : (dec.UnmarshalPoint (dec.Point am.baseSuite) dp).1 = some e0) :
    unmarshalKeys dec am dp ds =
      (.error (wrap "failed to unmarshal public key" e0),
        { am with pubKey := (dec.UnmarshalPoint (dec.Point am.baseSuite) dp).2 }) := by
  rcases unmarshalKeys_cases dec am dp ds with ⟨e1, hp, hu⟩ | ⟨e1, hp, -, -⟩ | ⟨hp, -, -⟩
  · rw [hp] at h
    cases h
    exact hu
  · rw [hp] at h; cases h
  · rw [hp] at h; cases h

/-- The decoding of the keys when the public key decodes and the private key
does not. -/
theorem unmarshalKeys_priv_error {env : AirEnv} (dec : KeyDecoders env) (am : Machine env)
    (dp ds : Bytes) {e0 : Err}
    (hp : (dec.UnmarshalPoint (dec.Point am.baseSuite) dp).1 = none)
    (hs : (dec.UnmarshalScalar (dec.Scalar am.baseSuite) ds).1 = some e0) :
    unmarshalKeys dec am dp ds =
      (.error (wrap "failed to unmarshal private key" e0),
        { am with
          pubKey := (dec.UnmarshalPoint (dec.Point am.baseSuite) dp).2
          secKey := (dec.UnmarshalScalar (dec.Scalar am.baseSuite) ds).2 }) := by
  rcases unmarshalKeys_cases dec am dp ds with ⟨e1, hp1, -⟩ | ⟨e1, -, hs1, hu⟩ | ⟨-, hs1, -⟩
  · rw [hp1] at hp; cases hp
  · rw [hs1] at hs
    cases hs
    exact hu
  · rw [hs1] at hs; cases hs

/-- Claim C27, amended (`LoadKeysFromDB` on failure). When `LoadKeysFromDB`
fails to read `public_key`, `private_key` or `salt_key` or to decrypt a key,
it returns an error and the machine, and so its `pubKey` and `secKey`, is as
before the call. With the three entries read and both keys decrypted: when
the public key does not unmarshal, it returns that error, wrapped, `pubKey`
is the new point that the decoding was called on, as the decoding left it,
and `secKey` is as before; when the public key unmarshals and the private key
does not, it returns that error, wrapped, `pubKey` is the loaded public key
and `secKey` is the new scalar that the decoding was called on, as the
decoding left it. Every error is one of these three. The store and the
machine's other fields are never changed. -/
theorem LoadKeysFromDB_on_failure (env : AirEnv) (dec : KeyDecoders env) (am : Machine env) :
    (((∃ e, dbGet env am.db pubKeyDBKey = .error e) ∨
        (∃ e, dbGet env am.db privateKeyDBKey = .error e) ∨
        (∃ e, dbGet env am.db saltDBKey = .error e) ∨
        (∃ pubKeyBz privateKeyBz salt, dbGet env am.db pubKeyDBKey = .ok pubKeyBz ∧
          dbGet env am.db privateKeyDBKey = .ok privateKeyBz ∧
          dbGet env am.db saltDBKey = .ok salt ∧
          ((∃ e, dec.decrypt am.encryptionKey salt pubKeyBz = .error e) ∨
            (∃ e, dec.decrypt am.encryptionKey salt privateKeyBz = .error e)))) →
      (∃ e, (LoadKeysFromDB dec am).1 = .error e) ∧ (LoadKeysFromDB dec am).2 = am) ∧
    (∀ pubKeyBz privateKeyBz salt dp ds,
      dbGet env am.db pubKeyDBKey = .ok pubKeyBz →
      dbGet env am.db privateKeyDBKey = .ok privateKeyBz →
      dbGet env am.db saltDBKey = .ok salt →
      dec.decrypt am.encryptionKey salt pubKeyBz = .ok dp →
      dec.decrypt am.encryptionKey salt privateKeyBz = .ok ds →
        (∀ e0, (dec.UnmarshalPoint (dec.Point am.baseSuite) dp).1 = some e0 →
          (LoadKeysFromDB dec am).1 = .error (wrap "failed to unmarshal public key" e0) ∧
          (LoadKeysFromDB dec am).2 =
            { am with pubKey := (dec.UnmarshalPoint (dec.Point am.baseSuite) dp).2 } ∧
          (LoadKeysFromDB dec am).2.pubKey
            = (dec.UnmarshalPoint (dec.Point am.baseSuite) dp).2 ∧
          (LoadKeysFromDB dec am).2.secKey = am.secKey) ∧
        (∀ e0, (dec.UnmarshalPoint (dec.Point am.baseSuite) dp).1 = none →
          (dec.UnmarshalScalar (dec.Scalar am.baseSuite) ds).1 = some e0 →
          (LoadKeysFromDB dec am).1 = .error (wrap "failed to unmarshal private key" e0) ∧
          (LoadKeysFromDB dec am).2 =
            { am with
              pubKey := (dec.UnmarshalPoint (dec.Point am.baseSuite) dp).2
              secKey := (dec.UnmarshalScalar (dec.Scalar am.baseSuite) ds).2 } ∧
          (LoadKeysFromDB dec am).2.pubKey
            = (dec.UnmarshalPoint (dec.Point am.baseSuite) dp).2 ∧
          (LoadKeysFromDB dec am).2.secKey
            = (dec.UnmarshalScalar (dec.Scalar am.baseSuite) ds).2)) ∧
    (∀ e, (LoadKeysFromDB dec am).1 = .error e →
      ((∃ e1, dbGet env am.db pubKeyDBKey = .error e1) ∨
        (∃ e1, dbGet env am.db privateKeyDBKey = .error e1) ∨
        (∃ e1, dbGet env am.db saltDBKey = .error e1) ∨
        (∃ pubKeyBz privateKeyBz salt, dbGet env am.db pubKeyDBKey = .ok pubKeyBz ∧
          dbGet env am.db privateKeyDBKey = .ok privateKeyBz ∧
          dbGet env am.db saltDBKey = .ok salt ∧
          ((∃ e1, dec.decrypt am.encryptionKey salt pubKeyBz = .error e1) ∨
            (∃ e1, dec.decrypt am.encryptionKey salt privateKeyBz = .error e1)))) ∨
      (∃ pubKeyBz privateKeyBz salt dp ds, dbGet env am.db pubKeyDBKey = .ok pubKeyBz ∧
        dbGet env am.db privateKeyDBKey = .ok privateKeyBz ∧
        dbGet env am.db saltDBKey = .ok salt ∧
        dec.decrypt am.encryptionKey salt pubKeyBz = .ok dp ∧
        dec.decrypt am.encryptionKey salt privateKeyBz = .ok ds ∧
        ((∃ e0, (dec.UnmarshalPoint (dec.Point am.baseSuite) dp).1 = some e0 ∧
            e = wrap "failed to unmarshal public key" e0) ∨
          (∃ e0, (dec.UnmarshalPoint (dec.Point am.baseSuite) dp).1 = none ∧
            (dec.UnmarshalScalar (dec.Scalar am.baseSuite) ds).1 = some e0 ∧
            e = wrap "failed to unmarshal private key" e0)))) ∧
    ((LoadKeysFromDB dec am).2.db = am.db ∧
      (LoadKeysFromDB dec am).2.encryptionKey = am.encryptionKey ∧
      (LoadKeysFromDB dec am).2.baseSeed = am.baseSeed ∧
      (LoadKeysFromDB dec am).2.baseSuite = am.baseSuite) := by
  refine ⟨?_, ?_, ?_, ?_⟩
  · intro h
    obtain ⟨e, he⟩ := readKeys_error dec am h
    unfold LoadKeysFromDB
    rw [he]
    exact ⟨⟨e, rfl⟩, rfl⟩
  · intro pubKeyBz privateKeyBz salt dp ds h1 h2 h3 h4 h5
    rw [LoadKeysFromDB_of_read h1 h2 h3 h4 h5]
    constructor
    · intro e0 hp
      rw [unmarshalKeys_pub_error dec am dp ds hp]
      exact ⟨rfl, rfl, rfl, rfl⟩
    · intro e0 hp hs
      rw [unmarshalKeys_priv_error dec am dp ds hp hs]
      exact ⟨rfl, rfl, rfl, rfl⟩
  · intro e he
    rcases readKeys_cases dec am with h | ⟨pubKeyBz, privateKeyBz, salt, dp, ds, h1, h2, h3, h4, h5⟩
    · exact Or.inl h
    · right
      refine ⟨pubKeyBz, privateKeyBz, salt, dp, ds, h1, h2, h3, h4, h5, ?_⟩
      rw [LoadKeysFromDB_of_read h1 h2 h3 h4 h5] at he
      rcases unmarshalKeys_cases dec am dp ds with ⟨e0, hp, hu⟩ | ⟨e0, hp, hs, hu⟩ | ⟨-, -, hu⟩
      · rw [hu] at he
        simp only [Except.error.injEq] at he
        exact Or.inl ⟨e0, by rw [hp], he.symm⟩
      · rw [hu] at he
        simp only [Except.error.injEq] at he
        exact Or.inr ⟨e0, hp, by rw [hs], he.symm⟩
      · rw [hu] at he
        cases he
  · unfold LoadKeysFromDB
    cases hr : readKeys dec am with
    | error e1 => exact ⟨rfl, rfl, rfl, rfl⟩
    | ok r =>
      obtain ⟨dp, ds⟩ := r
      simp only
      rcases unmarshalKeys_cases dec am dp ds with ⟨e0, -, hu⟩ | ⟨e0, -, -, hu⟩ | ⟨-, -, hu⟩ <;>
        rw [hu] <;> exact ⟨rfl, rfl, rfl, rfl⟩

/-- Claim C27 on concrete stores: a missing salt leaves the keys as they
were; a public key that does not unmarshal leaves the new, empty point in
`pubKey`; a private key that does not unmarshal leaves the loaded public key
in `pubKey` and the new, empty scalar in `secKey`. -/
theorem LoadKeysFromDB_on_failure_witness :
    ((∃ e, (LoadKeysFromDB testDecoders (testMachine [("public_key", [3, 9, 21, 22]),
        ("private_key", [3, 9, 23])])).1 = .error e) ∧
      (LoadKeysFromDB testDecoders (testMachine [("public_key", [3, 9, 21, 22]),
        ("private_key", [3, 9, 23])])).2
        = testMachine [("public_key", [3, 9, 21, 22]), ("private_key", [3, 9, 23])]) ∧
    ((LoadKeysFromDB testDecoders (testMachine badPubKeyDB)).1
        = .error (wrap "failed to unmarshal public key" ["invalid point encoding"]) ∧
      (LoadKeysFromDB testDecoders (testMachine badPubKeyDB)).2 =
        { testMachine badPubKeyDB with
          pubKey := (testDecoders.UnmarshalPoint
            (testDecoders.Point (testMachine badPubKeyDB).baseSuite) []).2 } ∧
      (LoadKeysFromDB testDecoders (testMachine badPubKeyDB)).2.pubKey
        = (testDecoders.UnmarshalPoint
            (testDecoders.Point (testMachine badPubKeyDB).baseSuite) []).2 ∧
      (LoadKeysFromDB testDecoders (testMachine badPubKeyDB)).2.secKey
        = (testMachine badPubKeyDB).secKey) ∧
    pubKeyBytes (LoadKeysFromDB testDecoders (testMachine badPubKeyDB)).2 = [] ∧
    secKeyBytes (LoadKeysFromDB testDecoders (testMachine badPubKeyDB)).2 = [13] ∧
    (LoadKeysFromDB testDecoders (testMachine goodKeysDB)).1 = .ok () ∧
    pubKeyBytes (LoadKeysFromDB testDecoders (testMachine goodKeysDB)).2 = [21, 22] ∧
    secKeyBytes (LoadKeysFromDB testDecoders (testMachine goodKeysDB)).2 = [23] :=
  ⟨(LoadKeysFromDB_on_failure testAirEnv testDecoders
      (testMachine [("public_key", [3, 9, 21, 22]), ("private_key", [3, 9, 23])])).1
      (Or.inr (Or.inr (Or.inl ⟨ErrNotFound, by decide⟩))),
    ((LoadKeysFromDB_on_failure testAirEnv testDecoders (testMachine badPubKeyDB)).2.1
      [3, 9] [3, 9, 23] [9] [] [23] (by decide) (by decide) (by decide) (by decide)
      (by decide)).1 ["invalid point encoding"] rfl,
    by decide, by decide, by decide, by decide, by decide⟩


/-! ## One operation per response that needs one -/

/-- A response that needs no operation materializes none. -/
theorem materialize_of_needsNoOperation {env : Env} {amb : Ambient} {m : Message}
    {r : Response env.D × Bytes × env.F} (h : needsNoOperation env r) :
    materialize env amb r.2.2 m r.1 = .ok none := by
  rcases h with h | h | ⟨data, inv, p, hd, h1, h2, h3⟩
  · exact materialize_not_await h
  · exact materialize_no_data h
  · exact materialize_initiator_self hd h1 h2 h3

/-- A run that needs no operation makes no `PutOperation` call and leaves
the pool as it was. -/
theorem ProcessMessage_pool_of_run {env : Env} {amb : Ambient} {m : Message} {w : World}
    (h : runNeedsNoOperation env amb m w) :
    putOperations (ProcessMessage env amb m w).calls = [] ∧
    (ProcessMessage env amb m w).world.operations = w.operations := by
  by_cases hev : m.Event = env.K.SignatureReconstructed
  · rw [ProcessMessage_reconstructed hev]
    exact saveReconstructed_pool env m w
  · rw [ProcessMessage_byFSM hev]
    have hq := (quiet_calls (resolveFSM_quiet env m w)).2.1
    have hfr := (resolveFSM_frame env m w).2.1
    cases hf : (resolveAndVerify env m w).result with
    | error e => rw [processByFSM_stop_resolve hf]; exact ⟨hq, hfr⟩
    | ok f =>
      cases hr : runFSM env amb f m with
      | error e => rw [processByFSM_stop_run hf hr]; exact ⟨hq, hfr⟩
      | ok r =>
        obtain ⟨op, d⟩ := r
        obtain ⟨req, r1, r2, hreq, hdo, hm, -, -⟩ := runFSM_ok hr
        rw [materialize_of_needsNoOperation (h f req r1 hf hreq hdo)] at hm
        cases hm
        rw [processByFSM_run hf hr]
        have hp := persist_none_pool env m d (resolveFSM env m w).world
        simp only [putOperations_append, hq, hp.1, hp.2, hfr, List.append_nil, and_self]

/-- The loop of `Poll` over messages whose runs need no operation makes no
`PutOperation` call and leaves the pool as it was. -/
theorem handleMessages_pool_of_runs {env : Env} (rest : List (Ambient × Message)) (w : World)
    (h : runsNeedNoOperation env rest w) :
    putOperations (handleMessages env rest w).calls = [] ∧
    (handleMessages env rest w).world.operations = w.operations := by
  induction rest generalizing w with
  | nil => exact ⟨rfl, rfl⟩
  | cons s rest ih =>
    obtain ⟨amb, m⟩ := s
    unfold runsNeedNoOperation at h
    unfold handleMessages
    by_cases hr : m.RecipientAddr = "" ∨ m.RecipientAddr = GetUsername env
    · rw [if_pos hr] at h ⊢
      have hs := ProcessMessage_pool_of_run h.1
      have := ih (ProcessMessage env amb m w).world h.2
      simp only [putOperations_append, hs.1, this.1, this.2, hs.2, List.append_nil, and_self]
    · rw [if_neg hr] at h ⊢
      exact ih w h

/-- The operations of one type and round after an operation of that type and
round was put into a pool that holds none with its id. -/
theorem operationsFor_poolWith (pool : List Operation) (o : Operation)
    (h : ∀ p ∈ pool, p.ID ≠ o.ID) :
    poolWith pool (some o) = pool ++ [o] ∧
    operationsFor (poolWith pool (some o)) o.OperationType o.DKGIdentifier =
      operationsFor pool o.OperationType o.DKGIdentifier ++ [o] := by
  have hp : poolWith pool (some o) = pool ++ [o] := by
    simp only [poolWith]
    rw [List.filter_eq_self.2 (fun p hp => by simpa using h p hp)]
  refine ⟨hp, ?_⟩
  rw [hp]
  simp [operationsFor, List.filter_append]

/-- A successful run whose response is in an await state with data, this
node not being the initiator of a signing invitation, puts the operation for
that response. -/
theorem ProcessMessage_puts_operation {env : Env} {amb : Ambient} {m : Message} {w : World}
    {f : env.F} {req : env.Req} {r : Response env.D × Bytes × env.F} {data : env.D}
    {bz : Bytes}
    (hev : m.Event ≠ env.K.SignatureReconstructed)
    (hf : (resolveAndVerify env m w).result = .ok f)
    (hq : env.FSMRequestFromMessage m = .ok req)
    (hd : doWithChains env amb f m req = .ok r)
    (hs : r.1.State ∈ awaitStates env.K) (hdata : r.1.Data = some data)
    (hn : notInitiator env r.2.2 data) (hm : env.MarshalResponse data = .ok bz)
    (hok : (ProcessMessage env amb m w).result = .ok ()) :
    putOperations (ProcessMessage env amb m w).calls = [operationFor amb m r.1.State bz] ∧
    (ProcessMessage env amb m w).world.operations
      = poolWith w.operations (some (operationFor amb m r.1.State bz)) := by
  rw [ProcessMessage_byFSM hev] at hok ⊢
  obtain ⟨f1, op, d, hf1, hr, hp, hc, hw⟩ := processByFSM_ok hok
  rw [hf] at hf1
  cases hf1
  obtain ⟨req1, r1, r2, hq1, hd1, hm1, -, -⟩ := runFSM_ok hr
  rw [hq] at hq1
  cases hq1
  rw [hd] at hd1
  cases hd1
  rw [materialize_notInitiator hs hdata hn hm] at hm1
  cases hm1
  have hqc := (quiet_calls (resolveFSM_quiet env m w)).2.1
  constructor
  · rw [hc, putOperations_append, hqc, persist_putOperations]
    rfl
  · rw [hw, (persist_ok hp).2, (resolveFSM_frame env m w).2.1]

/-- Claim C5, amended (one operation per response that needs one). Starting
from an empty pool, once a message has been processed successfully and has
put an operation, the pool holds exactly that operation for as long as the
runs of the further messages need no operation: the response of the run
carries no data, its state is not an await state of the `switch`, or this
node is the signing initiator; no `PutOperation` call is made for them. A
successfully processed message whose response leaves the FSM in an await
state of the `switch` with response data, this node not being the signing
initiator, puts one operation of that state's type for the round, whatever
the pool holds: the operations of that type and round are those that were in
the pool and the new one, so a message that leaves the FSM in the same await
state with response data puts a second operation. -/
theorem one_operation_while_no_data (env : Env) :
    (∀ (amb : Ambient) (m : Message) (w : World) (op : Operation)
        (rest : List (Ambient × Message)),
      w.operations = [] → (ProcessMessage env amb m w).result = .ok () →
      putOperations (ProcessMessage env amb m w).calls = [op] →
      runsNeedNoOperation env rest (ProcessMessage env amb m w).world →
        (ProcessMessage env amb m w).world.operations = [op] ∧
        putOperations (handleMessages env rest (ProcessMessage env amb m w).world).calls = [] ∧
        (handleMessages env rest (ProcessMessage env amb m w).world).world.operations = [op]) ∧
    (∀ (amb : Ambient) (m : Message) (w : World) (f : env.F) (req : env.Req)
        (r : Response env.D × Bytes × env.F) (data : env.D) (bz : Bytes),
      m.Event ≠ env.K.SignatureReconstructed →
      (resolveAndVerify env m w).result = .ok f →
      env.FSMRequestFromMessage m = .ok req →
      doWithChains env amb f m req = .ok r →
      r.1.State ∈ awaitStates env.K → r.1.Data = some data →
      notInitiator env r.2.2 data → env.MarshalResponse data = .ok bz →
      (ProcessMessage env amb m w).result = .ok () →
        putOperations (ProcessMessage env amb m w).calls = [operationFor amb m r.1.State bz] ∧
        (operationFor amb m r.1.State bz).OperationType = r.1.State ∧
        (operationFor amb m r.1.State bz).DKGIdentifier = m.DkgRoundID ∧
        ((∀ p ∈ w.operations, p.ID ≠ amb.uuid) →
          (ProcessMessage env amb m w).world.operations
            = w.operations ++ [operationFor amb m r.1.State bz] ∧
          operationsFor (ProcessMessage env amb m w).world.operations r.1.State m.DkgRoundID
            = operationsFor w.operations r.1.State m.DkgRoundID ++
                [operationFor amb m r.1.State bz] ∧
          (operationsFor (ProcessMessage env amb m w).world.operations r.1.State
              m.DkgRoundID).length
            = (operationsFor w.operations r.1.State m.DkgRoundID).length + 1)) := by
  constructor
  · intro amb m w op rest hempty hok hput hrest
    have h1 : (ProcessMessage env amb m w).world.operations = [op] := by
      by_cases hev : m.Event = env.K.SignatureReconstructed
      · rw [ProcessMessage_reconstructed hev] at hput
        rw [(saveReconstructed_pool env m w).1] at hput
        cases hput
      · rw [ProcessMessage_byFSM hev] at hok hput ⊢
        obtain ⟨f, op1, d, -, -, hp, hc, hw⟩ := processByFSM_ok hok
        have hq := (quiet_calls (resolveFSM_quiet env m w)).2.1
        rw [hc, putOperations_append, hq, (persist_ok hp).1] at hput
        rw [hw, (persist_ok hp).2]
        cases op1 with
        | none => simp [putOperations, Call.putOperation?] at hput
        | some o =>
          simp [putOperations, Call.putOperation?] at hput
          subst hput
          simp [poolWith, (resolveFSM_frame env m w).2.1, hempty]
    have h2 := handleMessages_pool_of_runs rest (ProcessMessage env amb m w).world hrest
    exact ⟨h1, h2.1, by rw [h2.2, h1]⟩
  · intro amb m w f req r data bz hev hf hq hd hs hdata hn hm hok
    obtain ⟨hput, hpool⟩ := ProcessMessage_puts_operation hev hf hq hd hs hdata hn hm hok
    refine ⟨hput, rfl, rfl, ?_⟩
    intro hfresh
    have hfor := operationsFor_poolWith w.operations (operationFor amb m r.1.State bz) hfresh
    rw [hpool]
    refine ⟨hfor.1, hfor.2, ?_⟩
    have := hfor.2
    simp only [operationFor] at this ⊢
    rw [this]
    simp

/-- In the test environment the run of a confirmation that is not the last
one, after the proposal was made, needs no operation: its response carries no
data. -/
theorem earlyConfirm_runNeedsNoOperation :
    runsNeedNoOperation testEnv [(otherAmbient, earlyConfirm)]
      (ProcessMessage testEnv testAmbient initMessage emptyWorld).world := by
  have hw : (ProcessMessage testEnv testAmbient initMessage emptyWorld).world = worldAfterInit := by
    decide
  rw [hw]
  unfold runsNeedNoOperation
  have hr : earlyConfirm.RecipientAddr = "" ∨ earlyConfirm.RecipientAddr = GetUsername testEnv :=
    Or.inl rfl
  rw [if_pos hr]
  refine ⟨?_, by unfold runsNeedNoOperation; trivial⟩
  intro f req r hf hq hd
  have hf0 : (resolveAndVerify testEnv earlyConfirm worldAfterInit).result
      = .ok (testFSM "state_sig_proposal_await_participants_confirmations" []) := rfl
  rw [hf0] at hf
  cases hf
  have hq0 : testEnv.FSMRequestFromMessage earlyConfirm = .ok (testReq 0) := rfl
  rw [hq0] at hq
  cases hq
  have hd0 : doWithChains testEnv otherAmbient
      (testFSM "state_sig_proposal_await_participants_confirmations" []) earlyConfirm (testReq 0)
      = .ok (testRun "state_sig_proposal_await_participants_confirmations" none []) := rfl
  rw [hd0] at hd
  cases hd
  exact Or.inr (Or.inl rfl)

/-- Claim C5 on round `r1`: after `initMessage` has put its operation a
confirmation that is not the last one leaves the pool as it is; in the state
that awaits the commits, which holds one operation of that type, a commit
confirmation puts the second one. -/
theorem one_operation_while_no_data_witness :
    ((ProcessMessage testEnv testAmbient initMessage emptyWorld).world.operations
        = [initOperation] ∧
      putOperations (handleMessages testEnv [(otherAmbient, earlyConfirm)]
        (ProcessMessage testEnv testAmbient initMessage emptyWorld).world).calls = [] ∧
      (handleMessages testEnv [(otherAmbient, earlyConfirm)]
        (ProcessMessage testEnv testAmbient initMessage emptyWorld).world).world.operations
        = [initOperation]) ∧
    (putOperations (ProcessMessage testEnv thirdAmbient commitConfirm worldAwaitingCommits).calls
        = [operationFor thirdAmbient commitConfirm
            (testRun "state_dkg_commits_await_confirmations" (some none) [100]).1.State [0]] ∧
      (operationFor thirdAmbient commitConfirm
        (testRun "state_dkg_commits_await_confirmations" (some none) [100]).1.State
        [0]).OperationType
        = (testRun "state_dkg_commits_await_confirmations" (some none) [100]).1.State ∧
      (operationFor thirdAmbient commitConfirm
        (testRun "state_dkg_commits_await_confirmations" (some none) [100]).1.State
        [0]).DKGIdentifier = commitConfirm.DkgRoundID ∧
      ((∀ p ∈ worldAwaitingCommits.operations, p.ID ≠ thirdAmbient.uuid) →
        (ProcessMessage testEnv thirdAmbient commitConfirm worldAwaitingCommits).world.operations
          = worldAwaitingCommits.operations ++
            [operationFor thirdAmbient commitConfirm
              (testRun "state_dkg_commits_await_confirmations" (some none) [100]).1.State [0]] ∧
        operationsFor
          (ProcessMessage testEnv thirdAmbient commitConfirm worldAwaitingCommits).world.operations
          (testRun "state_dkg_commits_await_confirmations" (some none) [100]).1.State
          commitConfirm.DkgRoundID
          = operationsFor worldAwaitingCommits.operations
              (testRun "state_dkg_commits_await_confirmations" (some none) [100]).1.State
              commitConfirm.DkgRoundID ++
            [operationFor thirdAmbient commitConfirm
              (testRun "state_dkg_commits_await_confirmations" (some none) [100]).1.State
              [0]] ∧
        (operationsFor
          (ProcessMessage testEnv thirdAmbient commitConfirm worldAwaitingCommits).world.operations
          (testRun "state_dkg_commits_await_confirmations" (some none) [100]).1.State
          commitConfirm.DkgRoundID).length
          = (operationsFor worldAwaitingCommits.operations
              (testRun "state_dkg_commits_await_confirmations" (some none) [100]).1.State
              commitConfirm.DkgRoundID).length + 1)) ∧
    (∀ p ∈ worldAwaitingCommits.operations, p.ID ≠ thirdAmbient.uuid) ∧
    (operationsFor worldAwaitingCommits.operations "state_dkg_commits_await_confirmations"
      "r1").length = 1 :=
  ⟨(one_operation_while_no_data testEnv).1 testAmbient initMessage emptyWorld initOperation
      [(otherAmbient, earlyConfirm)] rfl (by decide) (by decide) earlyConfirm_runNeedsNoOperation,
    (one_operation_while_no_data testEnv).2 thirdAmbient commitConfirm worldAwaitingCommits
      (testFSM "state_dkg_commits_await_confirmations" [100]) (testReq 0)
      (testRun "state_dkg_commits_await_confirmations" (some none) [100]) (testData none) [0]
      (by decide) rfl rfl rfl (by decide) rfl (Or.inl rfl) rfl (by decide),
    by decide, by decide⟩

end DC4BC
